import Mathlib

/-!
Verification development for the gateway state cache and its cold-resume
protocol (src/core/cache/mod.rs).  The concurrent DashMaps of the source are
embedded as association lists over Nat keys; atomic u64 counters are Nat
values reduced mod 2^64; the prometheus i64 gauges are Int values wrapped to
the i64 range.  Entity files (guild.rs, member.rs, user.rs, channel.rs,
emoji.rs) are absent from the sources; where their behaviour matters it is
modelled from the spec and marked as such.  Notably the spec (section 9)
prescribes representing the shared reference-counted user registry as
"an authoritative owning index plus a counter", which is the representation
used here: a member stores the user id, and the mutual-guild counter lives in
the global user index record.
-/

set_option autoImplicit false

/-- Association-list map with Nat keys, embedding DashMap. -/
abbrev NMap (V : Type) := List (Nat × V)

/-- First-match lookup, embedding DashMap::get. -/
def lookupAL {V : Type} : NMap V → Nat → Option V
  | [], _ => none
  | (k, v) :: t, q => if k = q then some v else lookupAL t q

/-- In-place replace-or-append insert, embedding DashMap::insert. -/
def insertAL {V : Type} : NMap V → Nat → V → NMap V
  | [], k, v => [(k, v)]
  | (k', v') :: t, k, v => if k' = k then (k, v) :: t else (k', v') :: insertAL t k v

/-- Key removal, embedding DashMap::remove. -/
def eraseAL {V : Type} : NMap V → Nat → NMap V
  | [], _ => []
  | (k', v') :: t, k => if k' = k then eraseAL t k else (k', v') :: eraseAL t k

/-- The list of keys of an association list. -/
def keysAL {V : Type} (l : NMap V) : List Nat := l.map (fun p => p.1)

@[simp] theorem lookupAL_nil {V : Type} (q : Nat) : lookupAL ([] : NMap V) q = none := rfl

@[simp] theorem lookupAL_cons {V : Type} (k : Nat) (v : V) (t : NMap V) (q : Nat) :
    lookupAL ((k, v) :: t) q = if k = q then some v else lookupAL t q := rfl

theorem lookupAL_insert_self {V : Type} (l : NMap V) (k : Nat) (v : V) :
    lookupAL (insertAL l k v) k = some v := by
  induction l with
  | nil => simp [insertAL, lookupAL]
  | cons h t ih =>
    by_cases hk : h.1 = k
    · simp [insertAL, hk, lookupAL]
    · simp [insertAL, hk, lookupAL, ih]

theorem lookupAL_insert_ne {V : Type} (l : NMap V) (k q : Nat) (v : V) (h : k ≠ q) :
    lookupAL (insertAL l k v) q = lookupAL l q := by
  induction l with
  | nil => simp [insertAL, lookupAL, h]
  | cons hd t ih =>
    by_cases hk : hd.1 = k
    · subst hk
      simp [insertAL, lookupAL, h]
    · simp [insertAL, hk, lookupAL, ih]

theorem lookupAL_insert {V : Type} (l : NMap V) (k q : Nat) (v : V) :
    lookupAL (insertAL l k v) q = if k = q then some v else lookupAL l q := by
  by_cases h : k = q
  · subst h; simp [lookupAL_insert_self]
  · simp [h, lookupAL_insert_ne l k q v h]

theorem lookupAL_erase_self {V : Type} (l : NMap V) (k : Nat) :
    lookupAL (eraseAL l k) k = none := by
  induction l with
  | nil => simp [eraseAL]
  | cons hd t ih =>
    rcases hd with ⟨k', v'⟩
    by_cases hk : k' = k
    · simpa [eraseAL, hk] using ih
    · simpa [eraseAL, hk, lookupAL] using ih

theorem lookupAL_erase_ne {V : Type} (l : NMap V) (k q : Nat) (h : k ≠ q) :
    lookupAL (eraseAL l k) q = lookupAL l q := by
  induction l with
  | nil => simp [eraseAL]
  | cons hd t ih =>
    rcases hd with ⟨k', v'⟩
    by_cases hk : k' = k
    · have hq : k' ≠ q := by rw [hk]; exact h
      simpa [eraseAL, hk, lookupAL, hq, h] using ih
    · by_cases hdq : k' = q
      · simp [eraseAL, hk, lookupAL, hdq, Ne.symm h]
      · simpa [eraseAL, hk, lookupAL, hdq] using ih

theorem lookupAL_erase {V : Type} (l : NMap V) (k q : Nat) :
    lookupAL (eraseAL l k) q = if k = q then none else lookupAL l q := by
  by_cases h : k = q
  · subst h; simp [lookupAL_erase_self]
  · simp [h, lookupAL_erase_ne l k q h]

theorem lookupAL_isSome_iff_mem_keys {V : Type} (l : NMap V) (q : Nat) :
    (lookupAL l q).isSome ↔ q ∈ keysAL l := by
  induction l with
  | nil => simp [keysAL]
  | cons hd t ih =>
    by_cases hk : hd.1 = q
    · simp [keysAL, lookupAL, hk]
    · simpa [keysAL, lookupAL, hk, Ne.symm hk] using ih

/-- 2^64, the modulus of the u64 atomics. -/
def u64Mod : Nat := 2 ^ 64

/-- AtomicU64::fetch_add(1) result, as the wrapped successor. -/
def u64Inc (n : Nat) : Nat := (n + 1) % u64Mod

/-- AtomicU64::fetch_sub(1) result, as the wrapped predecessor. -/
def u64Dec (n : Nat) : Nat := (n + (u64Mod - 1)) % u64Mod

/-- Wrap an Int into the i64 range, for the prometheus IntGauge arithmetic. -/
def i64Wrap (z : Int) : Int := ((z + 2 ^ 63) % 2 ^ 64) - 2 ^ 63

def i64Inc (z : Int) : Int := i64Wrap (z + 1)

def i64Dec (z : Int) : Int := i64Wrap (z - 1)

def i64Add (z d : Int) : Int := i64Wrap (z + d)

def i64Sub (z d : Int) : Int := i64Wrap (z - d)

/-- BotStats gauges touched by the cache (guild_counts.partial is rendered
as pendingGuilds). -/
structure BotStats where
  channelCount : Int
  pendingGuilds : Int
  loadedGuilds : Int
  outageGuilds : Int
  totalUsers : Int
  uniqueUsers : Int
deriving DecidableEq

/-- Modelled from the spec: user.rs is absent from the sources.  A cached
user record is the user's scalar data plus the mutual-guild counter; per
spec section 9 the shared Arc graph is represented as the owning index plus
the counter, so the counter lives here in the index record. -/
structure CachedUser where
  username : String
  botUser : Bool
  mutualServers : Nat
deriving DecidableEq

/-- User scalar data as carried by wire events. -/
structure UserData where
  username : String
  botUser : Bool
deriving DecidableEq

/-- Modelled from the spec: member.rs is absent from the sources.  A member
is the per-(guild, user) attributes plus the reference to the shared user,
represented as the user id (spec section 9). -/
structure CachedMember where
  userId : Nat
  nickname : Option String
  roleIds : List Nat
deriving DecidableEq

/-- CachedRole (role.rs). -/
structure CachedRole where
  id : Nat
  name : String
  permissions : Nat
  managed : Bool
  mentionable : Bool
deriving DecidableEq

/-- Modelled from the spec: emoji.rs is absent from the sources; a per-guild
custom emoji record, indexed in the guild and in the flat global index. -/
structure CachedEmoji where
  id : Nat
  name : String
deriving DecidableEq

/-- Modelled from the spec: channel.rs is absent from the sources.  A channel
is either guild-scoped or a private (DM) channel with a recipient. -/
inductive CachedChannel where
  | guildCh (id : Nat) (guildId : Nat) (name : String)
  | dm (id : Nat) (receiver : Option Nat)
deriving DecidableEq

def CachedChannel.getId : CachedChannel → Nat
  | .guildCh id _ _ => id
  | .dm id _ => id

/-- Modelled from the spec: guild.rs is absent from the sources.  The guild
aggregate root: own maps of members, channels, roles, emoji, plus the
completeness flag and the live member count. -/
structure CachedGuild where
  id : Nat
  name : String
  members : NMap CachedMember
  channels : NMap CachedChannel
  roles : NMap CachedRole
  emoji : NMap CachedEmoji
  complete : Bool
  memberCount : Nat
deriving DecidableEq

/-- The Cache aggregate (struct Cache in mod.rs). -/
structure Cache where
  clusterId : Nat
  guilds : NMap CachedGuild
  guildChannels : NMap CachedChannel
  privateChannels : NMap CachedChannel
  dmChannelsByUser : NMap CachedChannel
  users : NMap CachedUser
  emoji : NMap CachedEmoji
  filling : Bool
  unavailableGuilds : List Nat
  expected : List Nat
  stats : BotStats
  missingPerShard : NMap Nat
deriving DecidableEq

/-- Cache::new. -/
def Cache.new : Cache where
  clusterId := 0
  guilds := []
  guildChannels := []
  privateChannels := []
  dmChannelsByUser := []
  users := []
  emoji := []
  filling := true
  unavailableGuilds := []
  expected := []
  stats := { channelCount := 0, pendingGuilds := 0, loadedGuilds := 0,
             outageGuilds := 0, totalUsers := 0, uniqueUsers := 0 }
  missingPerShard := []

/-- Cache::get_guild. -/
def Cache.getGuild (s : Cache) (guildId : Nat) : Option CachedGuild :=
  lookupAL s.guilds guildId

/-- Cache::get_user. -/
def Cache.getUser (s : Cache) (userId : Nat) : Option CachedUser :=
  lookupAL s.users userId

/-- Cache::get_or_insert_user (from_user initialises the counter to 0, as
the cold-storage construction in mod.rs does explicitly). -/
def Cache.getOrInsertUser (s : Cache) (userId : Nat) (d : UserData) : Cache :=
  match s.getUser userId with
  | some _ => s
  | none =>
      { s with
        users := insertAL s.users userId
          { username := d.username, botUser := d.botUser, mutualServers := 0 },
        stats := { s.stats with uniqueUsers := i64Inc s.stats.uniqueUsers } }

/-- Cache::shard_cached. -/
def Cache.shardCached (s : Cache) (shardId : Nat) : Bool :=
  match lookupAL s.missingPerShard shardId with
  | some n => n == 0
  | none => true

/-- Payload of a role event (twilight Role). -/
structure RolePayload where
  id : Nat
  name : String
  permissions : Nat
  managed : Bool
  mentionable : Bool
deriving DecidableEq

/-- CachedRole::from_role. -/
def CachedRole.fromRole (r : RolePayload) : CachedRole where
  id := r.id
  name := r.name
  permissions := r.permissions
  managed := r.managed
  mentionable := r.mentionable

/-- Payload of a member on the wire (twilight Member). -/
structure MemberPayload where
  userId : Nat
  user : UserData
  nickname : Option String
  roleIds : List Nat
deriving DecidableEq

/-- Payload of a GuildCreate event (twilight Guild). -/
structure GuildPayload where
  id : Nat
  name : String
  channels : List (Nat × String)
  roles : List RolePayload
  emoji : List (Nat × String)
  memberCount : Nat
deriving DecidableEq

/-- Payload of a channel event (twilight Channel). -/
inductive ChannelPayload where
  | group
  | guildKind (guildId : Option Nat) (id : Nat) (name : String)
  | priv (id : Nat) (recipients : List Nat)
deriving DecidableEq

/-- The gateway events handled by Cache::update (the wildcard arm is
`other`). -/
inductive GatewayEvent where
  | ready (guildCount : Nat)
  | guildCreate (p : GuildPayload)
  | guildUpdate (id : Nat) (name : String)
  | guildDelete (id : Nat) (unavailable : Bool)
  | memberChunk (guildId : Nat) (chunkIndex : Nat) (chunkCount : Nat)
      (nonce : Option String) (members : List (Nat × MemberPayload))
  | channelCreate (c : ChannelPayload)
  | channelUpdate (c : ChannelPayload)
  | channelDelete (c : ChannelPayload)
  | memberAdd (guildId : Nat) (m : MemberPayload)
  | memberUpdate (guildId : Nat) (userId : Nat) (user : UserData)
      (nickname : Option String) (roleIds : List Nat)
  | memberRemove (guildId : Nat) (userId : Nat)
  | roleCreate (guildId : Nat) (role : RolePayload)
  | roleUpdate (guildId : Nat) (role : RolePayload)
  | roleDelete (guildId : Nat) (roleId : Nat)
  | other
deriving DecidableEq

/-- Results of the two outbound transport calls Cache::update can make:
the RequestGuildMembers cluster command and Context::set_shard_activity.
`none` is success; `some e` is the transport error.  `shardsReady` stands
for `ctx.shard_states.iter().all(Ready)`. -/
structure UpdateCtx where
  cmdResult : Option Nat
  activityResult : Option Nat
  shardsReady : Bool
deriving DecidableEq

/-- The error type of Cache::update (crate::Error variants reachable from
it). -/
inductive BotError where
  | twilightCluster (e : Nat)
  | activitySet (e : Nat)
deriving DecidableEq

/-- What an update run does: return Ok, return Err, or abort on a panicking
unwrap (missing missing_per_shard entry). -/
inductive UOut where
  | ok
  | err (e : BotError)
  | panicked
deriving DecidableEq

/-- Outcome and post-state of one Cache::update call.  The state on `err`
and `panicked` is the state at the moment of early return/abort: by then the
earlier map mutations of the arm have already happened. -/
structure UpdRes where
  out : UOut
  state : Cache
deriving DecidableEq

/-- Modelled from the spec: guild.rs is absent.  CachedGuild::from(Guild)
has no access to the cache, so it cannot register users; the member map
starts empty and is filled by the member chunks the dispatcher requests
(spec 4.1: after GuildCreate the guild is present but marked incomplete,
and a full member-chunk dump is requested). -/
def CachedGuild.fromPayload (p : GuildPayload) : CachedGuild where
  id := p.id
  name := p.name
  members := []
  channels := p.channels.foldl
    (fun (acc : NMap CachedChannel) (c : Nat × String) =>
      insertAL acc c.1 (CachedChannel.guildCh c.1 p.id c.2)) []
  roles := p.roles.foldl
    (fun (acc : NMap CachedRole) r => insertAL acc r.id (CachedRole.fromRole r)) []
  emoji := p.emoji.foldl
    (fun (acc : NMap CachedEmoji) (e : Nat × String) =>
      insertAL acc e.1 { id := e.1, name := e.2 }) []
  complete := false
  memberCount := p.memberCount

/-- CachedMember::from_member: obtains the shared user through
get_or_insert_user and records the per-guild attributes. -/
def Cache.fromMember (s : Cache) (m : MemberPayload) : Cache × CachedMember :=
  (s.getOrInsertUser m.userId m.user,
   { userId := m.userId, nickname := m.nickname, roleIds := m.roleIds })

/-- member.user.mutual_servers.fetch_add(1): bump the counter of the user
record the member references. -/
def Cache.incMutual (s : Cache) (userId : Nat) : Cache :=
  match lookupAL s.users userId with
  | some u =>
      { s with users := insertAL s.users userId { u with mutualServers := u64Inc u.mutualServers } }
  | none => s

/-- member.user.mutual_servers.fetch_sub(1) followed by the `== 1` check of
MemberRemove / nuke_guild_cache: decrement the counter and evict the record
when the pre-decrement value was 1 (the atomic decrement-and-check). -/
def Cache.decMutualEvict (s : Cache) (userId : Nat) : Cache :=
  match lookupAL s.users userId with
  | some u =>
      if u.mutualServers == 1 then
        { s with users := eraseAL s.users userId,
                 stats := { s.stats with uniqueUsers := i64Dec s.stats.uniqueUsers } }
      else
        { s with users := insertAL s.users userId { u with mutualServers := u64Dec u.mutualServers } }
  | none => s

/-- Cache::nuke_guild_cache: unindex the guild's channels globally, drop a
mutual-guild reference for every member (evicting users that reach zero),
and unindex its emoji.  The guild record itself and the guilds map are not
touched. -/
def Cache.nukeGuildCache (s : Cache) (g : CachedGuild) : Cache :=
  let s1 := { s with
    guildChannels := g.channels.foldl
      (fun acc (c : Nat × CachedChannel) => eraseAL acc c.1) s.guildChannels }
  let s2 := { s1 with
    stats := { s1.stats with channelCount := i64Sub s1.stats.channelCount g.channels.length } }
  let s3 := g.members.foldl (fun acc m => acc.decMutualEvict m.2.userId) s2
  let s4 := { s3 with
    stats := { s3.stats with totalUsers := i64Sub s3.stats.totalUsers g.members.length } }
  let newEmoji := g.emoji.foldl (fun acc (e : Nat × CachedEmoji) => eraseAL acc e.2.id) s4.emoji
  { s4 with emoji := newEmoji }

/-- Cache::guild_unavailable. -/
def Cache.guildUnavailable (s : Cache) (g : CachedGuild) : Cache :=
  { s with stats := { s.stats with outageGuilds := i64Inc s.stats.outageGuilds },
           unavailableGuilds := s.unavailableGuilds ++ [g.id] }

/-- Cache::insert_private_channel. -/
def Cache.insertPrivateChannel (s : Cache) (id : Nat) (recipients : List Nat) : Cache :=
  let ch := CachedChannel.dm id recipients.head?
  let s1 := match recipients.head? with
    | some r => { s with dmChannelsByUser := insertAL s.dmChannelsByUser r ch }
    | none => s
  { s1 with privateChannels := insertAL s1.privateChannels id ch }

/-- Replace the record of guild `gid` in the guilds map (the source mutates
the guild record in place through its Arc; the functional rendering rewrites
the entry). -/
def Cache.modifyGuild (s : Cache) (gid : Nat) (f : CachedGuild → CachedGuild) : Cache :=
  match lookupAL s.guilds gid with
  | some g => { s with guilds := insertAL s.guilds gid (f g) }
  | none => s

/-- Remove the first occurrence of an id from a list (the
position-then-remove pattern on the unavailable-guilds Vec). -/
def removeFirst : List Nat → Nat → List Nat
  | [], _ => []
  | x :: t, k => if x = k then t else x :: removeFirst t k

/-- Cache::member_update (one attempt).  Returns false when the member is
absent and a retry is allowed, mirroring the early `return false`.  The
source's insert of CachedUser::from_user on changed data is rendered as a
data refresh of the index record (the counter is the index's, spec
section 9). -/
def Cache.memberUpdateStep (s : Cache) (gid uid : Nat) (ud : UserData)
    (nick : Option String) (roleIds : List Nat) (retry : Bool) : Bool × Cache :=
  match s.getGuild gid with
  | some guild =>
      let member? := lookupAL guild.members uid
      if member?.isNone && retry then (false, s)
      else
        let s1 :=
          match s.getUser uid with
          | some user =>
              if user.username = ud.username ∧ user.botUser = ud.botUser then s
              else
                let fresh : CachedUser :=
                  { username := ud.username, botUser := ud.botUser,
                    mutualServers := user.mutualServers }
                { s with users := insertAL s.users uid fresh }
          | none => if guild.complete then s.getOrInsertUser uid ud else s
        match member? with
        | some m =>
            let updated : CachedMember := { userId := m.userId, nickname := nick, roleIds := roleIds }
            (true, s1.modifyGuild gid (fun g => { g with members := insertAL g.members m.userId updated }))
        | none => (true, s1)
  | none => (true, s)

/-- The member loop of the MemberChunk arm: for each chunk member,
get_or_insert the shared user, build the member (which itself resolves the
shared user), bump the mutual counter and insert the member. -/
def Cache.chunkFold (s : Cache) (gid : Nat) (ms : List (Nat × MemberPayload)) : Cache :=
  ms.foldl
    (fun acc (km : Nat × MemberPayload) =>
      let acc1 := acc.getOrInsertUser km.2.userId km.2.user
      let pair := acc1.fromMember km.2
      let acc3 := pair.1.incMutual pair.2.userId
      acc3.modifyGuild gid
        (fun g => { g with members := insertAL g.members km.1 pair.2 })) s

/-- The MemberChunk arm state after the member loop, the total-user gauge
bump, and marking the guild complete (final page only). -/
def Cache.chunkDone (s : Cache) (gid : Nat) (ms : List (Nat × MemberPayload)) : Cache :=
  let s1 := s.chunkFold gid ms
  let chunkStats := { s1.stats with totalUsers := i64Add s1.stats.totalUsers ms.length }
  let s2 := { s1 with stats := chunkStats }
  s2.modifyGuild gid (fun g => { g with complete := true })

/-- The eviction step of the GuildCreate arm: when the guild id is already
cached, adjust the gauge for the superseded record and nuke it. -/
def Cache.gcNukeOld (s : Cache) (p : GuildPayload) : Cache :=
  match lookupAL s.guilds p.id with
  | some cachedGuild =>
      let sa :=
        if !cachedGuild.complete then
          { s with stats := { s.stats with pendingGuilds := i64Dec s.stats.pendingGuilds } }
        else
          { s with stats := { s.stats with loadedGuilds := i64Dec s.stats.loadedGuilds } }
      sa.nukeGuildCache cachedGuild
  | none => s

/-- The indexing step of the GuildCreate arm: index the fresh guild's
channels and emoji globally, bump the channel gauge, and drop the guild from
the unavailable list. -/
def Cache.gcIndexNew (s1 : Cache) (guild : CachedGuild) : Cache :=
  let newGC := guild.channels.foldl
    (fun acc (c : Nat × CachedChannel) => insertAL acc c.2.getId c.2) s1.guildChannels
  let s2 := { s1 with guildChannels := newGC }
  let newStats :=
    { s2.stats with channelCount := i64Add s2.stats.channelCount guild.channels.length }
  let s3 := { s2 with stats := newStats }
  let newEmoji := guild.emoji.foldl
    (fun acc (e : Nat × CachedEmoji) => insertAL acc e.2.id e.2) s3.emoji
  let s4 := { s3 with emoji := newEmoji }
  { s4 with unavailableGuilds := removeFirst s4.unavailableGuilds guild.id }

/-- Cache::update: apply one gateway event, arm by arm as in mod.rs. -/
def Cache.update (s : Cache) (ctx : UpdateCtx) (shardId : Nat) (event : GatewayEvent) : UpdRes :=
  match event with
  | .ready guildCount =>
      { out := .ok,
        state := { s with missingPerShard := insertAL s.missingPerShard shardId guildCount } }
  | .guildCreate p =>
      let s1 := s.gcNukeOld p
      let guild := CachedGuild.fromPayload p
      let s5 := s1.gcIndexNew guild
      match ctx.cmdResult with
      | some e => { out := .err (.twilightCluster e), state := s5 }
      | none =>
          let s6 := { s5 with guilds := insertAL s5.guilds p.id guild }
          let finalStats := { s6.stats with pendingGuilds := i64Inc s6.stats.pendingGuilds }
          { out := .ok, state := { s6 with stats := finalStats } }
  | .guildUpdate id name =>
      match s.getGuild id with
      | some _ =>
          { out := .ok, state := s.modifyGuild id (fun g => { g with name := name }) }
      | none => { out := .ok, state := s }
  | .guildDelete gid unavailable =>
      match s.getGuild gid with
      | some cachedGuild =>
          let s1 :=
            if !cachedGuild.complete then
              { s with stats := { s.stats with pendingGuilds := i64Dec s.stats.pendingGuilds } }
            else
              { s with stats := { s.stats with loadedGuilds := i64Dec s.stats.loadedGuilds } }
          let s2 := if unavailable then s1.guildUnavailable cachedGuild else s1
          { out := .ok, state := s2.nukeGuildCache cachedGuild }
      | none => { out := .ok, state := s }
  | .memberChunk gid chunkIndex chunkCount nonce members =>
      match s.getGuild gid with
      | some _ =>
          let s1 := s.chunkFold gid members
          let chunkStats := { s1.stats with totalUsers := i64Add s1.stats.totalUsers members.length }
          let s2 := { s1 with stats := chunkStats }
          if u64Dec chunkCount == chunkIndex && nonce == none then
            let s3 := s.chunkDone gid members
            match lookupAL s3.missingPerShard shardId with
            | none => { out := .panicked, state := s3 }
            | some shardMissing =>
                let newMissing := insertAL s3.missingPerShard shardId (u64Dec shardMissing)
                let s4 := { s3 with missingPerShard := newMissing }
                let act : Option BotError :=
                  if shardMissing == 1 && nonce == none && s4.shardCached shardId then
                    match ctx.activityResult with
                    | some e => some (.activitySet e)
                    | none => none
                  else none
                match act with
                | some e => { out := .err e, state := s4 }
                | none =>
                    let doneStats :=
                      { s4.stats with pendingGuilds := i64Dec s4.stats.pendingGuilds,
                                      loadedGuilds := i64Inc s4.stats.loadedGuilds }
                    let s5 := { s4 with stats := doneStats }
                    let s6 :=
                      if s5.stats.pendingGuilds == 0 && s5.filling && ctx.shardsReady then
                        { s5 with filling := false }
                      else s5
                    { out := .ok, state := s6 }
          else { out := .ok, state := s2 }
      | none => { out := .ok, state := s }
  | .channelCreate c =>
      match c with
      | .group => { out := .ok, state := s }
      | .guildKind gidOpt id name =>
          match gidOpt with
          | some gid =>
              let channel := CachedChannel.guildCh id gid name
              match s.getGuild gid with
              | some _ =>
                  let s1 := s.modifyGuild gid
                    (fun g => { g with channels := insertAL g.channels channel.getId channel })
                  let s2 := { s1 with guildChannels := insertAL s1.guildChannels channel.getId channel }
                  let ccStats := { s2.stats with channelCount := i64Inc s2.stats.channelCount }
                  { out := .ok, state := { s2 with stats := ccStats } }
              | none => { out := .ok, state := s }
          | none => { out := .ok, state := s }
      | .priv id recipients => { out := .ok, state := s.insertPrivateChannel id recipients }
  | .channelUpdate c =>
      match c with
      | .group => { out := .ok, state := s }
      | .guildKind gidOpt id name =>
          match gidOpt with
          | some gid =>
              match s.getGuild gid with
              | some guild =>
                  let channel := CachedChannel.guildCh id guild.id name
                  let s1 := s.modifyGuild gid
                    (fun g => { g with channels := insertAL g.channels channel.getId channel })
                  { out := .ok, state :=
                      { s1 with guildChannels := insertAL s1.guildChannels channel.getId channel } }
              | none => { out := .ok, state := s }
          | none => { out := .ok, state := s }
      | .priv id recipients => { out := .ok, state := s.insertPrivateChannel id recipients }
  | .channelDelete c =>
      match c with
      | .group => { out := .ok, state := s }
      | .guildKind gidOpt id _ =>
          match gidOpt with
          | some gid =>
              match s.getGuild gid with
              | some _ =>
                  let s1 := s.modifyGuild gid
                    (fun g => { g with channels := eraseAL g.channels id })
                  let cdStats := { s1.stats with channelCount := i64Dec s1.stats.channelCount }
                  { out := .ok, state := { s1 with stats := cdStats } }
              | none => { out := .ok, state := s }
          | none => { out := .ok, state := s }
      | .priv id recipients =>
          let s1 := { s with privateChannels := eraseAL s.privateChannels id }
          let s2 :=
            match recipients with
            | [r] => { s1 with dmChannelsByUser := eraseAL s1.dmChannelsByUser r }
            | _ => s1
          { out := .ok, state := s2 }
  | .memberAdd gid m =>
      match s.getGuild gid with
      | some _ =>
          let pair := s.fromMember m
          let s2 := pair.1.incMutual pair.2.userId
          let s3 := s2.modifyGuild gid
            (fun g => { g with members := insertAL g.members m.userId pair.2,
                               memberCount := u64Inc g.memberCount })
          { out := .ok, state := { s3 with stats :=
              { s3.stats with totalUsers := i64Inc s3.stats.totalUsers } } }
      | none => { out := .ok, state := s }
  | .memberUpdate gid uid ud nick roleIds =>
      let first := s.memberUpdateStep gid uid ud nick roleIds true
      if first.1 then { out := .ok, state := first.2 }
      else { out := .ok, state := (first.2.memberUpdateStep gid uid ud nick roleIds false).2 }
  | .memberRemove gid uid =>
      match s.getGuild gid with
      | some guild =>
          match lookupAL guild.members uid with
          | some member =>
              let s1 := s.modifyGuild gid (fun g => { g with members := eraseAL g.members uid })
              let s2 := s1.decMutualEvict member.userId
              { out := .ok, state := { s2 with stats :=
                  { s2.stats with totalUsers := i64Dec s2.stats.totalUsers } } }
          | none => { out := .ok, state := s }
      | none => { out := .ok, state := s }
  | .roleCreate gid role =>
      match s.getGuild gid with
      | some _ =>
          { out := .ok, state := s.modifyGuild gid
              (fun g => { g with roles := insertAL g.roles role.id (CachedRole.fromRole role) }) }
      | none => { out := .ok, state := s }
  | .roleUpdate gid role =>
      match s.getGuild gid with
      | some _ =>
          { out := .ok, state := s.modifyGuild gid
              (fun g => { g with roles := insertAL g.roles role.id (CachedRole.fromRole role) }) }
      | none => { out := .ok, state := s }
  | .roleDelete gid roleId =>
      match s.getGuild gid with
      | some _ =>
          { out := .ok, state := s.modifyGuild gid
              (fun g => { g with roles := eraseAL g.roles roleId }) }
      | none => { out := .ok, state := s }
  | .other => { out := .ok, state := s }

/-- Key of one snapshot chunk in the external store.  The store is keyed by
this structured value; renderChunkKey below is the literal string the source
formats for it. -/
inductive ChunkKey where
  | guildChunk (clusterId : Nat) (index : Nat)
  | userChunk (clusterId : Nat) (index : Nat)
deriving DecidableEq

/-- The key string the source builds, e.g.
format!("cb_cluster_{}_guild_chunk_{}", cluster_id, index). -/
def renderChunkKey : ChunkKey → String
  | .guildChunk c i => "cb_cluster_" ++ toString c ++ "_guild_chunk_" ++ toString i
  | .userChunk c i => "cb_cluster_" ++ toString c ++ "_user_chunk_" ++ toString i

/-- The user record as written by _prepare_cold_resume_user: id and scalar
data, with the mutual_servers counter explicitly reset to 0 (mod.rs). -/
structure ColdUser where
  id : Nat
  username : String
  botUser : Bool
  mutualServers : Nat
deriving DecidableEq

/-- Modelled from the spec: guild.rs is absent.  ColdStorageGuild is the
persisted representation of a guild: its own data and sub-maps, without any
global index. -/
structure ColdStorageGuild where
  id : Nat
  name : String
  members : NMap CachedMember
  channels : NMap CachedChannel
  roles : NMap CachedRole
  emoji : NMap CachedEmoji
  memberCount : Nat
deriving DecidableEq

/-- Modelled from the spec: ColdStorageGuild::from(CachedGuild). -/
def ColdStorageGuild.fromGuild (g : CachedGuild) : ColdStorageGuild where
  id := g.id
  name := g.name
  members := g.members
  channels := g.channels
  roles := g.roles
  emoji := g.emoji
  memberCount := g.memberCount

/-- Modelled from the spec: CachedGuild::defrost.  Members must reference
already-present User records (spec 4.2 restore step 1), so each membership
bumps the counter of the already-present index record; a restored guild is
complete. -/
def Cache.defrostGuildRec (s : Cache) (cg : ColdStorageGuild) : Cache × CachedGuild :=
  let s1 := cg.members.foldl (fun acc (m : Nat × CachedMember) => acc.incMutual m.2.userId) s
  (s1, { id := cg.id, name := cg.name, members := cg.members, channels := cg.channels,
         roles := cg.roles, emoji := cg.emoji, complete := true, memberCount := cg.memberCount })

/-- A value held by the external store: a serialized guild chunk, a
serialized user chunk, or bytes that deserialize as neither. -/
inductive StoredVal where
  | guildData (gs : List ColdStorageGuild)
  | userData (us : List ColdUser)
  | garbage (n : Nat)
deriving DecidableEq

/-- The external key-value store: entries of key, value and expiry
seconds. -/
abbrev Store := List (ChunkKey × StoredVal × Nat)

/-- set_and_expire_seconds. -/
def storeSet : Store → ChunkKey → StoredVal → Nat → Store
  | [], k, v, ttl => [(k, v, ttl)]
  | e :: t, k, v, ttl => if e.1 = k then (k, v, ttl) :: t else e :: storeSet t k v ttl

/-- get. -/
def storeLookup : Store → ChunkKey → Option (StoredVal × Nat)
  | [], _ => none
  | e :: t, k => if e.1 = k then some e.2 else storeLookup t k

/-- del. -/
def storeDel : Store → ChunkKey → Store
  | [], _ => []
  | e :: t, k => if e.1 = k then storeDel t k else e :: storeDel t k

/-- Entity count of one guild in the chunking loop of prepare_cold_resume:
members + channels + emoji + roles. -/
def CachedGuild.entityCount (g : CachedGuild) : Nat :=
  g.members.length + g.channels.length + g.emoji.length + g.roles.length

/-- The work-order chunking loop of prepare_cold_resume: push each guild id
onto the current chunk and close the chunk once the running entity count
exceeds 100_000. -/
def partitionGo : List (Nat × CachedGuild) → Nat → List Nat → List (List Nat) → List (List Nat)
  | [], _, list, orders => if list.length > 0 then orders ++ [list] else orders
  | (k, g) :: t, count, list, orders =>
      let count1 := count + g.entityCount
      let list1 := list ++ [k]
      if count1 > 100000 then partitionGo t 0 [] (orders ++ [list1])
      else partitionGo t count1 list1 orders

/-- The guild work orders of prepare_cold_resume. -/
def partitionGuilds (gs : NMap CachedGuild) : List (List Nat) := partitionGo gs 0 [] []

/-- Push a key onto the i-th bucket. -/
def pushAt : List (List Nat) → Nat → Nat → List (List Nat)
  | [], _, _ => []
  | b :: t, 0, k => (b ++ [k]) :: t
  | b :: t, i + 1, k => b :: pushAt t i k

/-- The round-robin user distribution loop: the `count`-th user goes to
bucket `count % user_chunks`. -/
def roundRobinGo (n : Nat) : Nat → List Nat → List (List Nat) → List (List Nat)
  | _, [], buckets => buckets
  | c, k :: t, buckets => roundRobinGo n (c + 1) t (pushAt buckets (c % n) k)

/-- The user work orders of prepare_cold_resume. -/
def userWorkOrders (keys : List Nat) (n : Nat) : List (List Nat) :=
  roundRobinGo n 0 keys (List.replicate n [])

/-- Cache::_prepare_cold_resume_guild: take every listed guild out of the
live map, convert each to its cold representation, and store the chunk under
the cluster/index key with a 180 second expiry. -/
def Cache.prepareGuildChunk (s : Cache) (store : Store) (todo : List Nat) (index : Nat) :
    Cache × Store :=
  let step := todo.foldl
    (fun (acc : Cache × List ColdStorageGuild) k =>
      match lookupAL acc.1.guilds k with
      | some g =>
          ({ acc.1 with guilds := eraseAL acc.1.guilds k },
           acc.2 ++ [ColdStorageGuild.fromGuild g])
      | none => acc)
    (s, [])
  (step.1, storeSet store (.guildChunk s.clusterId index) (.guildData step.2) 180)

/-- Cache::_prepare_cold_resume_user: take every listed user out of the live
map, reset the counter to 0 in the serialized copy, and store the chunk with
a 180 second expiry. -/
def Cache.prepareUserChunk (s : Cache) (store : Store) (todo : List Nat) (index : Nat) :
    Cache × Store :=
  let step := todo.foldl
    (fun (acc : Cache × List ColdUser) k =>
      match lookupAL acc.1.users k with
      | some u =>
          ({ acc.1 with users := eraseAL acc.1.users k },
           acc.2 ++ [{ id := k, username := u.username, botUser := u.botUser,
                       mutualServers := 0 }])
      | none => acc)
    (s, [])
  (step.1, storeSet store (.userChunk s.clusterId index) (.userData step.2) 180)

/-- The guild half of prepare_cold_resume: dump every work order as one
chunk, indexed in order. -/
def Cache.prepareGuildPhase (s1 : Cache) (store : Store) : Cache × Store :=
  (partitionGuilds s1.guilds).enum.foldl
    (fun (acc : Cache × Store) io => Cache.prepareGuildChunk acc.1 acc.2 io.2 io.1)
    (s1, store)

/-- The user half of prepare_cold_resume: distribute the users round-robin
over `len / 100_000 + 1` chunks and dump each. -/
def Cache.prepareUserPhase (sg : Cache) (store : Store) : Cache × Store :=
  let userChunks := sg.users.length / 100000 + 1
  (userWorkOrders (keysAL sg.users) userChunks).enum.foldl
    (fun (acc : Cache × Store) io => Cache.prepareUserChunk acc.1 acc.2 io.2 io.1)
    (sg, store)

/-- Cache::prepare_cold_resume: clear the rebuildable global indexes,
partition the guilds into bounded work orders, dump guild chunks, then
distribute the users round-robin over user chunks and dump those, clear the
user map and return the chunk counts (the resume token). -/
def Cache.prepareColdResume (s : Cache) (store : Store) : (Nat × Nat) × Cache × Store :=
  let s1 := { s with guildChannels := [], privateChannels := [] }
  let afterG := s1.prepareGuildPhase store
  let guildChunks := (partitionGuilds s1.guilds).length
  let userChunks := afterG.1.users.length / 100000 + 1
  let afterU := afterG.1.prepareUserPhase afterG.2
  ((guildChunks, userChunks), { afterU.1 with users := [] }, afterU.2)

/-- Store-access fault model for a restore run: which keys the external
store fails to get or to delete (connection failures etc.). -/
structure StoreFaults where
  getFail : ChunkKey → Bool
  delFail : ChunkKey → Bool

/-- A run with a healthy store. -/
def noFaults : StoreFaults where
  getFail := fun _ => false
  delFail := fun _ => false

/-- Inner error of a failed defrost task: the store transport error or the
deserialization error.  Neither carries the chunk index: the source
propagates the underlying store/serde error unchanged. -/
inductive DefrostErr where
  | storeFail
  | deserFail
deriving DecidableEq

/-- Result of one defrost task. -/
inductive DefRes where
  | ok
  | err (e : DefrostErr)
  | panicked
deriving DecidableEq

/-- One observable operation against the external store, plus the final
filling flip, for temporal statements. -/
inductive StoreOp where
  | get (k : ChunkKey)
  | del (k : ChunkKey)
  | flipFill
deriving DecidableEq

/-- Outcome of one defrost task: result, post-state, post-store, ops. -/
structure DefStep where
  res : DefRes
  state : Cache
  store : Store
  trace : List StoreOp

/-- Cache::defrost_users for chunk i: get the chunk (an absent value hits
the source's .unwrap() and aborts), deserialize, delete the key, then
insert every user and bump the unique-user gauge. -/
def Cache.defrostUsers (s : Cache) (faults : StoreFaults) (store : Store) (i : Nat) : DefStep :=
  let key := ChunkKey.userChunk s.clusterId i
  if faults.getFail key then
    { res := .err .storeFail, state := s, store := store, trace := [.get key] }
  else
    match storeLookup store key with
    | none => { res := .panicked, state := s, store := store, trace := [.get key] }
    | some (v, _) =>
        match v with
        | .userData us =>
            if faults.delFail key then
              { res := .err .storeFail, state := s, store := store, trace := [.get key, .del key] }
            else
              let store1 := storeDel store key
              let s1 := us.foldl
                (fun (acc : Cache) u =>
                  let rec1 : CachedUser :=
                    { username := u.username, botUser := u.botUser,
                      mutualServers := u.mutualServers }
                  let st1 := { acc.stats with uniqueUsers := i64Inc acc.stats.uniqueUsers }
                  { acc with users := insertAL acc.users u.id rec1, stats := st1 }) s
              { res := .ok, state := s1, store := store1, trace := [.get key, .del key] }
        | _ => { res := .err .deserFail, state := s, store := store, trace := [.get key] }

/-- One guild of a defrosted chunk: defrost the record, reindex its
channels and emoji globally, insert it into the guild map and fold the
aggregate gauges. -/
def Cache.defrostOneGuild (acc : Cache) (cg : ColdStorageGuild) : Cache :=
  let pair := acc.defrostGuildRec cg
  let guild := pair.2
  let acc1 := pair.1
  let newGC := guild.channels.foldl
    (fun gc (c : Nat × CachedChannel) => insertAL gc c.2.getId c.2)
    acc1.guildChannels
  let acc2 := { acc1 with guildChannels := newGC }
  let st2 := { acc2.stats with
    channelCount := i64Add acc2.stats.channelCount guild.channels.length }
  let acc3 := { acc2 with stats := st2 }
  let newEmoji := guild.emoji.foldl
    (fun em (e : Nat × CachedEmoji) => insertAL em e.2.id e.2) acc3.emoji
  let acc4 := { acc3 with emoji := newEmoji }
  let st4 := { acc4.stats with
    totalUsers := i64Add acc4.stats.totalUsers guild.members.length }
  let acc5 := { acc4 with stats := st4 }
  let acc6 := { acc5 with guilds := insertAL acc5.guilds guild.id guild }
  let st6 := { acc6.stats with loadedGuilds := i64Inc acc6.stats.loadedGuilds }
  { acc6 with stats := st6 }

/-- Cache::defrost_guilds for chunk i: get the chunk, deserialize, delete
the key, then defrost each guild, reindex its channels and emoji globally,
insert it and fold the aggregate gauges. -/
def Cache.defrostGuilds (s : Cache) (faults : StoreFaults) (store : Store) (i : Nat) : DefStep :=
  let key := ChunkKey.guildChunk s.clusterId i
  if faults.getFail key then
    { res := .err .storeFail, state := s, store := store, trace := [.get key] }
  else
    match storeLookup store key with
    | none => { res := .panicked, state := s, store := store, trace := [.get key] }
    | some (v, _) =>
        match v with
        | .guildData gs =>
            if faults.delFail key then
              { res := .err .storeFail, state := s, store := store, trace := [.get key, .del key] }
            else
              let store1 := storeDel store key
              let s1 := gs.foldl Cache.defrostOneGuild s
              { res := .ok, state := s1, store := store1, trace := [.get key, .del key] }
        | _ => { res := .err .deserFail, state := s, store := store, trace := [.get key] }

/-- Results plus combined effect of one defroster phase (the join_all of
either user or guild defrosters): every task runs (its store reads/writes
and cache inserts all happen) unless one panics, which aborts the whole
sequence at that point. -/
structure PhaseRes where
  results : List DefRes
  panicked : Bool
  state : Cache
  store : Store
  trace : List StoreOp

/-- Run `count` defrost tasks starting at chunk index `i`. -/
def runPhase (f : Cache → Store → Nat → DefStep) : Nat → Nat → Cache → Store → PhaseRes
  | _, 0, s, st => { results := [], panicked := false, state := s, store := st, trace := [] }
  | i, count + 1, s, st =>
      let d := f s st i
      if d.res = .panicked then
        { results := [], panicked := true, state := d.state, store := d.store, trace := d.trace }
      else
        let rest := runPhase f (i + 1) count d.state d.store
        { results := d.res :: rest.results, panicked := rest.panicked,
          state := rest.state, store := rest.store, trace := d.trace ++ rest.trace }

/-- The first error among the joined task results (the for-loop over
join_all results returns on the first Err). -/
def firstErr : List DefRes → Option DefrostErr
  | [] => none
  | .err e :: _ => some e
  | _ :: t => firstErr t

/-- Outcome of restore_cold_resume: Ok, Error::CacheDefrost(phase, inner),
or an aborting panic. -/
inductive RestoreOut where
  | ok
  | err (phase : String) (e : DefrostErr)
  | panicked
deriving DecidableEq

/-- Result of restore_cold_resume with its trace of store operations. -/
structure RestoreRes where
  out : RestoreOut
  state : Cache
  store : Store
  trace : List StoreOp

/-- Cache::restore_cold_resume: run all user defrosters, fail on their
first error tagged "users"; then all guild defrosters, fail on the first
error tagged "guilds"; only then flip filling to false. -/
def Cache.restoreColdResume (s : Cache) (faults : StoreFaults) (store : Store)
    (guildChunks userChunks : Nat) : RestoreRes :=
  let up := runPhase (fun c st i => c.defrostUsers faults st i) 0 userChunks s store
  if up.panicked then
    { out := .panicked, state := up.state, store := up.store, trace := up.trace }
  else
    match firstErr up.results with
    | some e => { out := .err "users" e, state := up.state, store := up.store, trace := up.trace }
    | none =>
        let gp := runPhase (fun c st i => c.defrostGuilds faults st i) 0 guildChunks up.state up.store
        if gp.panicked then
          { out := .panicked, state := gp.state, store := gp.store, trace := up.trace ++ gp.trace }
        else
          match firstErr gp.results with
          | some e =>
              { out := .err "guilds" e, state := gp.state, store := gp.store,
                trace := up.trace ++ gp.trace }
          | none =>
              { out := .ok, state := { gp.state with filling := false }, store := gp.store,
                trace := up.trace ++ gp.trace ++ [.flipFill] }

/-- Apply a sequence of events, each with its transport context and shard. -/
def applyEvents (evs : List (UpdateCtx × Nat × GatewayEvent)) (s : Cache) : Cache :=
  evs.foldl (fun acc e => (acc.update e.1 e.2.1 e.2.2).state) s

/-- The event kinds quantified over by the refcount-invariant claim. -/
def refcountEventKind : GatewayEvent → Bool
  | .memberAdd _ _ => true
  | .memberChunk _ _ _ _ _ => true
  | .memberRemove _ _ => true
  | .guildDelete _ _ => true
  | _ => false

theorem update_noop_of_no_guilds (s : Cache) (ctx : UpdateCtx) (sh : Nat)
    (e : GatewayEvent) (hk : refcountEventKind e = true) (hg : s.guilds = []) :
    (s.update ctx sh e).state = s := by
  cases e <;> simp_all [refcountEventKind, Cache.update, Cache.getGuild, hg]

theorem applyEvents_refcount_empty (evs : List (UpdateCtx × Nat × GatewayEvent))
    (h : ∀ e ∈ evs, refcountEventKind e.2.2 = true) :
    applyEvents evs Cache.new = Cache.new := by
  have main : ∀ (l : List (UpdateCtx × Nat × GatewayEvent)) (s : Cache),
      (∀ e ∈ l, refcountEventKind e.2.2 = true) → s.guilds = [] →
      applyEvents l s = s := by
    intro l
    induction l with
    | nil => intro s _ _; rfl
    | cons hd t ih =>
      intro s hall hg
      have h1 : (s.update hd.1 hd.2.1 hd.2.2).state = s :=
        update_noop_of_no_guilds s hd.1 hd.2.1 hd.2.2 (hall hd (by simp)) hg
      have : applyEvents (hd :: t) s = applyEvents t (s.update hd.1 hd.2.1 hd.2.2).state := rfl
      rw [this, h1]
      exact ih s (fun e he => hall e (by simp [he])) hg
  exact main evs Cache.new h rfl

/-- C1: for every sequence of MemberAdd, MemberChunk, MemberRemove and
GuildDelete events applied to an initially empty cache, after each event a
user is present in the global user index iff its mutual-guild counter is
positive.  (All four arms first look the guild up, so from an empty cache
every such event is logged and skipped and the user index stays empty.) -/
theorem refcount_invariant_from_empty
    (evs : List (UpdateCtx × Nat × GatewayEvent))
    (h : ∀ e ∈ evs, refcountEventKind e.2.2 = true) (uid : Nat) :
    (lookupAL (applyEvents evs Cache.new).users uid).isSome ↔
      (∃ u, lookupAL (applyEvents evs Cache.new).users uid = some u ∧ 0 < u.mutualServers) := by
  rw [applyEvents_refcount_empty evs h]
  constructor
  · intro hs
    simp [Cache.new] at hs
  · rintro ⟨u, hu, _⟩
    simp [Cache.new] at hu

def okCtx : UpdateCtx := { cmdResult := none, activityResult := none, shardsReady := true }

def sampleMember : MemberPayload :=
  { userId := 7, user := { username := "u", botUser := false }, nickname := none, roleIds := [] }

def c1Events : List (UpdateCtx × Nat × GatewayEvent) :=
  [(okCtx, 0, .memberAdd 1 sampleMember),
   (okCtx, 0, .memberChunk 1 0 1 none [(7, sampleMember)]),
   (okCtx, 0, .memberRemove 1 7),
   (okCtx, 0, .guildDelete 1 true)]

/-- C1 witness: the invariant instantiated on a concrete event sequence. -/
theorem refcount_invariant_from_empty_witness :
    (∀ e ∈ c1Events, refcountEventKind e.2.2 = true) ∧
    ((lookupAL (applyEvents c1Events Cache.new).users 7).isSome ↔
      (∃ u, lookupAL (applyEvents c1Events Cache.new).users 7 = some u ∧ 0 < u.mutualServers)) :=
  ⟨by decide, refcount_invariant_from_empty c1Events (by decide) 7⟩

theorem lookupAL_foldl_erase {V W : Type} (L : List W) (f : W → Nat) (m : NMap V) (q : Nat) :
    lookupAL (L.foldl (fun acc w => eraseAL acc (f w)) m) q =
      if q ∈ L.map f then none else lookupAL m q := by
  induction L generalizing m with
  | nil => simp
  | cons hd t ih =>
    simp only [List.foldl_cons, List.map_cons, List.mem_cons]
    rw [ih]
    by_cases h : q ∈ t.map f
    · simp [h]
    · by_cases h2 : q = f hd
      · subst h2
        simp [h, lookupAL_erase_self]
      · have hne : f hd ≠ q := fun hh => h2 hh.symm
        simp [h, h2, lookupAL_erase_ne m (f hd) q hne]

theorem decMutualEvict_frame (s : Cache) (u : Nat) :
    (s.decMutualEvict u).guilds = s.guilds ∧
    (s.decMutualEvict u).guildChannels = s.guildChannels ∧
    (s.decMutualEvict u).privateChannels = s.privateChannels ∧
    (s.decMutualEvict u).dmChannelsByUser = s.dmChannelsByUser ∧
    (s.decMutualEvict u).emoji = s.emoji ∧
    (s.decMutualEvict u).filling = s.filling ∧
    (s.decMutualEvict u).unavailableGuilds = s.unavailableGuilds ∧
    (s.decMutualEvict u).expected = s.expected ∧
    (s.decMutualEvict u).missingPerShard = s.missingPerShard ∧
    (s.decMutualEvict u).clusterId = s.clusterId := by
  unfold Cache.decMutualEvict
  split
  · split <;> simp
  · simp

theorem decMutualEvict_users_ne (s : Cache) (u q : Nat) (h : u ≠ q) :
    lookupAL (s.decMutualEvict u).users q = lookupAL s.users q := by
  unfold Cache.decMutualEvict
  split
  · split
    · simpa using lookupAL_erase_ne s.users u q h
    · simpa using lookupAL_insert_ne s.users u q _ h
  · rfl

theorem foldDec_frame (L : List (Nat × CachedMember)) (s : Cache) :
    (L.foldl (fun acc m => acc.decMutualEvict m.2.userId) s).guilds = s.guilds ∧
    (L.foldl (fun acc m => acc.decMutualEvict m.2.userId) s).guildChannels = s.guildChannels ∧
    (L.foldl (fun acc m => acc.decMutualEvict m.2.userId) s).privateChannels = s.privateChannels ∧
    (L.foldl (fun acc m => acc.decMutualEvict m.2.userId) s).dmChannelsByUser = s.dmChannelsByUser ∧
    (L.foldl (fun acc m => acc.decMutualEvict m.2.userId) s).emoji = s.emoji ∧
    (L.foldl (fun acc m => acc.decMutualEvict m.2.userId) s).filling = s.filling ∧
    (L.foldl (fun acc m => acc.decMutualEvict m.2.userId) s).unavailableGuilds = s.unavailableGuilds ∧
    (L.foldl (fun acc m => acc.decMutualEvict m.2.userId) s).expected = s.expected ∧
    (L.foldl (fun acc m => acc.decMutualEvict m.2.userId) s).missingPerShard = s.missingPerShard ∧
    (L.foldl (fun acc m => acc.decMutualEvict m.2.userId) s).clusterId = s.clusterId := by
  induction L generalizing s with
  | nil => simp
  | cons hd t ih =>
    simp only [List.foldl_cons]
    have h1 := decMutualEvict_frame s hd.2.userId
    have h2 := ih (s.decMutualEvict hd.2.userId)
    obtain ⟨a1, a2, a3, a4, a5, a6, a7, a8, a9, a10⟩ := h1
    obtain ⟨b1, b2, b3, b4, b5, b6, b7, b8, b9, b10⟩ := h2
    exact ⟨b1.trans a1, b2.trans a2, b3.trans a3, b4.trans a4, b5.trans a5,
           b6.trans a6, b7.trans a7, b8.trans a8, b9.trans a9, b10.trans a10⟩

theorem foldDec_users_ne (L : List (Nat × CachedMember)) (s : Cache) (q : Nat)
    (hq : q ∉ L.map (fun m => m.2.userId)) :
    lookupAL (L.foldl (fun acc m => acc.decMutualEvict m.2.userId) s).users q =
      lookupAL s.users q := by
  induction L generalizing s with
  | nil => rfl
  | cons hd t ih =>
    simp only [List.map_cons, List.mem_cons, not_or] at hq
    simp only [List.foldl_cons]
    rw [ih _ hq.2, decMutualEvict_users_ne s hd.2.userId q (fun hh => hq.1 hh.symm)]

theorem foldDec_guilds (L : List (Nat × CachedMember)) (s : Cache) :
    (L.foldl (fun acc m => acc.decMutualEvict m.2.userId) s).guilds = s.guilds :=
  (foldDec_frame L s).1

theorem foldDec_guildChannels (L : List (Nat × CachedMember)) (s : Cache) :
    (L.foldl (fun acc m => acc.decMutualEvict m.2.userId) s).guildChannels = s.guildChannels :=
  (foldDec_frame L s).2.1

theorem foldDec_privateChannels (L : List (Nat × CachedMember)) (s : Cache) :
    (L.foldl (fun acc m => acc.decMutualEvict m.2.userId) s).privateChannels = s.privateChannels :=
  (foldDec_frame L s).2.2.1

theorem foldDec_dm (L : List (Nat × CachedMember)) (s : Cache) :
    (L.foldl (fun acc m => acc.decMutualEvict m.2.userId) s).dmChannelsByUser = s.dmChannelsByUser :=
  (foldDec_frame L s).2.2.2.1

theorem foldDec_emoji (L : List (Nat × CachedMember)) (s : Cache) :
    (L.foldl (fun acc m => acc.decMutualEvict m.2.userId) s).emoji = s.emoji :=
  (foldDec_frame L s).2.2.2.2.1

theorem foldDec_filling (L : List (Nat × CachedMember)) (s : Cache) :
    (L.foldl (fun acc m => acc.decMutualEvict m.2.userId) s).filling = s.filling :=
  (foldDec_frame L s).2.2.2.2.2.1

theorem foldDec_unavailable (L : List (Nat × CachedMember)) (s : Cache) :
    (L.foldl (fun acc m => acc.decMutualEvict m.2.userId) s).unavailableGuilds =
      s.unavailableGuilds :=
  (foldDec_frame L s).2.2.2.2.2.2.1

theorem foldDec_expected (L : List (Nat × CachedMember)) (s : Cache) :
    (L.foldl (fun acc m => acc.decMutualEvict m.2.userId) s).expected = s.expected :=
  (foldDec_frame L s).2.2.2.2.2.2.2.1

theorem foldDec_missing (L : List (Nat × CachedMember)) (s : Cache) :
    (L.foldl (fun acc m => acc.decMutualEvict m.2.userId) s).missingPerShard = s.missingPerShard :=
  (foldDec_frame L s).2.2.2.2.2.2.2.2.1

theorem foldDec_clusterId (L : List (Nat × CachedMember)) (s : Cache) :
    (L.foldl (fun acc m => acc.decMutualEvict m.2.userId) s).clusterId = s.clusterId :=
  (foldDec_frame L s).2.2.2.2.2.2.2.2.2

theorem nuke_frame (s : Cache) (g : CachedGuild) :
    (s.nukeGuildCache g).guilds = s.guilds ∧
    (s.nukeGuildCache g).privateChannels = s.privateChannels ∧
    (s.nukeGuildCache g).dmChannelsByUser = s.dmChannelsByUser ∧
    (s.nukeGuildCache g).filling = s.filling ∧
    (s.nukeGuildCache g).unavailableGuilds = s.unavailableGuilds ∧
    (s.nukeGuildCache g).expected = s.expected ∧
    (s.nukeGuildCache g).missingPerShard = s.missingPerShard ∧
    (s.nukeGuildCache g).clusterId = s.clusterId := by
  unfold Cache.nukeGuildCache
  refine ⟨?_, ?_, ?_, ?_, ?_, ?_, ?_, ?_⟩ <;>
    simp only [foldDec_guilds, foldDec_privateChannels, foldDec_dm, foldDec_filling,
      foldDec_unavailable, foldDec_expected, foldDec_missing, foldDec_clusterId]

theorem nuke_guildChannels (s : Cache) (g : CachedGuild) (q : Nat) :
    lookupAL (s.nukeGuildCache g).guildChannels q =
      if q ∈ g.channels.map (fun c => c.1) then none else lookupAL s.guildChannels q := by
  unfold Cache.nukeGuildCache
  simp only [foldDec_guildChannels]
  exact lookupAL_foldl_erase g.channels (fun c => c.1) s.guildChannels q

theorem nuke_emoji (s : Cache) (g : CachedGuild) (q : Nat) :
    lookupAL (s.nukeGuildCache g).emoji q =
      if q ∈ g.emoji.map (fun e => e.2.id) then none else lookupAL s.emoji q := by
  unfold Cache.nukeGuildCache
  simp only [foldDec_emoji]
  exact lookupAL_foldl_erase g.emoji (fun e => e.2.id) s.emoji q

theorem nuke_users_ne (s : Cache) (g : CachedGuild) (q : Nat)
    (hq : q ∉ g.members.map (fun m => m.2.userId)) :
    lookupAL (s.nukeGuildCache g).users q = lookupAL s.users q := by
  unfold Cache.nukeGuildCache
  rw [foldDec_users_ne g.members _ q hq]

theorem nuke_guilds (s : Cache) (g : CachedGuild) :
    (s.nukeGuildCache g).guilds = s.guilds := (nuke_frame s g).1

theorem nuke_privateChannels (s : Cache) (g : CachedGuild) :
    (s.nukeGuildCache g).privateChannels = s.privateChannels := (nuke_frame s g).2.1

theorem nuke_dm (s : Cache) (g : CachedGuild) :
    (s.nukeGuildCache g).dmChannelsByUser = s.dmChannelsByUser := (nuke_frame s g).2.2.1

theorem nuke_filling (s : Cache) (g : CachedGuild) :
    (s.nukeGuildCache g).filling = s.filling := (nuke_frame s g).2.2.2.1

theorem nuke_unavailable (s : Cache) (g : CachedGuild) :
    (s.nukeGuildCache g).unavailableGuilds = s.unavailableGuilds := (nuke_frame s g).2.2.2.2.1

theorem nuke_missing (s : Cache) (g : CachedGuild) :
    (s.nukeGuildCache g).missingPerShard = s.missingPerShard := (nuke_frame s g).2.2.2.2.2.2.1

/-- The state the GuildDelete arm passes to nuke_guild_cache: the stats
adjustment followed by the optional outage record. -/
def Cache.gdPre (s : Cache) (G : CachedGuild) (unav : Bool) : Cache :=
  let s1 :=
    if !G.complete then
      { s with stats := { s.stats with pendingGuilds := i64Dec s.stats.pendingGuilds } }
    else
      { s with stats := { s.stats with loadedGuilds := i64Dec s.stats.loadedGuilds } }
  if unav then s1.guildUnavailable G else s1

theorem update_guildDelete_eq (s : Cache) (ctx : UpdateCtx) (sh gid : Nat) (unav : Bool)
    (G : CachedGuild) (h : lookupAL s.guilds gid = some G) :
    s.update ctx sh (.guildDelete gid unav) =
      { out := .ok, state := (s.gdPre G unav).nukeGuildCache G } := by
  have h' : s.getGuild gid = some G := h
  simp only [Cache.update, h']
  rfl

theorem gdPre_frame (s : Cache) (G : CachedGuild) (unav : Bool) :
    (s.gdPre G unav).guilds = s.guilds ∧
    (s.gdPre G unav).guildChannels = s.guildChannels ∧
    (s.gdPre G unav).privateChannels = s.privateChannels ∧
    (s.gdPre G unav).dmChannelsByUser = s.dmChannelsByUser ∧
    (s.gdPre G unav).users = s.users ∧
    (s.gdPre G unav).emoji = s.emoji ∧
    (s.gdPre G unav).filling = s.filling ∧
    (s.gdPre G unav).expected = s.expected ∧
    (s.gdPre G unav).missingPerShard = s.missingPerShard ∧
    (s.gdPre G unav).clusterId = s.clusterId ∧
    (s.gdPre G unav).unavailableGuilds =
      (if unav then s.unavailableGuilds ++ [G.id] else s.unavailableGuilds) := by
  unfold Cache.gdPre Cache.guildUnavailable
  cases unav <;> cases hc : G.complete <;> simp [hc]

theorem guildDelete_state (s : Cache) (ctx : UpdateCtx) (sh gid : Nat) (unav : Bool)
    (G : CachedGuild) (h : lookupAL s.guilds gid = some G) :
    (s.update ctx sh (.guildDelete gid unav)).out = .ok ∧
    (s.update ctx sh (.guildDelete gid unav)).state.guilds = s.guilds ∧
    (∀ q, lookupAL (s.update ctx sh (.guildDelete gid unav)).state.guildChannels q =
      if q ∈ G.channels.map (fun c => c.1) then none else lookupAL s.guildChannels q) ∧
    (∀ q, lookupAL (s.update ctx sh (.guildDelete gid unav)).state.emoji q =
      if q ∈ G.emoji.map (fun e => e.2.id) then none else lookupAL s.emoji q) ∧
    (∀ q, q ∉ G.members.map (fun m => m.2.userId) →
      lookupAL (s.update ctx sh (.guildDelete gid unav)).state.users q = lookupAL s.users q) ∧
    (s.update ctx sh (.guildDelete gid unav)).state.privateChannels = s.privateChannels ∧
    (s.update ctx sh (.guildDelete gid unav)).state.dmChannelsByUser = s.dmChannelsByUser ∧
    (s.update ctx sh (.guildDelete gid unav)).state.filling = s.filling ∧
    (s.update ctx sh (.guildDelete gid unav)).state.missingPerShard = s.missingPerShard ∧
    (s.update ctx sh (.guildDelete gid unav)).state.unavailableGuilds =
      (if unav then s.unavailableGuilds ++ [G.id] else s.unavailableGuilds) := by
  rw [update_guildDelete_eq s ctx sh gid unav G h]
  obtain ⟨p1, p2, p3, p4, p5, p6, p7, p8, p9, p10, p11⟩ := gdPre_frame s G unav
  refine ⟨rfl, ?_, ?_, ?_, ?_, ?_, ?_, ?_, ?_, ?_⟩
  · rw [nuke_guilds, p1]
  · intro q; rw [nuke_guildChannels, p2]
  · intro q; rw [nuke_emoji, p6]
  · intro q hq; rw [nuke_users_ne _ _ _ hq, p5]
  · rw [nuke_privateChannels, p3]
  · rw [nuke_dm, p4]
  · rw [nuke_filling, p7]
  · rw [nuke_missing, p9]
  · rw [nuke_unavailable, p11]

/-- C10: a GuildDelete for a cached guild, with or without the unavailable
flag, never removes the guild's entry from the top-level guilds map:
get_guild still returns the stale record with its internal member/channel
maps; only the global channel index, the global emoji index and the per-user
mutual-guild counters are purged (private/DM channels, the filling flag and
the shard bookkeeping are untouched). -/
theorem guildDelete_never_removes_guild_entry
    (s : Cache) (ctx : UpdateCtx) (sh gid : Nat) (unav : Bool) (G : CachedGuild)
    (h : s.getGuild gid = some G) :
    (s.update ctx sh (.guildDelete gid unav)).state.guilds = s.guilds ∧
    (s.update ctx sh (.guildDelete gid unav)).state.getGuild gid = some G ∧
    (∀ q ∈ G.channels.map (fun c => c.1),
      lookupAL (s.update ctx sh (.guildDelete gid unav)).state.guildChannels q = none) ∧
    (∀ q, q ∉ G.channels.map (fun c => c.1) →
      lookupAL (s.update ctx sh (.guildDelete gid unav)).state.guildChannels q =
        lookupAL s.guildChannels q) ∧
    (∀ q ∈ G.emoji.map (fun e => e.2.id),
      lookupAL (s.update ctx sh (.guildDelete gid unav)).state.emoji q = none) ∧
    (∀ q, q ∉ G.emoji.map (fun e => e.2.id) →
      lookupAL (s.update ctx sh (.guildDelete gid unav)).state.emoji q = lookupAL s.emoji q) ∧
    (∀ q, q ∉ G.members.map (fun m => m.2.userId) →
      lookupAL (s.update ctx sh (.guildDelete gid unav)).state.users q = lookupAL s.users q) ∧
    (s.update ctx sh (.guildDelete gid unav)).state.privateChannels = s.privateChannels ∧
    (s.update ctx sh (.guildDelete gid unav)).state.dmChannelsByUser = s.dmChannelsByUser ∧
    (s.update ctx sh (.guildDelete gid unav)).state.filling = s.filling ∧
    (s.update ctx sh (.guildDelete gid unav)).state.missingPerShard = s.missingPerShard := by
  obtain ⟨m1, m2, m3, m4, m5, m6, m7, m8, m9, m10⟩ :=
    guildDelete_state s ctx sh gid unav G h
  refine ⟨m2, ?_, ?_, ?_, ?_, ?_, m5, m6, m7, m8, m9⟩
  · show lookupAL (s.update ctx sh (.guildDelete gid unav)).state.guilds gid = some G
    rw [m2]; exact h
  · intro q hq; rw [m3 q]; simp [hq]
  · intro q hq; rw [m3 q]; simp [hq]
  · intro q hq; rw [m4 q]; simp [hq]
  · intro q hq; rw [m4 q]; simp [hq]

def gwGuild : CachedGuild :=
  { id := 1, name := "g",
    members := [(7, { userId := 7, nickname := none, roleIds := [] })],
    channels := [(10, .guildCh 10 1 "general")],
    roles := [],
    emoji := [(20, { id := 20, name := "e" })],
    complete := true, memberCount := 1 }

def gwCache : Cache :=
  { Cache.new with
    guilds := [(1, gwGuild)],
    guildChannels := [(10, .guildCh 10 1 "general")],
    users := [(7, { username := "u", botUser := false, mutualServers := 1 })],
    emoji := [(20, { id := 20, name := "e" })] }

/-- C10 witness: the frame property instantiated on a concrete cache. -/
theorem guildDelete_never_removes_guild_entry_witness :
    gwCache.getGuild 1 = some gwGuild ∧
    (gwCache.update okCtx 0 (.guildDelete 1 false)).state.guilds = gwCache.guilds ∧
    (gwCache.update okCtx 0 (.guildDelete 1 false)).state.getGuild 1 = some gwGuild :=
  ⟨by decide,
   (guildDelete_never_removes_guild_entry gwCache okCtx 0 1 false gwGuild (by decide)).1,
   (guildDelete_never_removes_guild_entry gwCache okCtx 0 1 false gwGuild (by decide)).2.1⟩

def c5Payload : GuildPayload :=
  { id := 1, name := "g", channels := [(10, "general")], roles := [], emoji := [],
    memberCount := 0 }

def c5State : Cache :=
  applyEvents
    [(okCtx, 0, .guildCreate c5Payload),
     (okCtx, 0, .memberAdd 1 sampleMember),
     (okCtx, 0, .guildDelete 1 true)] Cache.new

/-- C5 counterexample: in the state reached from the empty cache by
GuildCreate, MemberAdd, then GuildDelete with the unavailable flag, the
guild id sits in the outage list while the guild record still holds live
member and channel data. -/
theorem unavailable_guild_holds_live_data :
    1 ∈ c5State.unavailableGuilds ∧
    (c5State.getGuild 1).map (fun G => (lookupAL G.members 7).isSome) = some true ∧
    (c5State.getGuild 1).map (fun G => (lookupAL G.channels 10).isSome) = some true := by
  decide

/-- C5 amended: on a GuildDelete carrying the unavailable flag, the guild id
is recorded in the outage list and the guild's globally indexed channels and
emoji are purged, but the guild is not fully evicted: the record with its
member and channel maps remains in the guilds map. -/
theorem guildDelete_unavailable_records_id
    (s : Cache) (ctx : UpdateCtx) (sh gid : Nat) (G : CachedGuild)
    (h : s.getGuild gid = some G) :
    G.id ∈ (s.update ctx sh (.guildDelete gid true)).state.unavailableGuilds ∧
    (s.update ctx sh (.guildDelete gid true)).state.getGuild gid = some G ∧
    (∀ q ∈ G.channels.map (fun c => c.1),
      lookupAL (s.update ctx sh (.guildDelete gid true)).state.guildChannels q = none) ∧
    (∀ q ∈ G.emoji.map (fun e => e.2.id),
      lookupAL (s.update ctx sh (.guildDelete gid true)).state.emoji q = none) := by
  obtain ⟨m1, m2, m3, m4, m5, m6, m7, m8, m9, m10⟩ :=
    guildDelete_state s ctx sh gid true G h
  refine ⟨?_, ?_, ?_, ?_⟩
  · rw [m10]; simp
  · show lookupAL (s.update ctx sh (.guildDelete gid true)).state.guilds gid = some G
    rw [m2]; exact h
  · intro q hq; rw [m3 q]; simp [hq]
  · intro q hq; rw [m4 q]; simp [hq]

/-- C5 amended witness: instantiated on a concrete cache. -/
theorem guildDelete_unavailable_records_id_witness :
    gwCache.getGuild 1 = some gwGuild ∧
    1 ∈ (gwCache.update okCtx 0 (.guildDelete 1 true)).state.unavailableGuilds ∧
    (gwCache.update okCtx 0 (.guildDelete 1 true)).state.getGuild 1 = some gwGuild :=
  ⟨by decide,
   (guildDelete_unavailable_records_id gwCache okCtx 0 1 gwGuild (by decide)).1,
   (guildDelete_unavailable_records_id gwCache okCtx 0 1 gwGuild (by decide)).2.1⟩

/-- The chunk-key pattern as the spec words it:
cluster_<cluster_id>_guild_chunk_<index>. -/
def specGuildChunkKey (c i : Nat) : String :=
  "cluster_" ++ toString c ++ "_guild_chunk_" ++ toString i

/-- The chunk-key pattern as the spec words it:
cluster_<cluster_id>_user_chunk_<index>. -/
def specUserChunkKey (c i : Nat) : String :=
  "cluster_" ++ toString c ++ "_user_chunk_" ++ toString i

theorem renderChunkKey_guild_eq (c i : Nat) :
    renderChunkKey (.guildChunk c i) = "cb_" ++ specGuildChunkKey c i := by
  simp only [renderChunkKey, specGuildChunkKey, ← String.append_assoc]
  rw [show ("cb_" ++ "cluster_" : String) = "cb_cluster_" from by decide]

theorem renderChunkKey_user_eq (c i : Nat) :
    renderChunkKey (.userChunk c i) = "cb_" ++ specUserChunkKey c i := by
  simp only [renderChunkKey, specUserChunkKey, ← String.append_assoc]
  rw [show ("cb_" ++ "cluster_" : String) = "cb_cluster_" from by decide]

/-- C9 counterexample: the key actually written for guild chunk 0 of
cluster 0 is "cb_cluster_0_guild_chunk_0", which is not the spec's pattern
"cluster_0_guild_chunk_0" (and likewise for user chunks). -/
theorem chunk_key_not_spec_pattern :
    renderChunkKey (.guildChunk 0 0) = "cb_cluster_0_guild_chunk_0" ∧
    renderChunkKey (.userChunk 0 0) = "cb_cluster_0_user_chunk_0" ∧
    renderChunkKey (.guildChunk 0 0) ≠ specGuildChunkKey 0 0 ∧
    renderChunkKey (.userChunk 0 0) ≠ specUserChunkKey 0 0 := by
  decide

/-- The well-formedness of one store entry written by the snapshot: expiry
180 and a chunk key of the given cluster. -/
def chunkEntryOK (cid : Nat) (e : ChunkKey × StoredVal × Nat) : Prop :=
  e.2.2 = 180 ∧ ((∃ i, e.1 = ChunkKey.guildChunk cid i) ∨ (∃ i, e.1 = ChunkKey.userChunk cid i))

theorem storeSet_preserve (P : ChunkKey × StoredVal × Nat → Prop) (st : Store)
    (k : ChunkKey) (v : StoredVal) (ttl : Nat)
    (hst : ∀ e ∈ st, P e) (hk : P (k, v, ttl)) :
    ∀ e ∈ storeSet st k v ttl, P e := by
  induction st with
  | nil => intro e he; simp [storeSet] at he; subst he; exact hk
  | cons hd t ih =>
    intro e he
    by_cases hh : hd.1 = k
    · simp [storeSet, hh] at he
      rcases he with he | he
      · subst he; exact hk
      · exact hst e (by simp [he])
    · simp [storeSet, hh] at he
      rcases he with he | he
      · exact hst e (by simp [he])
      · exact ih (fun x hx => hst x (by simp [hx])) e he

theorem prepGuildFold_clusterId (todo : List Nat) (acc : Cache × List ColdStorageGuild) :
    (todo.foldl
      (fun (acc : Cache × List ColdStorageGuild) k =>
        match lookupAL acc.1.guilds k with
        | some g =>
            ({ acc.1 with guilds := eraseAL acc.1.guilds k },
             acc.2 ++ [ColdStorageGuild.fromGuild g])
        | none => acc) acc).1.clusterId = acc.1.clusterId := by
  induction todo generalizing acc with
  | nil => rfl
  | cons hd t ih =>
    simp only [List.foldl_cons]
    rw [ih]
    cases lookupAL acc.1.guilds hd <;> rfl

theorem prepUserFold_clusterId (todo : List Nat) (acc : Cache × List ColdUser) :
    (todo.foldl
      (fun (acc : Cache × List ColdUser) k =>
        match lookupAL acc.1.users k with
        | some u =>
            ({ acc.1 with users := eraseAL acc.1.users k },
             acc.2 ++ [{ id := k, username := u.username, botUser := u.botUser,
                         mutualServers := 0 }])
        | none => acc) acc).1.clusterId = acc.1.clusterId := by
  induction todo generalizing acc with
  | nil => rfl
  | cons hd t ih =>
    simp only [List.foldl_cons]
    rw [ih]
    cases lookupAL acc.1.users hd <;> rfl

theorem prepareGuildChunk_ok (cid : Nat) (s : Cache) (st : Store) (todo : List Nat) (i : Nat)
    (hcid : s.clusterId = cid) (hst : ∀ e ∈ st, chunkEntryOK cid e) :
    (s.prepareGuildChunk st todo i).1.clusterId = cid ∧
    (∀ e ∈ (s.prepareGuildChunk st todo i).2, chunkEntryOK cid e) := by
  unfold Cache.prepareGuildChunk
  constructor
  · rw [prepGuildFold_clusterId todo (s, [])]; exact hcid
  · exact storeSet_preserve _ st _ _ _ hst ⟨rfl, Or.inl ⟨i, by rw [hcid]⟩⟩

theorem prepareUserChunk_ok (cid : Nat) (s : Cache) (st : Store) (todo : List Nat) (i : Nat)
    (hcid : s.clusterId = cid) (hst : ∀ e ∈ st, chunkEntryOK cid e) :
    (s.prepareUserChunk st todo i).1.clusterId = cid ∧
    (∀ e ∈ (s.prepareUserChunk st todo i).2, chunkEntryOK cid e) := by
  unfold Cache.prepareUserChunk
  constructor
  · rw [prepUserFold_clusterId todo (s, [])]; exact hcid
  · exact storeSet_preserve _ st _ _ _ hst ⟨rfl, Or.inr ⟨i, by rw [hcid]⟩⟩

theorem guildChunksFold_ok (cid : Nat) (l : List (Nat × List Nat)) (acc : Cache × Store)
    (hcid : acc.1.clusterId = cid) (hst : ∀ e ∈ acc.2, chunkEntryOK cid e) :
    (l.foldl (fun (acc : Cache × Store) io => Cache.prepareGuildChunk acc.1 acc.2 io.2 io.1)
      acc).1.clusterId = cid ∧
    (∀ e ∈ (l.foldl (fun (acc : Cache × Store) io => Cache.prepareGuildChunk acc.1 acc.2 io.2 io.1)
      acc).2, chunkEntryOK cid e) := by
  induction l generalizing acc with
  | nil => exact ⟨hcid, hst⟩
  | cons hd t ih =>
    simp only [List.foldl_cons]
    have h := prepareGuildChunk_ok cid acc.1 acc.2 hd.2 hd.1 hcid hst
    exact ih (Cache.prepareGuildChunk acc.1 acc.2 hd.2 hd.1) h.1 h.2

theorem userChunksFold_ok (cid : Nat) (l : List (Nat × List Nat)) (acc : Cache × Store)
    (hcid : acc.1.clusterId = cid) (hst : ∀ e ∈ acc.2, chunkEntryOK cid e) :
    (l.foldl (fun (acc : Cache × Store) io => Cache.prepareUserChunk acc.1 acc.2 io.2 io.1)
      acc).1.clusterId = cid ∧
    (∀ e ∈ (l.foldl (fun (acc : Cache × Store) io => Cache.prepareUserChunk acc.1 acc.2 io.2 io.1)
      acc).2, chunkEntryOK cid e) := by
  induction l generalizing acc with
  | nil => exact ⟨hcid, hst⟩
  | cons hd t ih =>
    simp only [List.foldl_cons]
    have h := prepareUserChunk_ok cid acc.1 acc.2 hd.2 hd.1 hcid hst
    exact ih (Cache.prepareUserChunk acc.1 acc.2 hd.2 hd.1) h.1 h.2

/-- C9 amended: every snapshot chunk prepare_cold_resume writes is stored
with an expiry of 180 seconds under a key rendering as
cb_cluster_<cluster_id>_guild_chunk_<index> or
cb_cluster_<cluster_id>_user_chunk_<index> — that is, "cb_" prefixed to the
spec's stated pattern. -/
theorem prepareGuildPhase_ok (cid : Nat) (s1 : Cache) (store : Store)
    (hcid : s1.clusterId = cid) (hst : ∀ e ∈ store, chunkEntryOK cid e) :
    (s1.prepareGuildPhase store).1.clusterId = cid ∧
    (∀ e ∈ (s1.prepareGuildPhase store).2, chunkEntryOK cid e) :=
  guildChunksFold_ok cid (partitionGuilds s1.guilds).enum (s1, store) hcid hst

theorem prepareUserPhase_ok (cid : Nat) (sg : Cache) (store : Store)
    (hcid : sg.clusterId = cid) (hst : ∀ e ∈ store, chunkEntryOK cid e) :
    (sg.prepareUserPhase store).1.clusterId = cid ∧
    (∀ e ∈ (sg.prepareUserPhase store).2, chunkEntryOK cid e) :=
  userChunksFold_ok cid
    (userWorkOrders (keysAL sg.users) (sg.users.length / 100000 + 1)).enum (sg, store) hcid hst

theorem prepare_chunk_keys_and_ttl (s : Cache) :
    ∀ e ∈ (s.prepareColdResume []).2.2,
      e.2.2 = 180 ∧
      ((∃ i, e.1 = ChunkKey.guildChunk s.clusterId i ∧
          renderChunkKey e.1 = "cb_" ++ specGuildChunkKey s.clusterId i) ∨
       (∃ i, e.1 = ChunkKey.userChunk s.clusterId i ∧
          renderChunkKey e.1 = "cb_" ++ specUserChunkKey s.clusterId i)) := by
  intro e he
  have hg := prepareGuildPhase_ok s.clusterId
    { s with guildChannels := [], privateChannels := [] } [] rfl (by intro x hx; cases hx)
  have hu := prepareUserPhase_ok s.clusterId _ _ hg.1 hg.2
  have hok := hu.2 e he
  obtain ⟨httl, hkey⟩ := hok
  refine ⟨httl, ?_⟩
  rcases hkey with ⟨i, hi⟩ | ⟨i, hi⟩
  · exact Or.inl ⟨i, hi, by rw [hi]; exact renderChunkKey_guild_eq s.clusterId i⟩
  · exact Or.inr ⟨i, hi, by rw [hi]; exact renderChunkKey_user_eq s.clusterId i⟩

/-- C9 amended witness: prepared from a concrete cache, the store holds one
user chunk with expiry 180 and a cb_-prefixed key. -/
theorem prepare_chunk_keys_and_ttl_witness :
    ((Cache.new.prepareColdResume []).2.2 =
      [(ChunkKey.userChunk 0 0, StoredVal.userData [], 180)]) ∧
    ((ChunkKey.userChunk 0 0, StoredVal.userData [], 180) ∈ (Cache.new.prepareColdResume []).2.2 ∧
      (180 : Nat) = 180 ∧
      ((∃ i, ChunkKey.userChunk 0 0 = ChunkKey.guildChunk Cache.new.clusterId i ∧
          renderChunkKey (ChunkKey.userChunk 0 0) = "cb_" ++ specGuildChunkKey Cache.new.clusterId i) ∨
       (∃ i, ChunkKey.userChunk 0 0 = ChunkKey.userChunk Cache.new.clusterId i ∧
          renderChunkKey (ChunkKey.userChunk 0 0) = "cb_" ++ specUserChunkKey Cache.new.clusterId i))) := by
  refine ⟨by decide, by decide, ?_, ?_⟩
  · rfl
  · exact (prepare_chunk_keys_and_ttl Cache.new
      (ChunkKey.userChunk 0 0, StoredVal.userData [], 180) (by decide)).2

/-- The guild a gateway event references (none for events that reference no
existing guild, such as GuildCreate and Ready). -/
def eventGuildRef : GatewayEvent → Option Nat
  | .guildUpdate id _ => some id
  | .guildDelete id _ => some id
  | .memberChunk gid _ _ _ _ => some gid
  | .channelCreate (.guildKind (some gid) _ _) => some gid
  | .channelUpdate (.guildKind (some gid) _ _) => some gid
  | .channelDelete (.guildKind (some gid) _ _) => some gid
  | .memberAdd gid _ => some gid
  | .memberUpdate gid _ _ _ _ => some gid
  | .memberRemove gid _ => some gid
  | .roleCreate gid _ => some gid
  | .roleUpdate gid _ => some gid
  | .roleDelete gid _ => some gid
  | _ => none

theorem update_ok_of_missing_guild (s : Cache) (ctx : UpdateCtx) (sh : Nat)
    (e : GatewayEvent) (gid : Nat) (href : eventGuildRef e = some gid)
    (hmiss : s.getGuild gid = none) :
    (s.update ctx sh e).out = .ok := by
  cases e with
  | channelCreate c =>
      cases c with
      | group => rfl
      | guildKind go id name =>
          cases go with
          | none => simp [eventGuildRef] at href
          | some g =>
              simp [eventGuildRef] at href
              subst href
              simp [Cache.update, hmiss]
      | priv id recips => simp [eventGuildRef] at href
  | channelUpdate c =>
      cases c with
      | group => rfl
      | guildKind go id name =>
          cases go with
          | none => simp [eventGuildRef] at href
          | some g =>
              simp [eventGuildRef] at href
              subst href
              simp [Cache.update, hmiss]
      | priv id recips => simp [eventGuildRef] at href
  | channelDelete c =>
      cases c with
      | group => rfl
      | guildKind go id name =>
          cases go with
          | none => simp [eventGuildRef] at href
          | some g =>
              simp [eventGuildRef] at href
              subst href
              simp [Cache.update, hmiss]
      | priv id recips => simp [eventGuildRef] at href
  | memberUpdate g uid ud nick roles =>
      simp [eventGuildRef] at href
      subst href
      simp [Cache.update, Cache.memberUpdateStep, hmiss]
  | guildUpdate id name =>
      simp [eventGuildRef] at href; subst href; simp [Cache.update, hmiss]
  | guildDelete id unav =>
      simp [eventGuildRef] at href; subst href; simp [Cache.update, hmiss]
  | memberChunk g ci cc no ms =>
      simp [eventGuildRef] at href; subst href; simp [Cache.update, hmiss]
  | memberAdd g m =>
      simp [eventGuildRef] at href; subst href; simp [Cache.update, hmiss]
  | memberRemove g uid =>
      simp [eventGuildRef] at href; subst href; simp [Cache.update, hmiss]
  | roleCreate g r =>
      simp [eventGuildRef] at href; subst href; simp [Cache.update, hmiss]
  | roleUpdate g r =>
      simp [eventGuildRef] at href; subst href; simp [Cache.update, hmiss]
  | roleDelete g rid =>
      simp [eventGuildRef] at href; subst href; simp [Cache.update, hmiss]
  | ready n => simp [eventGuildRef] at href
  | guildCreate p => simp [eventGuildRef] at href
  | other => simp [eventGuildRef] at href

theorem update_err_classified (s : Cache) (ctx : UpdateCtx) (sh : Nat)
    (e : GatewayEvent) (b : BotError) (h : (s.update ctx sh e).out = .err b) :
    (∃ t, b = .twilightCluster t ∧ ∃ p, e = .guildCreate p) ∨
    (∃ t, b = .activitySet t ∧ ∃ gid ci cc no ms, e = .memberChunk gid ci cc no ms) := by
  cases e with
  | ready n => simp [Cache.update] at h
  | guildCreate p =>
      cases hc : ctx.cmdResult with
      | some t =>
          left
          refine ⟨t, ?_, p, rfl⟩
          simp only [Cache.update, hc] at h
          cases hguilds : lookupAL s.guilds p.id <;> simp [hguilds] at h <;> exact h.symm
      | none =>
          simp only [Cache.update, hc] at h
          cases hguilds : lookupAL s.guilds p.id <;> simp [hguilds] at h
  | guildUpdate id name =>
      cases hg : s.getGuild id <;> simp [Cache.update, hg] at h
  | guildDelete id unav =>
      cases hg : s.getGuild id <;> simp [Cache.update, hg] at h
  | memberChunk gid ci cc no ms =>
      cases hg : s.getGuild gid with
      | none => simp [Cache.update, hg] at h
      | some g =>
          simp only [Cache.update, hg] at h
          by_cases hfin : (u64Dec cc == ci && no == none) = true
          · simp only [hfin, if_true] at h
            cases hmiss : lookupAL (s.chunkDone gid ms).missingPerShard sh with
            | none => simp [hmiss] at h
            | some sm =>
                simp only [hmiss] at h
                by_cases hcond : (sm == 1 && no == none &&
                    Cache.shardCached
                      { s.chunkDone gid ms with
                        missingPerShard :=
                          insertAL (s.chunkDone gid ms).missingPerShard sh (u64Dec sm) } sh) = true
                · cases ha : ctx.activityResult with
                  | some t =>
                      right
                      refine ⟨t, ?_, gid, ci, cc, no, ms, rfl⟩
                      simp only [hcond, ha, if_true] at h
                      simp at h
                      exact h.symm
                  | none => simp only [hcond, ha, if_true] at h; simp at h
                · simp only [hcond] at h
                  simp at h
          · simp only [hfin] at h
            simp at h
  | channelCreate c =>
      cases c with
      | group => simp [Cache.update] at h
      | guildKind go id name =>
          cases go with
          | none => simp [Cache.update] at h
          | some g => cases hg : s.getGuild g <;> simp [Cache.update, hg] at h
      | priv id recips => simp [Cache.update] at h
  | channelUpdate c =>
      cases c with
      | group => simp [Cache.update] at h
      | guildKind go id name =>
          cases go with
          | none => simp [Cache.update] at h
          | some g => cases hg : s.getGuild g <;> simp [Cache.update, hg] at h
      | priv id recips => simp [Cache.update] at h
  | channelDelete c =>
      cases c with
      | group => simp [Cache.update] at h
      | guildKind go id name =>
          cases go with
          | none => simp [Cache.update] at h
          | some g => cases hg : s.getGuild g <;> simp [Cache.update, hg] at h
      | priv id recips =>
          cases recips with
          | nil => simp [Cache.update] at h
          | cons r t => cases t <;> simp [Cache.update] at h
  | memberAdd g m =>
      cases hg : s.getGuild g <;> simp [Cache.update, hg] at h
  | memberUpdate g uid ud nick roles =>
      by_cases hfirst : (s.memberUpdateStep g uid ud nick roles true).1 = true <;>
        simp [Cache.update, hfirst] at h
  | memberRemove g uid =>
      cases hg : s.getGuild g with
      | none => simp [Cache.update, hg] at h
      | some guild =>
          cases hm : lookupAL guild.members uid <;> simp [Cache.update, hg, hm] at h
  | roleCreate g r =>
      cases hg : s.getGuild g <;> simp [Cache.update, hg] at h
  | roleUpdate g r =>
      cases hg : s.getGuild g <;> simp [Cache.update, hg] at h
  | roleDelete g rid =>
      cases hg : s.getGuild g <;> simp [Cache.update, hg] at h
  | other => simp [Cache.update] at h

/-- C6 amended: Cache::update returns success whenever the guild an event
references is not cached (the event is logged and skipped), and the only
failures it propagates are the transport failure of the outbound
member-chunk request (GuildCreate arm) and the transport failure of the
shard-activity update issued when a shard finishes caching (MemberChunk
arm). -/
theorem update_failure_semantics (s : Cache) (ctx : UpdateCtx) (sh : Nat) :
    (∀ e gid, eventGuildRef e = some gid → s.getGuild gid = none →
      (s.update ctx sh e).out = .ok) ∧
    (∀ e b, (s.update ctx sh e).out = .err b →
      (∃ t, b = .twilightCluster t ∧ ∃ p, e = .guildCreate p) ∨
      (∃ t, b = .activitySet t ∧ ∃ gid ci cc no ms, e = .memberChunk gid ci cc no ms)) :=
  ⟨fun e gid href hmiss => update_ok_of_missing_guild s ctx sh e gid href hmiss,
   fun e b h => update_err_classified s ctx sh e b h⟩

def c6Ctx : UpdateCtx := { cmdResult := none, activityResult := some 3, shardsReady := true }

def c6State : Cache :=
  applyEvents [(okCtx, 0, .ready 1), (okCtx, 0, .guildCreate c5Payload)] Cache.new

/-- C6 counterexample: a propagated failure that is not the member-chunk
request: the final member chunk of the last pending guild triggers
set_shard_activity, whose transport failure is returned by Cache::update. -/
theorem update_propagates_activity_failure :
    (c6State.update c6Ctx 0 (.memberChunk 1 0 1 none [(7, sampleMember)])).out =
      .err (.activitySet 3) ∧
    ∀ t, BotError.activitySet 3 ≠ BotError.twilightCluster t := by
  refine ⟨by decide, ?_⟩
  intro t h
  cases h

/-- C6 amended witness: a member-add for an uncached guild returns Ok. -/
theorem update_failure_semantics_witness :
    eventGuildRef (.memberAdd 5 sampleMember) = some 5 ∧
    Cache.new.getGuild 5 = none ∧
    (Cache.new.update okCtx 0 (.memberAdd 5 sampleMember)).out = .ok :=
  ⟨by decide, by decide,
   (update_failure_semantics Cache.new okCtx 0).1 (.memberAdd 5 sampleMember) 5
     (by decide) (by decide)⟩

/-- Total entity count of a work chunk, reading each listed guild from the
guild map. -/
def chunkEntityTotal (gs : NMap CachedGuild) (chunk : List Nat) : Nat :=
  (chunk.map (fun k => ((lookupAL gs k).map CachedGuild.entityCount).getD 0)).sum


def bigMembers : NMap CachedMember :=
  (List.range 100001).map (fun i => (i, { userId := i, nickname := none, roleIds := [] }))

theorem bigMembers_length : bigMembers.length = 100001 := by
  unfold bigMembers
  rw [List.length_map, List.length_range]

def bigGuild : CachedGuild :=
  { id := 1, name := "big", members := bigMembers,
    channels := [], roles := [], emoji := [], complete := true, memberCount := 100001 }

def bigCache : Cache := { Cache.new with guilds := [(1, bigGuild)] }

theorem entityCount_mk (idv : Nat) (nm : String) (ms : NMap CachedMember)
    (b : Bool) (mc : Nat) :
    (CachedGuild.mk idv nm ms [] [] [] b mc).entityCount = ms.length := by
  unfold CachedGuild.entityCount
  simp

theorem bigGuild_entityCount : bigGuild.entityCount = 100001 := by
  unfold bigGuild
  rw [entityCount_mk, bigMembers_length]

theorem bigCache_guilds : bigCache.guilds = [(1, bigGuild)] := rfl

theorem lookupAL_singleton {V : Type} (k : Nat) (v : V) : lookupAL [(k, v)] k = some v := by
  simp [lookupAL]

theorem partitionGuilds_single (k : Nat) (g : CachedGuild) (h : 100000 < g.entityCount) :
    partitionGuilds [(k, g)] = [[k]] := by
  unfold partitionGuilds partitionGo
  have hgt : 0 + g.entityCount > 100000 := by omega
  simp [hgt, h, partitionGo]

/-- C4 counterexample: a cache holding one guild with 100001 entities is
partitioned into a single work chunk whose total entity count is 100001,
exceeding the 100000 ceiling — the loop closes a chunk only after the
running count has already exceeded the ceiling. -/
theorem chunk_bound_exceeded :
    partitionGuilds bigCache.guilds = [[1]] ∧
    chunkEntityTotal bigCache.guilds [1] = 100001 ∧
    100000 < chunkEntityTotal bigCache.guilds [1] := by
  have hbig : 100000 < bigGuild.entityCount := by rw [bigGuild_entityCount]; norm_num
  have htot : chunkEntityTotal bigCache.guilds [1] = 100001 := by
    rw [bigCache_guilds]
    unfold chunkEntityTotal
    rw [show ([1] : List Nat).map
        (fun k => ((lookupAL [(1, bigGuild)] k).map CachedGuild.entityCount).getD 0) =
        [((lookupAL [(1, bigGuild)] 1).map CachedGuild.entityCount).getD 0] from rfl]
    rw [lookupAL_singleton, Option.map_some', Option.getD_some, bigGuild_entityCount]
    rfl
  refine ⟨?_, htot, by rw [htot]; norm_num⟩
  rw [bigCache_guilds]
  exact partitionGuilds_single 1 bigGuild hbig

theorem lookupAL_of_mem_nodup {V : Type} (l : NMap V) (hnd : (keysAL l).Nodup)
    (k : Nat) (v : V) (hm : (k, v) ∈ l) : lookupAL l k = some v := by
  induction l with
  | nil => cases hm
  | cons hd t ih =>
    rcases hd with ⟨k1, v1⟩
    simp only [keysAL, List.map_cons, List.nodup_cons] at hnd
    rcases List.mem_cons.mp hm with he | ht
    · injection he with h1 h2
      subst h1; subst h2
      simp [lookupAL]
    · have hk : k1 ≠ k := by
        intro hh
        exact hnd.1 (by simpa [hh] using List.mem_map_of_mem (fun p => p.1) ht)
      simp only [lookupAL_cons, hk, if_false]
      exact ih hnd.2 ht

theorem dropLast_map_sum_le (w : Nat → Nat) (l : List Nat) :
    (l.dropLast.map w).sum ≤ (l.map w).sum := by
  cases hl : l with
  | nil => simp
  | cons a t =>
    have hne : l ≠ [] := by rw [hl]; simp
    subst hl
    conv_rhs => rw [← List.dropLast_append_getLast hne]
    simp

theorem partitionGo_spec (w : Nat → Nat) :
    ∀ (t : List (Nat × CachedGuild)) (count : Nat) (list : List Nat)
      (orders : List (List Nat)),
      (∀ p ∈ t, w p.1 = p.2.entityCount) →
      (∀ c ∈ orders, c ≠ [] ∧ (c.dropLast.map w).sum ≤ 100000) →
      (list.map w).sum = count →
      count ≤ 100000 →
      ∀ c ∈ partitionGo t count list orders, c ≠ [] ∧ (c.dropLast.map w).sum ≤ 100000 := by
  intro t
  induction t with
  | nil =>
    intro count list orders _ hord hsum hle c hc
    simp only [partitionGo] at hc
    by_cases hl : list.length > 0
    · simp only [hl, if_true] at hc
      rcases List.mem_append.mp hc with hco | hcn
      · exact hord c hco
      · have hcl : c = list := by simpa using hcn
        subst hcl
        refine ⟨by intro he; rw [he] at hl; simp at hl, ?_⟩
        calc (c.dropLast.map w).sum ≤ (c.map w).sum := dropLast_map_sum_le w c
        _ = count := hsum
        _ ≤ 100000 := hle
    · simp only [hl, if_false] at hc
      exact hord c hc
  | cons hd t ih =>
    intro count list orders hw hord hsum hle c hc
    rcases hd with ⟨k, g⟩
    simp only [partitionGo] at hc
    have hwk : w k = g.entityCount := hw (k, g) (by simp)
    by_cases hbig : count + g.entityCount > 100000
    · simp only [hbig, if_true] at hc
      refine ih 0 [] (orders ++ [list ++ [k]])
        (fun p hp => hw p (by simp [hp])) ?_ rfl (Nat.zero_le _) c hc
      intro d hd
      rcases List.mem_append.mp hd with hdo | hdn
      · exact hord d hdo
      · have hdl : d = list ++ [k] := by simpa using hdn
        subst hdl
        refine ⟨by simp, ?_⟩
        rw [List.dropLast_concat, hsum]
        exact hle
    · simp only [hbig, if_false] at hc
      refine ih (count + g.entityCount) (list ++ [k]) orders
        (fun p hp => hw p (by simp [hp])) hord ?_ (by omega) c hc
      simp [hsum, hwk]

/-- C4 amended: prepare_cold_resume's partition makes every work chunk
nonempty, and a chunk can exceed the 100000-entity ceiling only through its
final guild: each chunk minus its last guild totals at most 100000
entities (the loop closes a chunk as soon as the running count exceeds the
ceiling, after adding the offending guild). -/
theorem chunk_bound_up_to_last_guild (gs : NMap CachedGuild) (hnd : (keysAL gs).Nodup) :
    ∀ c ∈ partitionGuilds gs, c ≠ [] ∧ chunkEntityTotal gs c.dropLast ≤ 100000 := by
  intro c hc
  have hw : ∀ p ∈ gs,
      (fun k => ((lookupAL gs k).map CachedGuild.entityCount).getD 0) p.1 = p.2.entityCount := by
    intro p hp
    rcases p with ⟨k, v⟩
    simp [lookupAL_of_mem_nodup gs hnd k v hp]
  exact partitionGo_spec _ gs 0 [] [] hw (by simp) rfl (by norm_num) c hc

def c4wGuilds : NMap CachedGuild :=
  [(1, { id := 1, name := "a", members := [(7, { userId := 7, nickname := none, roleIds := [] })],
         channels := [], roles := [], emoji := [], complete := true, memberCount := 1 }),
   (2, { id := 2, name := "b", members := [], channels := [], roles := [],
         emoji := [], complete := true, memberCount := 0 })]

/-- C4 amended witness: the bound instantiated on a concrete guild map. -/
theorem chunk_bound_up_to_last_guild_witness :
    (keysAL c4wGuilds).Nodup ∧
    (∀ c ∈ partitionGuilds c4wGuilds, c ≠ [] ∧ chunkEntityTotal c4wGuilds c.dropLast ≤ 100000) :=
  ⟨by decide, chunk_bound_up_to_last_guild c4wGuilds (by decide)⟩

theorem mem_insertAL {V : Type} (l : NMap V) (k : Nat) (v : V) (x : Nat × V)
    (hx : x ∈ insertAL l k v) : x = (k, v) ∨ x ∈ l := by
  induction l with
  | nil => simpa [insertAL] using hx
  | cons hd t ih =>
    by_cases hk : hd.1 = k
    · simp only [insertAL, hk, if_true] at hx
      rcases List.mem_cons.mp hx with he | ht
      · exact Or.inl he
      · exact Or.inr (by simp [ht])
    · simp only [insertAL, hk, if_false] at hx
      rcases List.mem_cons.mp hx with he | ht
      · exact Or.inr (by simp [he])
      · rcases ih ht with h1 | h2
        · exact Or.inl h1
        · exact Or.inr (by simp [h2])

theorem lookupAL_insFold_not_mem {V α : Type} (L : List α) (key : α → Nat) (val : α → V)
    (m : NMap V) (q : Nat) (hq : q ∉ L.map key) :
    lookupAL (L.foldl (fun acc c => insertAL acc (key c) (val c)) m) q = lookupAL m q := by
  induction L generalizing m with
  | nil => rfl
  | cons hd t ih =>
    simp only [List.map_cons, List.mem_cons, not_or] at hq
    simp only [List.foldl_cons]
    rw [ih _ hq.2, lookupAL_insert_ne _ _ _ _ (fun hh => hq.1 hh.symm)]

theorem lookupAL_insFold_mem {V α : Type} (L : List α) (key : α → Nat) (val : α → V)
    (m m' : NMap V) (q : Nat) (hq : q ∈ L.map key) :
    lookupAL (L.foldl (fun acc c => insertAL acc (key c) (val c)) m) q =
      lookupAL (L.foldl (fun acc c => insertAL acc (key c) (val c)) m') q := by
  induction L generalizing m m' with
  | nil => simp at hq
  | cons hd t ih =>
    simp only [List.foldl_cons]
    by_cases hqt : q ∈ t.map key
    · exact ih _ _ hqt
    · have hqh : q = key hd := by
        simp only [List.map_cons, List.mem_cons] at hq
        tauto
      rw [lookupAL_insFold_not_mem t key val _ q hqt,
          lookupAL_insFold_not_mem t key val _ q hqt]
      subst hqh
      rw [lookupAL_insert_self, lookupAL_insert_self]

theorem insFold_entry_prop {V α : Type} (P : Nat × V → Prop) (L : List α)
    (key : α → Nat) (val : α → V) (hL : ∀ c ∈ L, P (key c, val c)) :
    ∀ (m : NMap V), (∀ x ∈ m, P x) →
      ∀ x ∈ L.foldl (fun acc c => insertAL acc (key c) (val c)) m, P x := by
  induction L with
  | nil => intro m hm x hx; exact hm x hx
  | cons hd t ih =>
    intro m hm x hx
    simp only [List.foldl_cons] at hx
    refine ih (fun c hc => hL c (by simp [hc])) _ ?_ x hx
    intro y hy
    rcases mem_insertAL m (key hd) (val hd) y hy with h1 | h2
    · rw [h1]; exact hL hd (by simp)
    · exact hm y h2

theorem fromPayload_channels_keyId (p : GuildPayload) :
    ∀ pr ∈ (CachedGuild.fromPayload p).channels, (pr.2 : CachedChannel).getId = pr.1 := by
  intro pr hpr
  have := insFold_entry_prop (fun x => (x.2 : CachedChannel).getId = x.1)
    p.channels (fun c => c.1) (fun c => CachedChannel.guildCh c.1 p.id c.2)
    (fun c _ => rfl) [] (by intro y hy; cases hy) pr
  exact this hpr

theorem fromPayload_channels_keymap (p : GuildPayload) :
    (CachedGuild.fromPayload p).channels.map (fun c => c.2.getId) =
      (CachedGuild.fromPayload p).channels.map (fun c => c.1) :=
  List.map_congr_left (fun pr hpr => fromPayload_channels_keyId p pr hpr)

/-- The state produced by a successful GuildCreate application. -/
def Cache.gcState (s : Cache) (p : GuildPayload) : Cache :=
  let guild := CachedGuild.fromPayload p
  let s5 := (s.gcNukeOld p).gcIndexNew guild
  let s6 := { s5 with guilds := insertAL s5.guilds p.id guild }
  { s6 with stats := { s6.stats with pendingGuilds := i64Inc s6.stats.pendingGuilds } }

theorem update_guildCreate_state (s : Cache) (ctx : UpdateCtx) (sh : Nat) (p : GuildPayload)
    (hcmd : ctx.cmdResult = none) :
    s.update ctx sh (.guildCreate p) = { out := .ok, state := s.gcState p } := by
  simp only [Cache.update, hcmd]
  rfl

theorem gcState_users (s : Cache) (p : GuildPayload) :
    (s.gcState p).users = (s.gcNukeOld p).users := rfl

theorem gcState_guilds (s : Cache) (p : GuildPayload) :
    (s.gcState p).guilds =
      insertAL (s.gcNukeOld p).guilds p.id (CachedGuild.fromPayload p) := rfl

theorem gcState_gc (s : Cache) (p : GuildPayload) :
    (s.gcState p).guildChannels =
      (CachedGuild.fromPayload p).channels.foldl
        (fun acc (c : Nat × CachedChannel) => insertAL acc c.2.getId c.2)
        (s.gcNukeOld p).guildChannels := rfl

theorem gcState_emoji (s : Cache) (p : GuildPayload) :
    (s.gcState p).emoji =
      (CachedGuild.fromPayload p).emoji.foldl
        (fun acc (e : Nat × CachedEmoji) => insertAL acc e.2.id e.2)
        (s.gcNukeOld p).emoji := rfl

theorem fromPayload_complete (p : GuildPayload) :
    (CachedGuild.fromPayload p).complete = false := rfl

theorem fromPayload_members (p : GuildPayload) :
    (CachedGuild.fromPayload p).members = [] := rfl

theorem nuke_users_nil (s : Cache) (g : CachedGuild) (hg : g.members = []) :
    (s.nukeGuildCache g).users = s.users := by
  unfold Cache.nukeGuildCache
  rw [hg]
  rfl

theorem gcNukeOld_on_gcState (s : Cache) (p : GuildPayload) :
    (s.gcState p).gcNukeOld p =
      Cache.nukeGuildCache
        { s.gcState p with stats :=
            { (s.gcState p).stats with
              pendingGuilds := i64Dec (s.gcState p).stats.pendingGuilds } }
        (CachedGuild.fromPayload p) := by
  unfold Cache.gcNukeOld
  rw [gcState_guilds, lookupAL_insert_self]
  simp [fromPayload_complete]
  rw [← gcState_guilds]

/-- C3: applying the same GuildCreate event twice leaves the guild map, the
global channel index, the global emoji index, and the user index with its
mutual-guild counters in the same state (under lookup) as applying it once:
the second application fully evicts the first fresh record and reinserts an
identical one. -/
theorem guildCreate_idempotent (s : Cache) (ctx : UpdateCtx) (sh : Nat) (p : GuildPayload)
    (hcmd : ctx.cmdResult = none) :
    let r1 := (s.update ctx sh (.guildCreate p)).state
    let r2 := (r1.update ctx sh (.guildCreate p)).state
    (∀ g, lookupAL r2.guilds g = lookupAL r1.guilds g) ∧
    (∀ c, lookupAL r2.guildChannels c = lookupAL r1.guildChannels c) ∧
    (∀ e, lookupAL r2.emoji e = lookupAL r1.emoji e) ∧
    (∀ u, lookupAL r2.users u = lookupAL r1.users u) := by
  intro r1 r2
  have h1 : r1 = s.gcState p := congrArg UpdRes.state (update_guildCreate_state s ctx sh p hcmd)
  have h2 : r2 = r1.gcState p := congrArg UpdRes.state (update_guildCreate_state r1 ctx sh p hcmd)
  rw [h1] at h2
  rw [h2, h1]
  set G := CachedGuild.fromPayload p with hG
  set A := s.gcState p with hA
  have hsen : ∀ q, lookupAL (A.gcNukeOld p).guildChannels q =
      (if q ∈ G.channels.map (fun c => c.1) then none else lookupAL A.guildChannels q) := by
    intro q
    rw [gcNukeOld_on_gcState, nuke_guildChannels]
  have hsee : ∀ q, lookupAL (A.gcNukeOld p).emoji q =
      (if q ∈ G.emoji.map (fun e => e.2.id) then none else lookupAL A.emoji q) := by
    intro q
    rw [gcNukeOld_on_gcState, nuke_emoji]
  have hnuguilds : (A.gcNukeOld p).guilds = A.guilds := by
    rw [gcNukeOld_on_gcState, nuke_guilds]
  have hnuusers : (A.gcNukeOld p).users = A.users := by
    rw [gcNukeOld_on_gcState, nuke_users_nil _ _ (fromPayload_members p)]
  refine ⟨?_, ?_, ?_, ?_⟩
  · intro g0
    rw [gcState_guilds, hnuguilds, lookupAL_insert]
    by_cases hg0 : p.id = g0
    · subst hg0
      rw [if_pos rfl, hA, gcState_guilds, lookupAL_insert_self]
    · rw [if_neg hg0]
  · intro q
    rw [gcState_gc]
    by_cases hq : q ∈ G.channels.map (fun c => c.2.getId)
    · rw [hA, gcState_gc]
      exact lookupAL_insFold_mem G.channels (fun c => c.2.getId) (fun c => c.2) _ _ q hq
    · rw [lookupAL_insFold_not_mem G.channels (fun c => c.2.getId) (fun c => c.2) _ q hq,
        hsen q]
      rw [fromPayload_channels_keymap p] at hq
      rw [if_neg hq]
  · intro q
    rw [gcState_emoji]
    by_cases hq : q ∈ G.emoji.map (fun e => e.2.id)
    · rw [hA, gcState_emoji]
      exact lookupAL_insFold_mem G.emoji (fun e => e.2.id) (fun e => e.2) _ _ q hq
    · rw [lookupAL_insFold_not_mem G.emoji (fun e => e.2.id) (fun e => e.2) _ q hq,
        hsee q]
      rw [if_neg hq]
  · intro u
    rw [gcState_users, hnuusers]

/-- C3 witness: idempotence instantiated on a concrete payload. -/
theorem guildCreate_idempotent_witness :
    okCtx.cmdResult = none ∧
    (let r1 := (Cache.new.update okCtx 0 (.guildCreate c5Payload)).state
     let r2 := (r1.update okCtx 0 (.guildCreate c5Payload)).state
     (∀ g, lookupAL r2.guilds g = lookupAL r1.guilds g) ∧
     (∀ c, lookupAL r2.guildChannels c = lookupAL r1.guildChannels c) ∧
     (∀ e, lookupAL r2.emoji e = lookupAL r1.emoji e) ∧
     (∀ u, lookupAL r2.users u = lookupAL r1.users u)) :=
  ⟨rfl, guildCreate_idempotent Cache.new okCtx 0 c5Payload rfl⟩

theorem incMutual_frame (s : Cache) (u : Nat) :
    (s.incMutual u).guilds = s.guilds ∧
    (s.incMutual u).guildChannels = s.guildChannels ∧
    (s.incMutual u).privateChannels = s.privateChannels ∧
    (s.incMutual u).dmChannelsByUser = s.dmChannelsByUser ∧
    (s.incMutual u).emoji = s.emoji ∧
    (s.incMutual u).filling = s.filling ∧
    (s.incMutual u).unavailableGuilds = s.unavailableGuilds ∧
    (s.incMutual u).expected = s.expected ∧
    (s.incMutual u).missingPerShard = s.missingPerShard ∧
    (s.incMutual u).clusterId = s.clusterId ∧
    (s.incMutual u).stats = s.stats := by
  unfold Cache.incMutual
  split <;> simp

theorem foldInc_frame (L : List (Nat × CachedMember)) (s : Cache) :
    (L.foldl (fun acc (m : Nat × CachedMember) => acc.incMutual m.2.userId) s).guilds = s.guilds ∧
    (L.foldl (fun acc (m : Nat × CachedMember) => acc.incMutual m.2.userId) s).guildChannels = s.guildChannels ∧
    (L.foldl (fun acc (m : Nat × CachedMember) => acc.incMutual m.2.userId) s).emoji = s.emoji ∧
    (L.foldl (fun acc (m : Nat × CachedMember) => acc.incMutual m.2.userId) s).filling = s.filling ∧
    (L.foldl (fun acc (m : Nat × CachedMember) => acc.incMutual m.2.userId) s).clusterId = s.clusterId ∧
    (L.foldl (fun acc (m : Nat × CachedMember) => acc.incMutual m.2.userId) s).stats = s.stats := by
  induction L generalizing s with
  | nil => exact ⟨rfl, rfl, rfl, rfl, rfl, rfl⟩
  | cons hd t ih =>
    simp only [List.foldl_cons]
    obtain ⟨a1, a2, _, _, a5, a6, _, _, _, a10, a11⟩ := incMutual_frame s hd.2.userId
    obtain ⟨b1, b2, b3, b4, b5, b6⟩ := ih (s.incMutual hd.2.userId)
    exact ⟨b1.trans a1, b2.trans a2, b3.trans a5, b4.trans a6, b5.trans a10, b6.trans a11⟩

theorem userDefrostFold_frame (us : List ColdUser) (s : Cache) :
    ((us.foldl
      (fun (acc : Cache) u =>
        let rec1 : CachedUser :=
          { username := u.username, botUser := u.botUser, mutualServers := u.mutualServers }
        let st1 := { acc.stats with uniqueUsers := i64Inc acc.stats.uniqueUsers }
        { acc with users := insertAL acc.users u.id rec1, stats := st1 }) s)).filling = s.filling ∧
    ((us.foldl
      (fun (acc : Cache) u =>
        let rec1 : CachedUser :=
          { username := u.username, botUser := u.botUser, mutualServers := u.mutualServers }
        let st1 := { acc.stats with uniqueUsers := i64Inc acc.stats.uniqueUsers }
        { acc with users := insertAL acc.users u.id rec1, stats := st1 }) s)).clusterId = s.clusterId := by
  induction us generalizing s with
  | nil => exact ⟨rfl, rfl⟩
  | cons hd t ih =>
    simp only [List.foldl_cons]
    exact (ih _).imp (fun h => h.trans rfl) (fun h => h.trans rfl)

theorem defrostUsers_props (s : Cache) (faults : StoreFaults) (store : Store) (i : Nat) :
    ((s.defrostUsers faults store i).state.filling = s.filling) ∧
    ((s.defrostUsers faults store i).state.clusterId = s.clusterId) ∧
    (∀ op ∈ (s.defrostUsers faults store i).trace,
      ∃ c j, op = .get (.userChunk c j) ∨ op = .del (.userChunk c j)) := by
  unfold Cache.defrostUsers
  dsimp only
  split
  · exact ⟨rfl, rfl, by intro op hop; simp at hop; exact ⟨s.clusterId, i, by simp [hop]⟩⟩
  · split
    · exact ⟨rfl, rfl, by intro op hop; simp at hop; exact ⟨s.clusterId, i, by simp [hop]⟩⟩
    · split
      · split
        · exact ⟨rfl, rfl, by
            intro op hop; simp at hop
            rcases hop with h | h <;> exact ⟨s.clusterId, i, by simp [h]⟩⟩
        · refine ⟨(userDefrostFold_frame _ s).1, (userDefrostFold_frame _ s).2, ?_⟩
          intro op hop; simp at hop
          rcases hop with h | h <;> exact ⟨s.clusterId, i, by simp [h]⟩
      · exact ⟨rfl, rfl, by intro op hop; simp at hop; exact ⟨s.clusterId, i, by simp [hop]⟩⟩

theorem foldInc_frame2 (L : List (Nat × CachedMember)) (s : Cache) :
    (L.foldl (fun acc (m : Nat × CachedMember) => acc.incMutual m.2.userId) s).privateChannels = s.privateChannels ∧
    (L.foldl (fun acc (m : Nat × CachedMember) => acc.incMutual m.2.userId) s).dmChannelsByUser = s.dmChannelsByUser ∧
    (L.foldl (fun acc (m : Nat × CachedMember) => acc.incMutual m.2.userId) s).unavailableGuilds = s.unavailableGuilds ∧
    (L.foldl (fun acc (m : Nat × CachedMember) => acc.incMutual m.2.userId) s).expected = s.expected ∧
    (L.foldl (fun acc (m : Nat × CachedMember) => acc.incMutual m.2.userId) s).missingPerShard = s.missingPerShard := by
  induction L generalizing s with
  | nil => exact ⟨rfl, rfl, rfl, rfl, rfl⟩
  | cons hd t ih =>
    simp only [List.foldl_cons]
    obtain ⟨_, _, a3, a4, _, _, a7, a8, a9, _, _⟩ := incMutual_frame s hd.2.userId
    obtain ⟨b1, b2, b3, b4, b5⟩ := ih (s.incMutual hd.2.userId)
    exact ⟨b1.trans a3, b2.trans a4, b3.trans a7, b4.trans a8, b5.trans a9⟩

theorem defrostOneGuild_frame (acc : Cache) (cg : ColdStorageGuild) :
    (acc.defrostOneGuild cg).filling = acc.filling ∧
    (acc.defrostOneGuild cg).clusterId = acc.clusterId ∧
    (acc.defrostOneGuild cg).privateChannels = acc.privateChannels ∧
    (acc.defrostOneGuild cg).dmChannelsByUser = acc.dmChannelsByUser ∧
    (acc.defrostOneGuild cg).unavailableGuilds = acc.unavailableGuilds ∧
    (acc.defrostOneGuild cg).missingPerShard = acc.missingPerShard := by
  unfold Cache.defrostOneGuild Cache.defrostGuildRec
  dsimp only
  obtain ⟨_, _, _, h4, h5, _⟩ := foldInc_frame cg.members acc
  obtain ⟨g1, g2, g3, g4, g5⟩ := foldInc_frame2 cg.members acc
  exact ⟨h4, h5, g1, g2, g3, g5⟩

theorem guildDefrostFold_frame (gs : List ColdStorageGuild) (s : Cache) :
    (gs.foldl Cache.defrostOneGuild s).filling = s.filling ∧
    (gs.foldl Cache.defrostOneGuild s).clusterId = s.clusterId := by
  induction gs generalizing s with
  | nil => exact ⟨rfl, rfl⟩
  | cons hd t ih =>
    simp only [List.foldl_cons]
    obtain ⟨a1, a2, _, _, _, _⟩ := defrostOneGuild_frame s hd
    obtain ⟨b1, b2⟩ := ih (s.defrostOneGuild hd)
    exact ⟨b1.trans a1, b2.trans a2⟩

theorem defrostGuilds_props (s : Cache) (faults : StoreFaults) (store : Store) (i : Nat) :
    ((s.defrostGuilds faults store i).state.filling = s.filling) ∧
    ((s.defrostGuilds faults store i).state.clusterId = s.clusterId) ∧
    (∀ op ∈ (s.defrostGuilds faults store i).trace,
      ∃ c j, op = .get (.guildChunk c j) ∨ op = .del (.guildChunk c j)) := by
  unfold Cache.defrostGuilds
  dsimp only
  split
  · exact ⟨rfl, rfl, by intro op hop; simp at hop; exact ⟨s.clusterId, i, by simp [hop]⟩⟩
  · split
    · exact ⟨rfl, rfl, by intro op hop; simp at hop; exact ⟨s.clusterId, i, by simp [hop]⟩⟩
    · split
      · split
        · exact ⟨rfl, rfl, by
            intro op hop; simp at hop
            rcases hop with h | h <;> exact ⟨s.clusterId, i, by simp [h]⟩⟩
        · refine ⟨(guildDefrostFold_frame _ s).1, (guildDefrostFold_frame _ s).2, ?_⟩
          intro op hop; simp at hop
          rcases hop with h | h <;> exact ⟨s.clusterId, i, by simp [h]⟩
      · exact ⟨rfl, rfl, by intro op hop; simp at hop; exact ⟨s.clusterId, i, by simp [hop]⟩⟩

theorem runPhase_props (f : Cache → Store → Nat → DefStep) (P : StoreOp → Prop)
    (hfill : ∀ s st i, (f s st i).state.filling = s.filling)
    (htr : ∀ s st i, ∀ op ∈ (f s st i).trace, P op) :
    ∀ (n i : Nat) (s : Cache) (st : Store),
      (runPhase f i n s st).state.filling = s.filling ∧
      (∀ op ∈ (runPhase f i n s st).trace, P op) := by
  intro n
  induction n with
  | zero => intro i s st; exact ⟨rfl, by intro op hop; cases hop⟩
  | succ m ih =>
    intro i s st
    unfold runPhase
    dsimp only
    split
    · exact ⟨hfill s st i, htr s st i⟩
    · obtain ⟨b1, b2⟩ := ih (i + 1) (f s st i).state (f s st i).store
      refine ⟨b1.trans (hfill s st i), ?_⟩
      intro op hop
      rcases List.mem_append.mp hop with h | h
      · exact htr s st i op h
      · exact b2 op h

/-- A fetch of a user chunk. -/
def isUserGetOp (op : StoreOp) : Prop := ∃ c j, op = .get (.userChunk c j)

/-- A fetch of a guild chunk. -/
def isGuildGetOp (op : StoreOp) : Prop := ∃ c j, op = .get (.guildChunk c j)

theorem userOp_props (op : StoreOp)
    (h : ∃ c j, op = .get (.userChunk c j) ∨ op = .del (.userChunk c j)) :
    ¬ isGuildGetOp op ∧ op ≠ .flipFill := by
  rcases h with ⟨c, j, h | h⟩ <;> subst h
  · refine ⟨?_, by simp⟩
    rintro ⟨c', j', h'⟩; cases h'
  · refine ⟨?_, by simp⟩
    rintro ⟨c', j', h'⟩; cases h'

theorem guildOp_props (op : StoreOp)
    (h : ∃ c j, op = .get (.guildChunk c j) ∨ op = .del (.guildChunk c j)) :
    ¬ isUserGetOp op ∧ op ≠ .flipFill := by
  rcases h with ⟨c, j, h | h⟩ <;> subst h
  · refine ⟨?_, by simp⟩
    rintro ⟨c', j', h'⟩; cases h'
  · refine ⟨?_, by simp⟩
    rintro ⟨c', j', h'⟩; cases h'

theorem order_of_append (t1 t2 : List StoreOp)
    (h1 : ∀ op ∈ t1, ¬ isGuildGetOp op)
    (h2 : ∀ op ∈ t2, ¬ isUserGetOp op) :
    ∀ i j opi opj, (t1 ++ t2).get? i = some opi → (t1 ++ t2).get? j = some opj →
      isUserGetOp opi → isGuildGetOp opj → i < j := by
  intro i j opi opj hi hj hu hg
  by_cases hil : i < t1.length
  · by_cases hjl : j < t1.length
    · exfalso
      rw [List.get?_append hjl] at hj
      exact h1 opj (List.get?_mem hj) hg
    · omega
  · exfalso
    rw [List.get?_append_right (Nat.le_of_not_lt hil)] at hi
    exact h2 opi (List.get?_mem hi) hu

/-- C7: restore_cold_resume fetches every user chunk before any guild
chunk, and flips the filling flag to false only after all user and guild
chunks are restored successfully: the flip appears in the operation trace
iff the restore returned Ok, it is the last operation, and on any failing
or aborted restore the filling flag is untouched. -/
theorem restore_users_before_guilds_and_flip (s : Cache) (faults : StoreFaults)
    (store : Store) (gchunks uchunks : Nat) :
    (∀ i j opi opj,
      (s.restoreColdResume faults store gchunks uchunks).trace.get? i = some opi →
      (s.restoreColdResume faults store gchunks uchunks).trace.get? j = some opj →
      isUserGetOp opi → isGuildGetOp opj → i < j) ∧
    (StoreOp.flipFill ∈ (s.restoreColdResume faults store gchunks uchunks).trace ↔
      (s.restoreColdResume faults store gchunks uchunks).out = .ok) ∧
    ((s.restoreColdResume faults store gchunks uchunks).out = .ok →
      (s.restoreColdResume faults store gchunks uchunks).trace.getLast? = some .flipFill) ∧
    ((s.restoreColdResume faults store gchunks uchunks).out = .ok →
      (s.restoreColdResume faults store gchunks uchunks).state.filling = false) ∧
    ((s.restoreColdResume faults store gchunks uchunks).out ≠ .ok →
      (s.restoreColdResume faults store gchunks uchunks).state.filling = s.filling) := by
  have hupd := runPhase_props (fun c st i => c.defrostUsers faults st i)
    (fun op => ∃ c j, op = StoreOp.get (.userChunk c j) ∨ op = StoreOp.del (.userChunk c j))
    (fun s' st i => (defrostUsers_props s' faults st i).1)
    (fun s' st i => (defrostUsers_props s' faults st i).2.2) uchunks 0 s store
  unfold Cache.restoreColdResume
  dsimp only
  set up := runPhase (fun c st i => c.defrostUsers faults st i) 0 uchunks s store with hupdef
  have hgpd := runPhase_props (fun c st i => c.defrostGuilds faults st i)
    (fun op => ∃ c j, op = StoreOp.get (.guildChunk c j) ∨ op = StoreOp.del (.guildChunk c j))
    (fun s' st i => (defrostGuilds_props s' faults st i).1)
    (fun s' st i => (defrostGuilds_props s' faults st i).2.2) gchunks 0 up.state up.store
  set gp := runPhase (fun c st i => c.defrostGuilds faults st i) 0 gchunks up.state up.store
    with hgpdef
  have hu1 : ∀ op ∈ up.trace, ¬ isGuildGetOp op ∧ op ≠ .flipFill :=
    fun op hop => userOp_props op (hupd.2 op hop)
  have hg1 : ∀ op ∈ gp.trace, ¬ isUserGetOp op ∧ op ≠ .flipFill :=
    fun op hop => guildOp_props op (hgpd.2 op hop)
  split
  · refine ⟨?_, ?_, ?_, ?_, ?_⟩
    · intro i j opi opj hi hj hui hgj
      exact absurd hgj ((hu1 opj (List.get?_mem hj)).1)
    · constructor
      · intro hmem; exact absurd rfl (hu1 _ hmem).2
      · intro hok; cases hok
    · intro hok; cases hok
    · intro hok; cases hok
    · intro _; exact hupd.1
  · split
    · refine ⟨?_, ?_, ?_, ?_, ?_⟩
      · intro i j opi opj hi hj hui hgj
        exact absurd hgj ((hu1 opj (List.get?_mem hj)).1)
      · constructor
        · intro hmem; exact absurd rfl (hu1 _ hmem).2
        · intro hok; cases hok
      · intro hok; cases hok
      · intro hok; cases hok
      · intro _; exact hupd.1
    · split
      · refine ⟨?_, ?_, ?_, ?_, ?_⟩
        · intro i j opi opj hi hj hui hgj
          exact order_of_append up.trace gp.trace
            (fun op hop => (hu1 op hop).1) (fun op hop => (hg1 op hop).1)
            i j opi opj hi hj hui hgj
        · constructor
          · intro hmem
            rcases List.mem_append.mp hmem with h | h
            · exact absurd rfl (hu1 _ h).2
            · exact absurd rfl (hg1 _ h).2
          · intro hok; cases hok
        · intro hok; cases hok
        · intro hok; cases hok
        · intro _; exact hgpd.1.trans hupd.1
      · split
        · refine ⟨?_, ?_, ?_, ?_, ?_⟩
          · intro i j opi opj hi hj hui hgj
            exact order_of_append up.trace gp.trace
              (fun op hop => (hu1 op hop).1) (fun op hop => (hg1 op hop).1)
              i j opi opj hi hj hui hgj
          · constructor
            · intro hmem
              rcases List.mem_append.mp hmem with h | h
              · exact absurd rfl (hu1 _ h).2
              · exact absurd rfl (hg1 _ h).2
            · intro hok; cases hok
          · intro hok; cases hok
          · intro hok; cases hok
          · intro _; exact hgpd.1.trans hupd.1
        · refine ⟨?_, ?_, ?_, ?_, ?_⟩
          · intro i j opi opj hi hj hui hgj
            refine order_of_append up.trace (gp.trace ++ [.flipFill])
              (fun op hop => (hu1 op hop).1) ?_ i j opi opj ?_ ?_ hui hgj
            · intro op hop
              rcases List.mem_append.mp hop with h | h
              · exact (hg1 op h).1
              · rcases List.mem_singleton.mp h with rfl
                rintro ⟨c', j', h'⟩; cases h'
            · rw [← List.append_assoc]; exact hi
            · rw [← List.append_assoc]; exact hj
          · simp
          · intro _
            rw [show up.trace ++ gp.trace ++ [StoreOp.flipFill] =
              (up.trace ++ gp.trace) ++ [StoreOp.flipFill] from by rw [List.append_assoc]]
            exact List.getLast?_concat _
          · intro _; rfl
          · intro hok; exact absurd rfl hok

/-- C7 witness: a concrete successful restore flips filling to false. -/
theorem restore_users_before_guilds_and_flip_witness :
    (Cache.new.restoreColdResume noFaults
      [(ChunkKey.userChunk 0 0, StoredVal.userData [], 180)] 0 1).out = .ok ∧
    (Cache.new.restoreColdResume noFaults
      [(ChunkKey.userChunk 0 0, StoredVal.userData [], 180)] 0 1).state.filling = false :=
  ⟨by decide,
   (restore_users_before_guilds_and_flip Cache.new noFaults
      [(ChunkKey.userChunk 0 0, StoredVal.userData [], 180)] 0 1).2.2.2.1 (by decide)⟩

/-- C8 amended: every store or deserialization error during restore makes
the whole restore return Error::CacheDefrost tagged with the failing phase
("users" or "guilds") wrapping the underlying error; no error is swallowed
(an Ok restore had no failing chunk in either phase).  The chunk index is
not part of the returned error. -/
theorem restore_error_phase_tagging (s : Cache) (faults : StoreFaults) (store : Store)
    (gchunks uchunks : Nat) :
    (∀ ph e, (s.restoreColdResume faults store gchunks uchunks).out = .err ph e →
      ph = "users" ∨ ph = "guilds") ∧
    ((s.restoreColdResume faults store gchunks uchunks).out = .ok →
      firstErr (runPhase (fun c st i => c.defrostUsers faults st i) 0 uchunks s store).results
          = none ∧
      firstErr (runPhase (fun c st i => c.defrostGuilds faults st i) 0 gchunks
        (runPhase (fun c st i => c.defrostUsers faults st i) 0 uchunks s store).state
        (runPhase (fun c st i => c.defrostUsers faults st i) 0 uchunks s store).store).results
          = none) ∧
    (∀ e, (runPhase (fun c st i => c.defrostUsers faults st i) 0 uchunks s store).panicked
          = false →
      firstErr (runPhase (fun c st i => c.defrostUsers faults st i) 0 uchunks s store).results
          = some e →
      (s.restoreColdResume faults store gchunks uchunks).out = .err "users" e) ∧
    (∀ e, (runPhase (fun c st i => c.defrostUsers faults st i) 0 uchunks s store).panicked
          = false →
      firstErr (runPhase (fun c st i => c.defrostUsers faults st i) 0 uchunks s store).results
          = none →
      (runPhase (fun c st i => c.defrostGuilds faults st i) 0 gchunks
        (runPhase (fun c st i => c.defrostUsers faults st i) 0 uchunks s store).state
        (runPhase (fun c st i => c.defrostUsers faults st i) 0 uchunks s store).store).panicked
          = false →
      firstErr (runPhase (fun c st i => c.defrostGuilds faults st i) 0 gchunks
        (runPhase (fun c st i => c.defrostUsers faults st i) 0 uchunks s store).state
        (runPhase (fun c st i => c.defrostUsers faults st i) 0 uchunks s store).store).results
          = some e →
      (s.restoreColdResume faults store gchunks uchunks).out = .err "guilds" e) := by
  unfold Cache.restoreColdResume
  dsimp only
  set up := runPhase (fun c st i => c.defrostUsers faults st i) 0 uchunks s store with hupdef
  set gp := runPhase (fun c st i => c.defrostGuilds faults st i) 0 gchunks up.state up.store
    with hgpdef
  refine ⟨?_, ?_, ?_, ?_⟩
  · intro ph e h
    by_cases hpan : up.panicked = true
    · simp only [hpan, if_true] at h; cases h
    · simp only [hpan, Bool.false_eq_true] at h
      rw [if_neg (by simp [hpan])] at h
      cases hfe : firstErr up.results with
      | some e' => rw [hfe] at h; left; cases h; rfl
      | none =>
        rw [hfe] at h
        by_cases hgpan : gp.panicked = true
        · rw [if_pos hgpan] at h; cases h
        · rw [if_neg hgpan] at h
          cases hge : firstErr gp.results with
          | some e' => rw [hge] at h; right; cases h; rfl
          | none => rw [hge] at h; cases h
  · intro h
    by_cases hpan : up.panicked = true
    · rw [if_pos hpan] at h; cases h
    · rw [if_neg hpan] at h
      cases hfe : firstErr up.results with
      | some e' => rw [hfe] at h; cases h
      | none =>
        refine ⟨rfl, ?_⟩
        rw [hfe] at h
        by_cases hgpan : gp.panicked = true
        · rw [if_pos hgpan] at h; cases h
        · rw [if_neg hgpan] at h
          cases hge : firstErr gp.results with
          | some e' => rw [hge] at h; cases h
          | none => rfl
  · intro e hpan hfe
    rw [if_neg (by simp [hpan]), hfe]
  · intro e hpan hfe hgpan hge
    rw [if_neg (by simp [hpan]), hfe, if_neg (by simp [hgpan]), hge]

/-- Store faults failing exactly one key's get. -/
def idxFaults (k : ChunkKey) : StoreFaults where
  getFail := fun q => q == k
  delFail := fun _ => false

def c8Store : Store :=
  [(.userChunk 0 0, .userData [], 180), (.userChunk 0 1, .userData [], 180)]

/-- C8 counterexample: two restores whose failing chunk indices differ
(user chunk 0 versus user chunk 1) return the same error value, so the
returned error carries no context identifying the chunk index. -/
theorem restore_error_lacks_chunk_index :
    (Cache.new.restoreColdResume (idxFaults (.userChunk 0 0)) c8Store 0 2).out =
      .err "users" .storeFail ∧
    (Cache.new.restoreColdResume (idxFaults (.userChunk 0 1)) c8Store 0 2).out =
      .err "users" .storeFail ∧
    (Cache.new.restoreColdResume (idxFaults (.userChunk 0 0)) c8Store 0 2).out =
      (Cache.new.restoreColdResume (idxFaults (.userChunk 0 1)) c8Store 0 2).out := by
  exact ⟨by decide, by decide, by decide⟩

/-- C8 amended witness: a concrete failing user chunk surfaces as
CacheDefrost("users", inner). -/
theorem restore_error_phase_tagging_witness :
    (runPhase (fun c st i => c.defrostUsers (idxFaults (.userChunk 0 0)) st i)
      0 2 Cache.new c8Store).panicked = false ∧
    firstErr (runPhase (fun c st i => c.defrostUsers (idxFaults (.userChunk 0 0)) st i)
      0 2 Cache.new c8Store).results = some .storeFail ∧
    (Cache.new.restoreColdResume (idxFaults (.userChunk 0 0)) c8Store 0 2).out =
      .err "users" .storeFail :=
  ⟨by decide, by decide,
   (restore_error_phase_tagging Cache.new (idxFaults (.userChunk 0 0)) c8Store 0 2).2.2.1
     .storeFail (by decide) (by decide)⟩

theorem storeLookup_set (st : Store) (k : ChunkKey) (v : StoredVal) (ttl : Nat) (q : ChunkKey) :
    storeLookup (storeSet st k v ttl) q = if k = q then some (v, ttl) else storeLookup st q := by
  induction st with
  | nil => simp [storeSet, storeLookup]
  | cons e t ih =>
    by_cases he : e.1 = k
    · by_cases hq : k = q
      · simp [storeSet, he, storeLookup, hq]
      · have heq : ¬ e.1 = q := fun h => hq (he.symm.trans h)
        simp [storeSet, he, storeLookup, hq, heq]
    · simp only [storeSet, he, if_false]
      by_cases heq : e.1 = q
      · have hkq : ¬ k = q := fun h => he (heq.trans h.symm)
        simp [storeLookup, heq, hkq]
      · simp [storeLookup, heq, ih]

theorem storeLookup_del (st : Store) (k : ChunkKey) (q : ChunkKey) :
    storeLookup (storeDel st k) q = if k = q then none else storeLookup st q := by
  induction st with
  | nil => simp [storeDel, storeLookup]
  | cons e t ih =>
    by_cases he : e.1 = k
    · simp only [storeDel, he, if_true]
      rw [ih]
      by_cases hq : k = q
      · simp [hq]
      · have heq : ¬ e.1 = q := fun h => hq (he.symm.trans h)
        simp [storeLookup, hq, heq]
    · simp only [storeDel, he, if_false]
      by_cases heq : e.1 = q
      · have hkq : ¬ k = q := fun h => he (heq.trans h.symm)
        simp [storeLookup, heq, hkq]
      · simp [storeLookup, heq, ih]

theorem lookupAL_mem {V : Type} (l : NMap V) (q : Nat) (v : V)
    (h : lookupAL l q = some v) : (q, v) ∈ l := by
  induction l with
  | nil => cases h
  | cons hd t ih =>
    rcases hd with ⟨k, w⟩
    by_cases hk : k = q
    · simp only [lookupAL_cons, hk, if_true] at h
      cases h
      exact hk ▸ List.mem_cons_self _ _
    · simp only [lookupAL_cons, hk, if_false] at h
      exact List.mem_cons_of_mem _ (ih h)

theorem filterMap_congr_mem {α β : Type} (l : List α) (f g : α → Option β)
    (h : ∀ a ∈ l, f a = g a) : l.filterMap f = l.filterMap g := by
  induction l with
  | nil => rfl
  | cons hd t ih =>
    rw [List.filterMap_cons, List.filterMap_cons, h hd (by simp),
        ih (fun a ha => h a (by simp [ha]))]

theorem partitionGo_join : ∀ (l : List (Nat × CachedGuild)) (count : Nat) (list : List Nat)
    (orders : List (List Nat)),
    (partitionGo l count list orders).join =
      orders.join ++ list ++ l.map (fun p => p.1) := by
  intro l
  induction l with
  | nil =>
    intro count list orders
    unfold partitionGo
    split
    · simp [List.join_append]
    · rename_i h
      have hl : list = [] := by
        cases list with
        | nil => rfl
        | cons a t => simp at h
      simp [hl]
  | cons hd t ih =>
    intro count list orders
    rcases hd with ⟨k, g⟩
    unfold partitionGo
    dsimp only
    split
    · rw [ih]
      simp [List.join_append, List.append_assoc]
    · rw [ih]
      simp [List.append_assoc]

theorem partitionGuilds_join (gs : NMap CachedGuild) :
    (partitionGuilds gs).join = keysAL gs := by
  unfold partitionGuilds keysAL
  rw [partitionGo_join]
  simp

theorem pushAt_length : ∀ (bs : List (List Nat)) (i k : Nat),
    (pushAt bs i k).length = bs.length := by
  intro bs
  induction bs with
  | nil => intro i k; rfl
  | cons b t ih =>
    intro i k
    cases i with
    | zero => rfl
    | succ j => simp [pushAt, ih]

theorem pushAt_join_perm : ∀ (bs : List (List Nat)) (i k : Nat), i < bs.length →
    (pushAt bs i k).join.Perm (k :: bs.join) := by
  intro bs
  induction bs with
  | nil => intro i k h; exact absurd h (Nat.not_lt_zero i)
  | cons b t ih =>
    intro i k h
    cases i with
    | zero =>
      simp only [pushAt, List.join_cons]
      exact (List.perm_append_singleton k b).append_right t.join
    | succ j =>
      simp only [pushAt, List.join_cons]
      have hj : j < t.length := by simpa using h
      exact ((ih j k hj).append_left b).trans List.perm_middle

theorem roundRobinGo_length (n : Nat) : ∀ (ks : List Nat) (c : Nat) (bs : List (List Nat)),
    (roundRobinGo n c ks bs).length = bs.length := by
  intro ks
  induction ks with
  | nil => intro c bs; rfl
  | cons k t ih =>
    intro c bs
    simp only [roundRobinGo]
    rw [ih, pushAt_length]

theorem roundRobinGo_join_perm (n : Nat) (hn : 0 < n) : ∀ (ks : List Nat) (c : Nat)
    (bs : List (List Nat)), bs.length = n →
    (roundRobinGo n c ks bs).join.Perm (bs.join ++ ks) := by
  intro ks
  induction ks with
  | nil => intro c bs _; simp [roundRobinGo]
  | cons k t ih =>
    intro c bs hlen
    simp only [roundRobinGo]
    have hlt : c % n < bs.length := by rw [hlen]; exact Nat.mod_lt _ hn
    have h1 : (roundRobinGo n (c + 1) t (pushAt bs (c % n) k)).join.Perm
        ((pushAt bs (c % n) k).join ++ t) := ih (c + 1) _ (by rw [pushAt_length, hlen])
    have h2 : ((pushAt bs (c % n) k).join ++ t).Perm ((k :: bs.join) ++ t) :=
      (pushAt_join_perm bs (c % n) k hlt).append_right t
    have h3 : (k :: (bs.join ++ t)).Perm (bs.join ++ (k :: t)) := List.perm_middle.symm
    exact (h1.trans h2).trans h3

theorem userWorkOrders_length (keys : List Nat) (n : Nat) :
    (userWorkOrders keys n).length = n := by
  unfold userWorkOrders
  rw [roundRobinGo_length, List.length_replicate]

theorem join_replicate_nil (n : Nat) : (List.replicate n ([] : List Nat)).join = [] := by
  induction n with
  | zero => rfl
  | succ m ih => simp [List.replicate_succ, ih]

theorem userWorkOrders_join_perm (keys : List Nat) (n : Nat) (hn : 0 < n) :
    (userWorkOrders keys n).join.Perm keys := by
  unfold userWorkOrders
  have h := roundRobinGo_join_perm n hn keys 0 (List.replicate n []) (List.length_replicate n _)
  rw [join_replicate_nil] at h
  simpa using h

/-- One iteration of the guild-dump loop of _prepare_cold_resume_guild. -/
def gDumpStep (acc : Cache × List ColdStorageGuild) (k : Nat) : Cache × List ColdStorageGuild :=
  match lookupAL acc.1.guilds k with
  | some g =>
      ({ acc.1 with guilds := eraseAL acc.1.guilds k },
       acc.2 ++ [ColdStorageGuild.fromGuild g])
  | none => acc

/-- One iteration of the user-dump loop of _prepare_cold_resume_user. -/
def uDumpStep (acc : Cache × List ColdUser) (k : Nat) : Cache × List ColdUser :=
  match lookupAL acc.1.users k with
  | some u =>
      ({ acc.1 with users := eraseAL acc.1.users k },
       acc.2 ++ [{ id := k, username := u.username, botUser := u.botUser, mutualServers := 0 }])
  | none => acc

theorem prepareGuildChunk_eq (s : Cache) (store : Store) (todo : List Nat) (index : Nat) :
    s.prepareGuildChunk store todo index =
      ((todo.foldl gDumpStep (s, [])).1,
       storeSet store (.guildChunk s.clusterId index)
         (.guildData (todo.foldl gDumpStep (s, [])).2) 180) := rfl

theorem prepareUserChunk_eq (s : Cache) (store : Store) (todo : List Nat) (index : Nat) :
    s.prepareUserChunk store todo index =
      ((todo.foldl uDumpStep (s, [])).1,
       storeSet store (.userChunk s.clusterId index)
         (.userData (todo.foldl uDumpStep (s, [])).2) 180) := rfl

theorem gDumpFold_spec : ∀ (todo : List Nat), todo.Nodup → ∀ (c : Cache) (L : List ColdStorageGuild),
    ∃ gm,
      todo.foldl gDumpStep (c, L) =
        ({ c with guilds := gm },
         L ++ todo.filterMap (fun k => (lookupAL c.guilds k).map ColdStorageGuild.fromGuild)) ∧
      ∀ q, lookupAL gm q = if q ∈ todo then none else lookupAL c.guilds q := by
  intro todo
  induction todo with
  | nil =>
    intro _ c L
    exact ⟨c.guilds, by simp, by intro q; simp⟩
  | cons k t ih =>
    intro hnd c L
    have hkt : k ∉ t := (List.nodup_cons.mp hnd).1
    have hndt : t.Nodup := (List.nodup_cons.mp hnd).2
    rw [List.foldl_cons]
    cases hk : lookupAL c.guilds k with
    | none =>
      have hstep : gDumpStep (c, L) k = (c, L) := by
        unfold gDumpStep
        rw [hk]
      rw [hstep]
      obtain ⟨gm, h1, h2⟩ := ih hndt c L
      refine ⟨gm, ?_, ?_⟩
      · rw [h1, List.filterMap_cons]
        simp [hk]
      · intro q
        rw [h2 q]
        by_cases hq : q = k
        · subst hq
          simp [hkt, hk]
        · simp [List.mem_cons, hq]
    | some g =>
      have hstep : gDumpStep (c, L) k =
          ({ c with guilds := eraseAL c.guilds k }, L ++ [ColdStorageGuild.fromGuild g]) := by
        unfold gDumpStep
        rw [hk]
      rw [hstep]
      obtain ⟨gm, h1, h2⟩ := ih hndt { c with guilds := eraseAL c.guilds k }
        (L ++ [ColdStorageGuild.fromGuild g])
      refine ⟨gm, ?_, ?_⟩
      · rw [h1, List.filterMap_cons]
        simp only [hk, Option.map_some]
        rw [List.append_assoc]
        have hcg : t.filterMap
              (fun k1 => (lookupAL (eraseAL c.guilds k) k1).map ColdStorageGuild.fromGuild) =
            t.filterMap (fun k1 => (lookupAL c.guilds k1).map ColdStorageGuild.fromGuild) := by
          refine filterMap_congr_mem t _ _ (fun a ha => ?_)
          rw [lookupAL_erase_ne _ _ _ (fun he => hkt (by rw [he]; exact ha))]
        rw [hcg]
        rfl
      · intro q
        rw [h2 q]
        by_cases hq : q = k
        · subst hq
          simp [lookupAL_erase_self, hkt]
        · rw [lookupAL_erase_ne _ _ _ (fun he => hq he.symm)]
          simp [List.mem_cons, hq]

theorem uDumpFold_spec : ∀ (todo : List Nat), todo.Nodup → ∀ (c : Cache) (L : List ColdUser),
    ∃ um,
      todo.foldl uDumpStep (c, L) =
        ({ c with users := um },
         L ++ todo.filterMap (fun k => (lookupAL c.users k).map
           (fun u => ({ id := k, username := u.username, botUser := u.botUser,
                        mutualServers := 0 } : ColdUser)))) ∧
      ∀ q, lookupAL um q = if q ∈ todo then none else lookupAL c.users q := by
  intro todo
  induction todo with
  | nil =>
    intro _ c L
    exact ⟨c.users, by simp, by intro q; simp⟩
  | cons k t ih =>
    intro hnd c L
    have hkt : k ∉ t := (List.nodup_cons.mp hnd).1
    have hndt : t.Nodup := (List.nodup_cons.mp hnd).2
    rw [List.foldl_cons]
    cases hk : lookupAL c.users k with
    | none =>
      have hstep : uDumpStep (c, L) k = (c, L) := by
        unfold uDumpStep
        rw [hk]
      rw [hstep]
      obtain ⟨um, h1, h2⟩ := ih hndt c L
      refine ⟨um, ?_, ?_⟩
      · rw [h1, List.filterMap_cons]
        simp [hk]
      · intro q
        rw [h2 q]
        by_cases hq : q = k
        · subst hq
          simp [hkt, hk]
        · simp [List.mem_cons, hq]
    | some u =>
      have hstep : uDumpStep (c, L) k =
          ({ c with users := eraseAL c.users k },
           L ++ [{ id := k, username := u.username, botUser := u.botUser,
                   mutualServers := 0 }]) := by
        unfold uDumpStep
        rw [hk]
      rw [hstep]
      obtain ⟨um, h1, h2⟩ := ih hndt { c with users := eraseAL c.users k }
        (L ++ [{ id := k, username := u.username, botUser := u.botUser, mutualServers := 0 }])
      refine ⟨um, ?_, ?_⟩
      · rw [h1, List.filterMap_cons]
        simp only [hk, Option.map_some]
        rw [List.append_assoc]
        have hcg : t.filterMap
              (fun k1 => (lookupAL (eraseAL c.users k) k1).map
                (fun u1 => ({ id := k1, username := u1.username, botUser := u1.botUser,
                              mutualServers := 0 } : ColdUser))) =
            t.filterMap (fun k1 => (lookupAL c.users k1).map
              (fun u1 => ({ id := k1, username := u1.username, botUser := u1.botUser,
                            mutualServers := 0 } : ColdUser))) := by
          refine filterMap_congr_mem t _ _ (fun a ha => ?_)
          rw [lookupAL_erase_ne _ _ _ (fun he => hkt (by rw [he]; exact ha))]
        rw [hcg]
        rfl
      · intro q
        rw [h2 q]
        by_cases hq : q = k
        · subst hq
          simp [lookupAL_erase_self, hkt]
        · rw [lookupAL_erase_ne _ _ _ (fun he => hq he.symm)]
          simp [List.mem_cons, hq]

/-- The guild half of prepare_cold_resume as an explicit fold over indexed
work orders. -/
def gPhaseFold (l : List (Nat × List Nat)) (acc : Cache × Store) : Cache × Store :=
  l.foldl (fun acc io => Cache.prepareGuildChunk acc.1 acc.2 io.2 io.1) acc

/-- The user half of prepare_cold_resume as an explicit fold over indexed
work orders. -/
def uPhaseFold (l : List (Nat × List Nat)) (acc : Cache × Store) : Cache × Store :=
  l.foldl (fun acc io => Cache.prepareUserChunk acc.1 acc.2 io.2 io.1) acc

theorem prepareGuildPhase_eq (s1 : Cache) (store : Store) :
    s1.prepareGuildPhase store =
      gPhaseFold (List.enumFrom 0 (partitionGuilds s1.guilds)) (s1, store) := rfl

theorem prepareUserPhase_eq (sg : Cache) (store : Store) :
    sg.prepareUserPhase store =
      uPhaseFold (List.enumFrom 0 (userWorkOrders (keysAL sg.users)
        (sg.users.length / 100000 + 1))) (sg, store) := rfl

theorem gPhaseFold_cons (n : Nat) (o : List Nat) (rest : List (Nat × List Nat))
    (c : Cache) (store : Store) :
    gPhaseFold ((n, o) :: rest) (c, store) =
      gPhaseFold rest (Cache.prepareGuildChunk c store o n) := rfl

theorem uPhaseFold_cons (n : Nat) (o : List Nat) (rest : List (Nat × List Nat))
    (c : Cache) (store : Store) :
    uPhaseFold ((n, o) :: rest) (c, store) =
      uPhaseFold rest (Cache.prepareUserChunk c store o n) := rfl

theorem gPhaseGo : ∀ (orders : List (List Nat)) (n : Nat) (c : Cache) (store : Store),
    orders.join.Nodup →
    ∃ gm,
      (gPhaseFold (List.enumFrom n orders) (c, store)).1 = { c with guilds := gm } ∧
      (∀ q, lookupAL gm q = if q ∈ orders.join then none else lookupAL c.guilds q) ∧
      (∀ k : ChunkKey, (∀ i, n ≤ i → i < n + orders.length → k ≠ .guildChunk c.clusterId i) →
        storeLookup (gPhaseFold (List.enumFrom n orders) (c, store)).2 k = storeLookup store k) ∧
      (∀ i o, orders.get? i = some o →
        storeLookup (gPhaseFold (List.enumFrom n orders) (c, store)).2
            (.guildChunk c.clusterId (n + i)) =
          some (.guildData (o.filterMap
            (fun k => (lookupAL c.guilds k).map ColdStorageGuild.fromGuild)), 180)) := by
  intro orders
  induction orders with
  | nil =>
    intro n c store _
    refine ⟨c.guilds, rfl, ?_, ?_, ?_⟩
    · intro q; simp
    · intro k _; rfl
    · intro i o h; simp at h
  | cons o t ih =>
    intro n c store hnd
    obtain ⟨hno, hnt, hdisj⟩ :=
      List.nodup_append.mp (show (o ++ t.join).Nodup by simpa [List.join_cons] using hnd)
    obtain ⟨gm0, hfold0, hlook0⟩ := gDumpFold_spec o hno c []
    have hstep : Cache.prepareGuildChunk c store o n =
        ({ c with guilds := gm0 },
         storeSet store (.guildChunk c.clusterId n)
           (.guildData (o.filterMap
             (fun k => (lookupAL c.guilds k).map ColdStorageGuild.fromGuild))) 180) := by
      rw [prepareGuildChunk_eq, hfold0]
      rfl
    obtain ⟨gm, hst, hlk, hfr, hct⟩ := ih (n + 1) { c with guilds := gm0 }
      (storeSet store (.guildChunk c.clusterId n)
        (.guildData (o.filterMap
          (fun k => (lookupAL c.guilds k).map ColdStorageGuild.fromGuild))) 180) hnt
    dsimp only at hst hlk hfr hct
    have hEQ : gPhaseFold (List.enumFrom n (o :: t)) (c, store) =
        gPhaseFold (List.enumFrom (n + 1) t)
          ({ c with guilds := gm0 },
           storeSet store (.guildChunk c.clusterId n)
             (.guildData (o.filterMap
               (fun k => (lookupAL c.guilds k).map ColdStorageGuild.fromGuild))) 180) := by
      rw [show List.enumFrom n (o :: t) = (n, o) :: List.enumFrom (n + 1) t from rfl,
          gPhaseFold_cons, hstep]
    refine ⟨gm, ?_, ?_, ?_, ?_⟩
    · rw [hEQ, hst]
    · intro q
      rw [hlk q, hlook0 q]
      simp only [List.join_cons, List.mem_append]
      by_cases h1 : q ∈ t.join <;> by_cases h2 : q ∈ o <;> simp [h1, h2]
    · intro k hk
      rw [hEQ, hfr k (fun i hi1 hi2 => hk i (by omega) (by simp at hi2 ⊢; omega)),
          storeLookup_set]
      exact if_neg (fun h => (hk n le_rfl (by simp)) h.symm)
    · intro i o' h
      cases i with
      | zero =>
        have ho' : o' = o := by
          rw [List.get?_cons_zero] at h
          exact (Option.some.injEq _ _ ▸ h).symm
        subst ho'
        rw [show n + 0 = n from rfl, hEQ,
            hfr (.guildChunk c.clusterId n) (fun i hi1 _ => by simp; omega),
            storeLookup_set, if_pos rfl]
      | succ j =>
        rw [List.get?_cons_succ] at h
        have hsub : o'.filterMap
              (fun k => (lookupAL gm0 k).map ColdStorageGuild.fromGuild) =
            o'.filterMap
              (fun k => (lookupAL c.guilds k).map ColdStorageGuild.fromGuild) := by
          refine filterMap_congr_mem o' _ _ (fun a ha => ?_)
          have hat : a ∈ t.join :=
            List.mem_join.mpr ⟨o', List.get?_mem h, ha⟩
          have hao : a ∉ o := fun hin => hdisj hin hat
          rw [hlook0 a, if_neg hao]
        rw [show n + (j + 1) = n + 1 + j from by omega, hEQ, hct j o' h, hsub]

theorem uPhaseGo : ∀ (orders : List (List Nat)) (n : Nat) (c : Cache) (store : Store),
    orders.join.Nodup →
    ∃ um,
      (uPhaseFold (List.enumFrom n orders) (c, store)).1 = { c with users := um } ∧
      (∀ q, lookupAL um q = if q ∈ orders.join then none else lookupAL c.users q) ∧
      (∀ k : ChunkKey, (∀ i, n ≤ i → i < n + orders.length → k ≠ .userChunk c.clusterId i) →
        storeLookup (uPhaseFold (List.enumFrom n orders) (c, store)).2 k = storeLookup store k) ∧
      (∀ i o, orders.get? i = some o →
        storeLookup (uPhaseFold (List.enumFrom n orders) (c, store)).2
            (.userChunk c.clusterId (n + i)) =
          some (.userData (o.filterMap
            (fun k => (lookupAL c.users k).map
              (fun u => ({ id := k, username := u.username, botUser := u.botUser,
                           mutualServers := 0 } : ColdUser)))), 180)) := by
  intro orders
  induction orders with
  | nil =>
    intro n c store _
    refine ⟨c.users, rfl, ?_, ?_, ?_⟩
    · intro q; simp
    · intro k _; rfl
    · intro i o h; simp at h
  | cons o t ih =>
    intro n c store hnd
    obtain ⟨hno, hnt, hdisj⟩ :=
      List.nodup_append.mp (show (o ++ t.join).Nodup by simpa [List.join_cons] using hnd)
    obtain ⟨um0, hfold0, hlook0⟩ := uDumpFold_spec o hno c []
    have hstep : Cache.prepareUserChunk c store o n =
        ({ c with users := um0 },
         storeSet store (.userChunk c.clusterId n)
           (.userData (o.filterMap
             (fun k => (lookupAL c.users k).map
               (fun u => ({ id := k, username := u.username, botUser := u.botUser,
                            mutualServers := 0 } : ColdUser))))) 180) := by
      rw [prepareUserChunk_eq, hfold0]
      rfl
    obtain ⟨um, hst, hlk, hfr, hct⟩ := ih (n + 1) { c with users := um0 }
      (storeSet store (.userChunk c.clusterId n)
        (.userData (o.filterMap
          (fun k => (lookupAL c.users k).map
            (fun u => ({ id := k, username := u.username, botUser := u.botUser,
                         mutualServers := 0 } : ColdUser))))) 180) hnt
    dsimp only at hst hlk hfr hct
    have hEQ : uPhaseFold (List.enumFrom n (o :: t)) (c, store) =
        uPhaseFold (List.enumFrom (n + 1) t)
          ({ c with users := um0 },
           storeSet store (.userChunk c.clusterId n)
             (.userData (o.filterMap
               (fun k => (lookupAL c.users k).map
                 (fun u => ({ id := k, username := u.username, botUser := u.botUser,
                              mutualServers := 0 } : ColdUser))))) 180) := by
      rw [show List.enumFrom n (o :: t) = (n, o) :: List.enumFrom (n + 1) t from rfl,
          uPhaseFold_cons, hstep]
    refine ⟨um, ?_, ?_, ?_, ?_⟩
    · rw [hEQ, hst]
    · intro q
      rw [hlk q, hlook0 q]
      simp only [List.join_cons, List.mem_append]
      by_cases h1 : q ∈ t.join <;> by_cases h2 : q ∈ o <;> simp [h1, h2]
    · intro k hk
      rw [hEQ, hfr k (fun i hi1 hi2 => hk i (by omega) (by simp at hi2 ⊢; omega)),
          storeLookup_set]
      exact if_neg (fun h => (hk n le_rfl (by simp)) h.symm)
    · intro i o' h
      cases i with
      | zero =>
        have ho' : o' = o := by
          rw [List.get?_cons_zero] at h
          exact (Option.some.injEq _ _ ▸ h).symm
        subst ho'
        rw [show n + 0 = n from rfl, hEQ,
            hfr (.userChunk c.clusterId n) (fun i hi1 _ => by simp; omega),
            storeLookup_set, if_pos rfl]
      | succ j =>
        rw [List.get?_cons_succ] at h
        have hsub : o'.filterMap
              (fun k => (lookupAL um0 k).map
                (fun u => ({ id := k, username := u.username, botUser := u.botUser,
                             mutualServers := 0 } : ColdUser))) =
            o'.filterMap
              (fun k => (lookupAL c.users k).map
                (fun u => ({ id := k, username := u.username, botUser := u.botUser,
                             mutualServers := 0 } : ColdUser))) := by
          refine filterMap_congr_mem o' _ _ (fun a ha => ?_)
          have hat : a ∈ t.join :=
            List.mem_join.mpr ⟨o', List.get?_mem h, ha⟩
          have hao : a ∉ o := fun hin => hdisj hin hat
          rw [hlook0 a, if_neg hao]
        rw [show n + (j + 1) = n + 1 + j from by omega, hEQ, hct j o' h, hsub]

theorem prepareColdResume_spec (s : Cache) (hg : (keysAL s.guilds).Nodup)
    (hu : (keysAL s.users).Nodup) :
    (s.prepareColdResume []).1.1 = (partitionGuilds s.guilds).length ∧
    (s.prepareColdResume []).1.2 = s.users.length / 100000 + 1 ∧
    (∀ i o, (partitionGuilds s.guilds).get? i = some o →
      storeLookup (s.prepareColdResume []).2.2 (.guildChunk s.clusterId i) =
        some (.guildData (o.filterMap
          (fun k => (lookupAL s.guilds k).map ColdStorageGuild.fromGuild)), 180)) ∧
    (∀ j o, (userWorkOrders (keysAL s.users) (s.users.length / 100000 + 1)).get? j = some o →
      storeLookup (s.prepareColdResume []).2.2 (.userChunk s.clusterId j) =
        some (.userData (o.filterMap
          (fun k => (lookupAL s.users k).map
            (fun u => ({ id := k, username := u.username, botUser := u.botUser,
                         mutualServers := 0 } : ColdUser)))), 180)) := by
  have hndg : (partitionGuilds s.guilds).join.Nodup := by
    rw [partitionGuilds_join]; exact hg
  obtain ⟨gm, hgst, hglk, hgfr, hgct⟩ := gPhaseGo (partitionGuilds s.guilds) 0
    { s with guildChannels := [], privateChannels := [] } [] hndg
  dsimp only at hgst hglk hgfr hgct
  have hnn : 0 < s.users.length / 100000 + 1 := Nat.succ_pos _
  have hndu : (userWorkOrders (keysAL s.users) (s.users.length / 100000 + 1)).join.Nodup :=
    ((userWorkOrders_join_perm (keysAL s.users) _ hnn).nodup_iff).mpr hu
  obtain ⟨um, hust, hulk, hufr, huct⟩ :=
    uPhaseGo (userWorkOrders (keysAL s.users) (s.users.length / 100000 + 1)) 0
      { clusterId := s.clusterId, guilds := gm, guildChannels := [], privateChannels := [],
        dmChannelsByUser := s.dmChannelsByUser, users := s.users, emoji := s.emoji,
        filling := s.filling, unavailableGuilds := s.unavailableGuilds, expected := s.expected,
        stats := s.stats, missingPerShard := s.missingPerShard }
      (gPhaseFold (List.enumFrom 0 (partitionGuilds s.guilds))
        ({ s with guildChannels := [], privateChannels := [] }, [])).2 hndu
  dsimp only at hust hulk hufr huct
  have hm : s.prepareColdResume [] =
      (((partitionGuilds s.guilds).length, s.users.length / 100000 + 1),
       { (uPhaseFold (List.enumFrom 0 (userWorkOrders (keysAL s.users)
             (s.users.length / 100000 + 1)))
           ({ clusterId := s.clusterId, guilds := gm, guildChannels := [],
              privateChannels := [], dmChannelsByUser := s.dmChannelsByUser, users := s.users,
              emoji := s.emoji, filling := s.filling, unavailableGuilds := s.unavailableGuilds,
              expected := s.expected, stats := s.stats, missingPerShard := s.missingPerShard },
            (gPhaseFold (List.enumFrom 0 (partitionGuilds s.guilds))
              ({ s with guildChannels := [], privateChannels := [] }, [])).2)).1
         with users := [] },
       (uPhaseFold (List.enumFrom 0 (userWorkOrders (keysAL s.users)
           (s.users.length / 100000 + 1)))
         ({ clusterId := s.clusterId, guilds := gm, guildChannels := [],
            privateChannels := [], dmChannelsByUser := s.dmChannelsByUser, users := s.users,
            emoji := s.emoji, filling := s.filling, unavailableGuilds := s.unavailableGuilds,
            expected := s.expected, stats := s.stats, missingPerShard := s.missingPerShard },
          (gPhaseFold (List.enumFrom 0 (partitionGuilds s.guilds))
            ({ s with guildChannels := [], privateChannels := [] }, [])).2)).2) := by
    unfold Cache.prepareColdResume
    dsimp only
    rw [prepareGuildPhase_eq]
    dsimp only
    rw [hgst]
    dsimp only
    rw [prepareUserPhase_eq]
  refine ⟨?_, ?_, ?_, ?_⟩
  · rw [hm]
  · rw [hm]
  · intro i o hio
    rw [hm]
    dsimp only
    have h1 := hufr (.guildChunk s.clusterId i) (fun i' _ _ => by simp)
    rw [h1]
    have h2 := hgct i o hio
    rw [Nat.zero_add] at h2
    exact h2
  · intro j o hjo
    rw [hm]
    dsimp only
    have h2 := huct j o hjo
    rw [Nat.zero_add] at h2
    exact h2

theorem lookupAL_insFold_isSome {V α : Type} (L : List α) (key : α → Nat) (val : α → V) :
    ∀ (m : NMap V) (q : Nat),
      (lookupAL (L.foldl (fun acc c => insertAL acc (key c) (val c)) m) q).isSome ↔
        q ∈ L.map key ∨ (lookupAL m q).isSome := by
  induction L with
  | nil => intro m q; simp
  | cons hd t ih =>
    intro m q
    rw [List.foldl_cons, ih, lookupAL_insert]
    by_cases hq : key hd = q
    · simp only [if_pos hq, Option.isSome_some, or_true, List.map_cons, List.mem_cons, true_iff]
      exact Or.inl (Or.inl hq.symm)
    · have hq2 : ¬ q = key hd := fun h => hq h.symm
      simp only [hq, if_false, List.map_cons, List.mem_cons, hq2, false_or]

theorem lookupAL_insFold_allsame {V α : Type} (L : List α) (key : α → Nat) (val : α → V)
    (q : Nat) (v : V) :
    (∀ c ∈ L, key c = q → val c = v) → q ∈ L.map key →
    ∀ (m : NMap V), lookupAL (L.foldl (fun acc c => insertAL acc (key c) (val c)) m) q = some v := by
  induction L with
  | nil => intro _ hmem; simp at hmem
  | cons hd t ih =>
    intro hall hmem m
    rw [List.foldl_cons]
    by_cases hqt : q ∈ t.map key
    · exact ih (fun c hc h => hall c (by simp [hc]) h) hqt _
    · have hqh : key hd = q := by
        rw [List.map_cons] at hmem
        rcases List.mem_cons.mp hmem with h | h
        · exact h.symm
        · exact absurd h hqt
      rw [lookupAL_insFold_not_mem t key val _ q hqt, lookupAL_insert, if_pos hqh,
          hall hd (by simp) hqh]

theorem userDefrostFold_spec (us : List ColdUser) : ∀ (s : Cache),
    ((us.foldl
      (fun (acc : Cache) u =>
        let rec1 : CachedUser :=
          { username := u.username, botUser := u.botUser, mutualServers := u.mutualServers }
        let st1 := { acc.stats with uniqueUsers := i64Inc acc.stats.uniqueUsers }
        { acc with users := insertAL acc.users u.id rec1, stats := st1 }) s)).guilds = s.guilds ∧
    ((us.foldl
      (fun (acc : Cache) u =>
        let rec1 : CachedUser :=
          { username := u.username, botUser := u.botUser, mutualServers := u.mutualServers }
        let st1 := { acc.stats with uniqueUsers := i64Inc acc.stats.uniqueUsers }
        { acc with users := insertAL acc.users u.id rec1, stats := st1 }) s)).clusterId
      = s.clusterId ∧
    ∀ q, (lookupAL ((us.foldl
      (fun (acc : Cache) u =>
        let rec1 : CachedUser :=
          { username := u.username, botUser := u.botUser, mutualServers := u.mutualServers }
        let st1 := { acc.stats with uniqueUsers := i64Inc acc.stats.uniqueUsers }
        { acc with users := insertAL acc.users u.id rec1, stats := st1 }) s)).users q).isSome ↔
      q ∈ us.map ColdUser.id ∨ (lookupAL s.users q).isSome := by
  induction us with
  | nil =>
    intro s
    exact ⟨rfl, rfl, by intro q; simp⟩
  | cons hd t ih =>
    intro s
    rw [List.foldl_cons]
    obtain ⟨h1, h2, h3⟩ := ih _
    refine ⟨h1.trans rfl, h2.trans rfl, ?_⟩
    intro q
    rw [h3 q]
    have hst : (let rec1 : CachedUser :=
          { username := hd.username, botUser := hd.botUser, mutualServers := hd.mutualServers }
        let st1 := { s.stats with uniqueUsers := i64Inc s.stats.uniqueUsers }
        ({ s with users := insertAL s.users hd.id rec1, stats := st1 } : Cache)).users =
        insertAL s.users hd.id
          { username := hd.username, botUser := hd.botUser,
            mutualServers := hd.mutualServers } := rfl
    rw [hst, lookupAL_insert]
    by_cases hq : hd.id = q
    · simp only [if_pos hq, Option.isSome_some, or_true, List.map_cons, List.mem_cons, true_iff]
      exact Or.inl (Or.inl hq.symm)
    · have hq2 : ¬ q = hd.id := fun h => hq h.symm
      simp only [if_neg hq, List.map_cons, List.mem_cons, hq2, false_or]

theorem defrostUsers_ok_eq (c : Cache) (ST : Store) (j : Nat) (us : List ColdUser) (ttl : Nat)
    (hst : storeLookup ST (.userChunk c.clusterId j) = some (.userData us, ttl)) :
    c.defrostUsers noFaults ST j =
      { res := .ok,
        state := us.foldl
          (fun (acc : Cache) u =>
            let rec1 : CachedUser :=
              { username := u.username, botUser := u.botUser, mutualServers := u.mutualServers }
            let st1 := { acc.stats with uniqueUsers := i64Inc acc.stats.uniqueUsers }
            { acc with users := insertAL acc.users u.id rec1, stats := st1 }) c,
        store := storeDel ST (.userChunk c.clusterId j),
        trace := [.get (.userChunk c.clusterId j), .del (.userChunk c.clusterId j)] } := by
  unfold Cache.defrostUsers
  dsimp only
  rw [show noFaults.getFail (.userChunk c.clusterId j) = false from rfl, hst]
  simp only [Bool.false_eq_true, if_false]
  rw [show noFaults.delFail (.userChunk c.clusterId j) = false from rfl]
  simp only [Bool.false_eq_true, if_false]

theorem restoreUserPhaseOk : ∀ (uc j : Nat) (c : Cache) (ST : Store)
    (contents : Nat → List ColdUser),
    (∀ i, i < uc → storeLookup ST (.userChunk c.clusterId (j + i)) =
      some (.userData (contents (j + i)), 180)) →
    (runPhase (fun c st i => c.defrostUsers noFaults st i) j uc c ST).panicked = false ∧
    firstErr (runPhase (fun c st i => c.defrostUsers noFaults st i) j uc c ST).results = none ∧
    (runPhase (fun c st i => c.defrostUsers noFaults st i) j uc c ST).state.clusterId
      = c.clusterId ∧
    (runPhase (fun c st i => c.defrostUsers noFaults st i) j uc c ST).state.guilds = c.guilds ∧
    (∀ q, (lookupAL (runPhase (fun c st i => c.defrostUsers noFaults st i) j uc c ST).state.users
        q).isSome ↔
      (∃ i, i < uc ∧ q ∈ (contents (j + i)).map ColdUser.id) ∨ (lookupAL c.users q).isSome) ∧
    (∀ k : ChunkKey, (∀ i, i < uc → k ≠ .userChunk c.clusterId (j + i)) →
      storeLookup (runPhase (fun c st i => c.defrostUsers noFaults st i) j uc c ST).store k =
        storeLookup ST k) := by
  intro uc
  induction uc with
  | zero =>
    intro j c ST contents _
    refine ⟨rfl, rfl, rfl, rfl, ?_, ?_⟩
    · intro q
      simp [runPhase]
    · intro k _
      rfl
  | succ m ih =>
    intro j c ST contents hst
    have hst0 : storeLookup ST (.userChunk c.clusterId j) =
        some (.userData (contents j), 180) := by
      have h := hst 0 (Nat.succ_pos m)
      rwa [Nat.add_zero] at h
    have hd := defrostUsers_ok_eq c ST j (contents j) 180 hst0
    obtain ⟨hf1, hf2, hf3⟩ := userDefrostFold_spec (contents j) c
    have hrp : runPhase (fun c st i => c.defrostUsers noFaults st i) j (m + 1) c ST =
        { results := .ok ::
            (runPhase (fun c st i => c.defrostUsers noFaults st i) (j + 1) m
              ((contents j).foldl
                (fun (acc : Cache) u =>
                  let rec1 : CachedUser :=
                    { username := u.username, botUser := u.botUser,
                      mutualServers := u.mutualServers }
                  let st1 := { acc.stats with uniqueUsers := i64Inc acc.stats.uniqueUsers }
                  { acc with users := insertAL acc.users u.id rec1, stats := st1 }) c)
              (storeDel ST (.userChunk c.clusterId j))).results,
          panicked := (runPhase (fun c st i => c.defrostUsers noFaults st i) (j + 1) m
              ((contents j).foldl
                (fun (acc : Cache) u =>
                  let rec1 : CachedUser :=
                    { username := u.username, botUser := u.botUser,
                      mutualServers := u.mutualServers }
                  let st1 := { acc.stats with uniqueUsers := i64Inc acc.stats.uniqueUsers }
                  { acc with users := insertAL acc.users u.id rec1, stats := st1 }) c)
              (storeDel ST (.userChunk c.clusterId j))).panicked,
          state := (runPhase (fun c st i => c.defrostUsers noFaults st i) (j + 1) m
              ((contents j).foldl
                (fun (acc : Cache) u =>
                  let rec1 : CachedUser :=
                    { username := u.username, botUser := u.botUser,
                      mutualServers := u.mutualServers }
                  let st1 := { acc.stats with uniqueUsers := i64Inc acc.stats.uniqueUsers }
                  { acc with users := insertAL acc.users u.id rec1, stats := st1 }) c)
              (storeDel ST (.userChunk c.clusterId j))).state,
          store := (runPhase (fun c st i => c.defrostUsers noFaults st i) (j + 1) m
              ((contents j).foldl
                (fun (acc : Cache) u =>
                  let rec1 : CachedUser :=
                    { username := u.username, botUser := u.botUser,
                      mutualServers := u.mutualServers }
                  let st1 := { acc.stats with uniqueUsers := i64Inc acc.stats.uniqueUsers }
                  { acc with users := insertAL acc.users u.id rec1, stats := st1 }) c)
              (storeDel ST (.userChunk c.clusterId j))).store,
          trace := [.get (.userChunk c.clusterId j), .del (.userChunk c.clusterId j)] ++
            (runPhase (fun c st i => c.defrostUsers noFaults st i) (j + 1) m
              ((contents j).foldl
                (fun (acc : Cache) u =>
                  let rec1 : CachedUser :=
                    { username := u.username, botUser := u.botUser,
                      mutualServers := u.mutualServers }
                  let st1 := { acc.stats with uniqueUsers := i64Inc acc.stats.uniqueUsers }
                  { acc with users := insertAL acc.users u.id rec1, stats := st1 }) c)
              (storeDel ST (.userChunk c.clusterId j))).trace } := by
      rw [runPhase]
      dsimp only
      rw [hd]
      dsimp only
      rw [if_neg (by intro h; cases h)]
    have hih := ih (j + 1)
      ((contents j).foldl
        (fun (acc : Cache) u =>
          let rec1 : CachedUser :=
            { username := u.username, botUser := u.botUser, mutualServers := u.mutualServers }
          let st1 := { acc.stats with uniqueUsers := i64Inc acc.stats.uniqueUsers }
          { acc with users := insertAL acc.users u.id rec1, stats := st1 }) c)
      (storeDel ST (.userChunk c.clusterId j)) contents ?hstore
    case hstore =>
      intro i hi
      rw [hf2, storeLookup_del,
          if_neg (by simp only [ChunkKey.userChunk.injEq]; omega)]
      have h := hst (i + 1) (by omega)
      rwa [show j + (i + 1) = j + 1 + i from by omega] at h
    obtain ⟨g1, g2, g3, g4, g5, g6⟩ := hih
    rw [hrp]
    refine ⟨g1, ?_, ?_, ?_, ?_, ?_⟩
    · exact g2
    · exact g3.trans hf2
    · exact g4.trans hf1
    · intro q
      rw [g5 q, hf3 q]
      constructor
      · rintro (⟨i, hi, hq⟩ | hq | hq)
        · exact Or.inl ⟨i + 1, by omega, by rwa [show j + (i + 1) = j + 1 + i from by omega]⟩
        · exact Or.inl ⟨0, by omega, by rwa [Nat.add_zero]⟩
        · exact Or.inr hq
      · rintro (⟨i, hi, hq⟩ | hq)
        · cases i with
          | zero =>
            rw [Nat.add_zero] at hq
            exact Or.inr (Or.inl hq)
          | succ i' =>
            exact Or.inl ⟨i', by omega, by rwa [show j + 1 + i' = j + (i' + 1) from by omega]⟩
        · exact Or.inr (Or.inr hq)
    · intro k hk
      have hcond : ∀ i, i < m →
          k ≠ ChunkKey.userChunk (((contents j).foldl
            (fun (acc : Cache) u =>
              let rec1 : CachedUser :=
                { username := u.username, botUser := u.botUser,
                  mutualServers := u.mutualServers }
              let st1 := { acc.stats with uniqueUsers := i64Inc acc.stats.uniqueUsers }
              { acc with users := insertAL acc.users u.id rec1, stats := st1 }) c).clusterId)
            (j + 1 + i) := by
        intro i hi
        rw [hf2]
        have h := hk (i + 1) (by omega)
        rwa [show j + (i + 1) = j + 1 + i from by omega] at h
      have hne : ¬ (ChunkKey.userChunk c.clusterId j = k) := by
        intro h
        exact hk 0 (by omega) (by rw [Nat.add_zero]; exact h.symm)
      rw [g6 k hcond, storeLookup_del, if_neg hne]

/-- The pure CachedGuild rebuilt from a cold-storage record (the record
part of CachedGuild::defrost). -/
def ColdStorageGuild.thaw (cg : ColdStorageGuild) : CachedGuild :=
  { id := cg.id, name := cg.name, members := cg.members, channels := cg.channels,
    roles := cg.roles, emoji := cg.emoji, complete := true, memberCount := cg.memberCount }

theorem defrostGuildRec_snd (s : Cache) (cg : ColdStorageGuild) :
    (s.defrostGuildRec cg).2 = cg.thaw := rfl

theorem incMutual_users_isSome (s : Cache) (u q : Nat) :
    (lookupAL (s.incMutual u).users q).isSome = (lookupAL s.users q).isSome := by
  unfold Cache.incMutual
  cases hu : lookupAL s.users u with
  | none => rfl
  | some r =>
    dsimp only
    rw [lookupAL_insert]
    by_cases hq : u = q
    · subst hq
      rw [if_pos rfl, hu]
      rfl
    · rw [if_neg hq]

theorem foldInc_users_isSome (L : List (Nat × CachedMember)) : ∀ (s : Cache) (q : Nat),
    (lookupAL ((L.foldl (fun acc (m : Nat × CachedMember) => acc.incMutual m.2.userId) s)).users
        q).isSome =
      (lookupAL s.users q).isSome := by
  induction L with
  | nil => intro s q; rfl
  | cons hd t ih =>
    intro s q
    rw [List.foldl_cons, ih, incMutual_users_isSome]

theorem defrostOneGuild_users (acc : Cache) (cg : ColdStorageGuild) :
    (acc.defrostOneGuild cg).users =
      ((cg.members.foldl (fun a (m : Nat × CachedMember) => a.incMutual m.2.userId) acc)).users :=
  rfl

theorem defrostOneGuild_guilds (acc : Cache) (cg : ColdStorageGuild) :
    (acc.defrostOneGuild cg).guilds = insertAL acc.guilds cg.id cg.thaw := by
  unfold Cache.defrostOneGuild Cache.defrostGuildRec
  dsimp only
  rw [(foldInc_frame cg.members acc).1]
  rfl

theorem guildDefrostFold_guilds (gs : List ColdStorageGuild) : ∀ (s : Cache),
    (gs.foldl Cache.defrostOneGuild s).guilds =
      gs.foldl (fun m cg => insertAL m cg.id cg.thaw) s.guilds := by
  induction gs with
  | nil => intro s; rfl
  | cons hd t ih =>
    intro s
    rw [List.foldl_cons, List.foldl_cons, ih, defrostOneGuild_guilds]

theorem guildDefrostFold_users_isSome (gs : List ColdStorageGuild) : ∀ (s : Cache) (q : Nat),
    (lookupAL ((gs.foldl Cache.defrostOneGuild s)).users q).isSome =
      (lookupAL s.users q).isSome := by
  induction gs with
  | nil => intro s q; rfl
  | cons hd t ih =>
    intro s q
    rw [List.foldl_cons, ih, defrostOneGuild_users, foldInc_users_isSome]

theorem defrostGuilds_ok_eq (c : Cache) (ST : Store) (j : Nat) (gs : List ColdStorageGuild)
    (ttl : Nat)
    (hst : storeLookup ST (.guildChunk c.clusterId j) = some (.guildData gs, ttl)) :
    c.defrostGuilds noFaults ST j =
      { res := .ok,
        state := gs.foldl Cache.defrostOneGuild c,
        store := storeDel ST (.guildChunk c.clusterId j),
        trace := [.get (.guildChunk c.clusterId j), .del (.guildChunk c.clusterId j)] } := by
  unfold Cache.defrostGuilds
  dsimp only
  rw [show noFaults.getFail (.guildChunk c.clusterId j) = false from rfl, hst]
  simp only [Bool.false_eq_true, if_false]
  rw [show noFaults.delFail (.guildChunk c.clusterId j) = false from rfl]
  simp only [Bool.false_eq_true, if_false]

theorem restoreGuildPhaseOk : ∀ (gc j : Nat) (c : Cache) (ST : Store)
    (contents : Nat → List ColdStorageGuild),
    (∀ i, i < gc → storeLookup ST (.guildChunk c.clusterId (j + i)) =
      some (.guildData (contents (j + i)), 180)) →
    (runPhase (fun c st i => c.defrostGuilds noFaults st i) j gc c ST).panicked = false ∧
    firstErr (runPhase (fun c st i => c.defrostGuilds noFaults st i) j gc c ST).results = none ∧
    (runPhase (fun c st i => c.defrostGuilds noFaults st i) j gc c ST).state.clusterId
      = c.clusterId ∧
    (∀ q, (lookupAL (runPhase (fun c st i => c.defrostGuilds noFaults st i) j gc c
        ST).state.users q).isSome = (lookupAL c.users q).isSome) ∧
    (∀ q, (lookupAL (runPhase (fun c st i => c.defrostGuilds noFaults st i) j gc c
        ST).state.guilds q).isSome ↔
      (∃ i, i < gc ∧ q ∈ (contents (j + i)).map ColdStorageGuild.id) ∨
        (lookupAL c.guilds q).isSome) ∧
    (∀ q, (∀ i, i < gc → q ∉ (contents (j + i)).map ColdStorageGuild.id) →
      lookupAL (runPhase (fun c st i => c.defrostGuilds noFaults st i) j gc c
        ST).state.guilds q = lookupAL c.guilds q) ∧
    (∀ q v, (∀ i, i < gc → ∀ cg ∈ contents (j + i), cg.id = q → cg.thaw = v) →
      (∃ i, i < gc ∧ ∃ cg ∈ contents (j + i), cg.id = q) →
      lookupAL (runPhase (fun c st i => c.defrostGuilds noFaults st i) j gc c
        ST).state.guilds q = some v) ∧
    (∀ k : ChunkKey, (∀ i, i < gc → k ≠ .guildChunk c.clusterId (j + i)) →
      storeLookup (runPhase (fun c st i => c.defrostGuilds noFaults st i) j gc c ST).store k =
        storeLookup ST k) := by
  intro gc
  induction gc with
  | zero =>
    intro j c ST contents _
    refine ⟨rfl, rfl, rfl, fun q => rfl, ?_, fun q _ => rfl, ?_, fun k _ => rfl⟩
    · intro q
      simp [runPhase]
    · intro q v _ hex
      obtain ⟨i, hi, _⟩ := hex
      exact absurd hi (Nat.not_lt_zero i)
  | succ m ih =>
    intro j c ST contents hst
    have hst0 : storeLookup ST (.guildChunk c.clusterId j) =
        some (.guildData (contents j), 180) := by
      have h := hst 0 (Nat.succ_pos m)
      rwa [Nat.add_zero] at h
    have hd := defrostGuilds_ok_eq c ST j (contents j) 180 hst0
    have hc1 : ((contents j).foldl Cache.defrostOneGuild c).clusterId = c.clusterId :=
      (guildDefrostFold_frame (contents j) c).2
    have hrp : runPhase (fun c st i => c.defrostGuilds noFaults st i) j (m + 1) c ST =
        { results := .ok ::
            (runPhase (fun c st i => c.defrostGuilds noFaults st i) (j + 1) m
              ((contents j).foldl Cache.defrostOneGuild c)
              (storeDel ST (.guildChunk c.clusterId j))).results,
          panicked := (runPhase (fun c st i => c.defrostGuilds noFaults st i) (j + 1) m
              ((contents j).foldl Cache.defrostOneGuild c)
              (storeDel ST (.guildChunk c.clusterId j))).panicked,
          state := (runPhase (fun c st i => c.defrostGuilds noFaults st i) (j + 1) m
              ((contents j).foldl Cache.defrostOneGuild c)
              (storeDel ST (.guildChunk c.clusterId j))).state,
          store := (runPhase (fun c st i => c.defrostGuilds noFaults st i) (j + 1) m
              ((contents j).foldl Cache.defrostOneGuild c)
              (storeDel ST (.guildChunk c.clusterId j))).store,
          trace := [.get (.guildChunk c.clusterId j), .del (.guildChunk c.clusterId j)] ++
            (runPhase (fun c st i => c.defrostGuilds noFaults st i) (j + 1) m
              ((contents j).foldl Cache.defrostOneGuild c)
              (storeDel ST (.guildChunk c.clusterId j))).trace } := by
      rw [runPhase]
      dsimp only
      rw [hd]
      dsimp only
      rw [if_neg (by intro h; cases h)]
    have hih := ih (j + 1) ((contents j).foldl Cache.defrostOneGuild c)
      (storeDel ST (.guildChunk c.clusterId j)) contents ?hstore
    case hstore =>
      intro i hi
      rw [hc1, storeLookup_del,
          if_neg (by simp only [ChunkKey.guildChunk.injEq]; omega)]
      have h := hst (i + 1) (by omega)
      rwa [show j + (i + 1) = j + 1 + i from by omega] at h
    obtain ⟨g1, g2, g3, g4, g5, g6, g7, g8⟩ := hih
    rw [hrp]
    have hchunkSome : ∀ q,
        (lookupAL ((contents j).foldl Cache.defrostOneGuild c).guilds q).isSome ↔
          q ∈ (contents j).map ColdStorageGuild.id ∨ (lookupAL c.guilds q).isSome := by
      intro q
      rw [guildDefrostFold_guilds, lookupAL_insFold_isSome]
    have hchunkFrame : ∀ q, q ∉ (contents j).map ColdStorageGuild.id →
        lookupAL ((contents j).foldl Cache.defrostOneGuild c).guilds q =
          lookupAL c.guilds q := by
      intro q hq
      rw [guildDefrostFold_guilds, lookupAL_insFold_not_mem _ _ _ _ _ hq]
    refine ⟨g1, g2, g3.trans hc1, ?_, ?_, ?_, ?_, ?_⟩
    · intro q
      rw [g4 q, guildDefrostFold_users_isSome]
    · intro q
      rw [g5 q, hchunkSome q]
      constructor
      · rintro (⟨i, hi, hq⟩ | hq | hq)
        · exact Or.inl ⟨i + 1, by omega, by rwa [show j + (i + 1) = j + 1 + i from by omega]⟩
        · exact Or.inl ⟨0, by omega, by rwa [Nat.add_zero]⟩
        · exact Or.inr hq
      · rintro (⟨i, hi, hq⟩ | hq)
        · cases i with
          | zero =>
            rw [Nat.add_zero] at hq
            exact Or.inr (Or.inl hq)
          | succ i' =>
            exact Or.inl ⟨i', by omega, by rwa [show j + 1 + i' = j + (i' + 1) from by omega]⟩
        · exact Or.inr (Or.inr hq)
    · intro q hq
      rw [g6 q ?notmem, hchunkFrame q (by have h := hq 0 (by omega); rwa [Nat.add_zero] at h)]
      case notmem =>
        intro i hi
        have h := hq (i + 1) (by omega)
        rwa [show j + (i + 1) = j + 1 + i from by omega] at h
    · intro q v hall hex
      by_cases hlater : ∃ i, i < m ∧ ∃ cg ∈ contents (j + 1 + i), cg.id = q
      · refine g7 q v ?_ hlater
        intro i hi cg hcg hid
        have h := hall (i + 1) (by omega)
        rw [show j + (i + 1) = j + 1 + i from by omega] at h
        exact h cg hcg hid
      · have hnm : ∀ i, i < m → q ∉ (contents (j + 1 + i)).map ColdStorageGuild.id := by
          intro i hi hq
          obtain ⟨cg, hcg, hid⟩ := List.mem_map.mp hq
          exact hlater ⟨i, hi, cg, hcg, hid⟩
        rw [g6 q hnm]
        obtain ⟨i, hi, cg, hcg, hid⟩ := hex
        have hi0 : i = 0 := by
          by_contra h0
          obtain ⟨i', rfl⟩ : ∃ i', i = i' + 1 := ⟨i - 1, by omega⟩
          refine hlater ⟨i', by omega, cg, ?_, hid⟩
          rwa [show j + 1 + i' = j + (i' + 1) from by omega]
        subst hi0
        rw [Nat.add_zero] at hcg
        rw [guildDefrostFold_guilds]
        refine lookupAL_insFold_allsame (contents j) ColdStorageGuild.id ColdStorageGuild.thaw
          q v ?_ ?_ c.guilds
        · intro cg' hcg' hid'
          have h := hall 0 (by omega)
          rw [Nat.add_zero] at h
          exact h cg' hcg' hid'
        · exact List.mem_map.mpr ⟨cg, hcg, hid⟩
    · intro k hk
      have hcond : ∀ i, i < m →
          k ≠ ChunkKey.guildChunk (((contents j).foldl Cache.defrostOneGuild c).clusterId)
            (j + 1 + i) := by
        intro i hi
        rw [hc1]
        have h := hk (i + 1) (by omega)
        rwa [show j + (i + 1) = j + 1 + i from by omega] at h
      have hne : ¬ (ChunkKey.guildChunk c.clusterId j = k) := by
        intro h
        exact hk 0 (by omega) (by rw [Nat.add_zero]; exact h.symm)
      rw [g8 k hcond, storeLookup_del, if_neg hne]

/-- The i-th guild chunk payload written by prepare_cold_resume, expressed
over the original cache. -/
def gContent (s : Cache) (i : Nat) : List ColdStorageGuild :=
  ((partitionGuilds s.guilds).getD i []).filterMap
    (fun k => (lookupAL s.guilds k).map ColdStorageGuild.fromGuild)

/-- The i-th user chunk payload written by prepare_cold_resume, expressed
over the original cache. -/
def uContent (s : Cache) (i : Nat) : List ColdUser :=
  ((userWorkOrders (keysAL s.users) (s.users.length / 100000 + 1)).getD i []).filterMap
    (fun k => (lookupAL s.users k).map
      (fun u => { id := k, username := u.username, botUser := u.botUser, mutualServers := 0 }))

theorem gContent_mem_id (s : Cache)
    (hids : ∀ p ∈ s.guilds, (p.2 : CachedGuild).id = p.1) (i q : Nat)
    (hq : q ∈ (gContent s i).map ColdStorageGuild.id) : (lookupAL s.guilds q).isSome := by
  obtain ⟨cg, hcg, hid⟩ := List.mem_map.mp hq
  obtain ⟨k, hk, hfk⟩ := List.mem_filterMap.mp hcg
  cases hlk : lookupAL s.guilds k with
  | none => rw [hlk] at hfk; cases hfk
  | some g1 =>
    rw [hlk] at hfk
    rw [Option.map_some'] at hfk
    injection hfk with hfk
    have hgid : g1.id = k := hids (k, g1) (lookupAL_mem _ _ _ hlk)
    have hqk : q = k := by
      rw [← hid, ← hfk]
      exact hgid
    rw [hqk, hlk]
    rfl

theorem gContent_exists (s : Cache)
    (hids : ∀ p ∈ s.guilds, (p.2 : CachedGuild).id = p.1) (q : Nat)
    (hq : (lookupAL s.guilds q).isSome) :
    ∃ i, i < (partitionGuilds s.guilds).length ∧
      q ∈ (gContent s i).map ColdStorageGuild.id := by
  have hmem : q ∈ (partitionGuilds s.guilds).join := by
    rw [partitionGuilds_join]
    exact (lookupAL_isSome_iff_mem_keys _ _).mp hq
  obtain ⟨o, ho, hqo⟩ := List.mem_join.mp hmem
  obtain ⟨n, hn⟩ := List.mem_iff_get.mp ho
  obtain ⟨G, hG⟩ := Option.isSome_iff_exists.mp hq
  refine ⟨n.1, n.2, ?_⟩
  refine List.mem_map.mpr ⟨ColdStorageGuild.fromGuild G, ?_, hids (q, G) (lookupAL_mem _ _ _ hG)⟩
  unfold gContent
  rw [List.getD_eq_get?, List.get?_eq_get n.2, hn]
  exact List.mem_filterMap.mpr ⟨q, hqo, by rw [hG]; rfl⟩

theorem gContent_allsame (s : Cache)
    (hids : ∀ p ∈ s.guilds, (p.2 : CachedGuild).id = p.1) (g : Nat) (G : CachedGuild)
    (hlook : lookupAL s.guilds g = some G) :
    ∀ i, ∀ cg ∈ gContent s i, cg.id = g → cg.thaw = (ColdStorageGuild.fromGuild G).thaw := by
  intro i cg hcg hid
  obtain ⟨k, hk, hfk⟩ := List.mem_filterMap.mp hcg
  cases hlk : lookupAL s.guilds k with
  | none => rw [hlk] at hfk; cases hfk
  | some g1 =>
    rw [hlk] at hfk
    rw [Option.map_some'] at hfk
    injection hfk with hfk
    have hgid : g1.id = k := hids (k, g1) (lookupAL_mem _ _ _ hlk)
    have hkg : k = g := by
      rw [← hid, ← hfk]
      exact hgid.symm
    rw [hkg, hlook] at hlk
    have hg1 : g1 = G := by
      injection hlk with h2
      exact h2.symm
    rw [← hfk, hg1]

theorem uContent_mem_id (s : Cache) (i q : Nat)
    (hq : q ∈ (uContent s i).map ColdUser.id) : (lookupAL s.users q).isSome := by
  obtain ⟨cu, hcu, hid⟩ := List.mem_map.mp hq
  obtain ⟨k, hk, hfk⟩ := List.mem_filterMap.mp hcu
  cases hlk : lookupAL s.users k with
  | none => rw [hlk] at hfk; cases hfk
  | some u1 =>
    rw [hlk] at hfk
    rw [Option.map_some'] at hfk
    injection hfk with hfk
    have hqk : q = k := by
      rw [← hid, ← hfk]
    rw [hqk, hlk]
    rfl

theorem uContent_exists (s : Cache) (q : Nat) (hq : (lookupAL s.users q).isSome) :
    ∃ i, i < s.users.length / 100000 + 1 ∧ q ∈ (uContent s i).map ColdUser.id := by
  have hperm := userWorkOrders_join_perm (keysAL s.users) (s.users.length / 100000 + 1)
    (Nat.succ_pos _)
  have hmem : q ∈ (userWorkOrders (keysAL s.users) (s.users.length / 100000 + 1)).join :=
    hperm.mem_iff.mpr ((lookupAL_isSome_iff_mem_keys _ _).mp hq)
  obtain ⟨o, ho, hqo⟩ := List.mem_join.mp hmem
  obtain ⟨n, hn⟩ := List.mem_iff_get.mp ho
  obtain ⟨u1, hu1⟩ := Option.isSome_iff_exists.mp hq
  have hlt : n.1 < s.users.length / 100000 + 1 :=
    lt_of_lt_of_le n.2 (le_of_eq (userWorkOrders_length _ _))
  refine ⟨n.1, hlt, ?_⟩
  refine List.mem_map.mpr ⟨⟨q, u1.username, u1.botUser, 0⟩, ?_, rfl⟩
  unfold uContent
  rw [List.getD_eq_get?, List.get?_eq_get n.2, hn]
  exact List.mem_filterMap.mpr ⟨q, hqo, by rw [hu1]; rfl⟩


/-- A fresh process cache for the same cluster, as restore_cold_resume is
run on Cache::new right after startup. -/
def Cache.freshFor (s : Cache) : Cache := { Cache.new with clusterId := s.clusterId }

/-- Snapshot with prepare_cold_resume into an empty store, then restore
with restore_cold_resume on a fresh cache using the returned chunk
counts. -/
def roundTrip (s : Cache) : RestoreRes :=
  (Cache.freshFor s).restoreColdResume noFaults
    (s.prepareColdResume []).2.2 (s.prepareColdResume []).1.1 (s.prepareColdResume []).1.2

/-- C2: restoring the chunks written by prepare_cold_resume (with the chunk
counts it returns) on a fresh cache succeeds and reproduces the guild set,
each guild's member map, and the user set of the original cache,
membership-equal under lookup. -/
theorem cold_resume_round_trip (s : Cache)
    (hg : (keysAL s.guilds).Nodup) (hu : (keysAL s.users).Nodup)
    (hids : ∀ p ∈ s.guilds, (p.2 : CachedGuild).id = p.1) :
    (roundTrip s).out = .ok ∧
    (∀ g, (lookupAL (roundTrip s).state.guilds g).isSome ↔ (lookupAL s.guilds g).isSome) ∧
    (∀ g G, lookupAL s.guilds g = some G →
      ∃ G1, lookupAL (roundTrip s).state.guilds g = some G1 ∧
        ∀ m, (lookupAL G1.members m).isSome ↔ (lookupAL G.members m).isSome) ∧
    (∀ u, (lookupAL (roundTrip s).state.users u).isSome ↔ (lookupAL s.users u).isSome) := by
  obtain ⟨hc1, hc2, hgc, huc⟩ := prepareColdResume_spec s hg hu
  have hustore : ∀ i, i < (s.prepareColdResume []).1.2 →
      storeLookup (s.prepareColdResume []).2.2
        (.userChunk ({ Cache.new with clusterId := s.clusterId } : Cache).clusterId (0 + i)) =
      some (.userData (uContent s (0 + i)), 180) := by
    intro i hi
    rw [hc2] at hi
    rw [Nat.zero_add]
    have hilen : i < (userWorkOrders (keysAL s.users) (s.users.length / 100000 + 1)).length := by
      rw [userWorkOrders_length]
      exact hi
    have hget := List.get?_eq_get hilen
    have hcontent : uContent s i =
        ((userWorkOrders (keysAL s.users) (s.users.length / 100000 + 1)).get
          ⟨i, hilen⟩).filterMap
          (fun k => (lookupAL s.users k).map
            (fun u => ({ id := k, username := u.username, botUser := u.botUser,
                         mutualServers := 0 } : ColdUser))) := by
      unfold uContent
      rw [List.getD_eq_get?, hget]
      rfl
    rw [hcontent]
    exact huc i _ hget
  obtain ⟨u1, u2, u3, u4, u5, u6⟩ := restoreUserPhaseOk (s.prepareColdResume []).1.2 0
    { Cache.new with clusterId := s.clusterId } (s.prepareColdResume []).2.2
    (uContent s) hustore
  have hgstore : ∀ i, i < (s.prepareColdResume []).1.1 →
      storeLookup (runPhase (fun c st i => c.defrostUsers noFaults st i) 0
      (s.prepareColdResume []).1.2
      { Cache.new with clusterId := s.clusterId }
      (s.prepareColdResume []).2.2).store
        (.guildChunk (runPhase (fun c st i => c.defrostUsers noFaults st i) 0
      (s.prepareColdResume []).1.2
      { Cache.new with clusterId := s.clusterId }
      (s.prepareColdResume []).2.2).state.clusterId (0 + i)) =
      some (.guildData (gContent s (0 + i)), 180) := by
    intro i hi
    rw [hc1] at hi
    rw [Nat.zero_add, u3]
    have hilen : i < (partitionGuilds s.guilds).length := hi
    have hget := List.get?_eq_get hilen
    have hcontent : gContent s i =
        ((partitionGuilds s.guilds).get ⟨i, hilen⟩).filterMap
          (fun k => (lookupAL s.guilds k).map ColdStorageGuild.fromGuild) := by
      unfold gContent
      rw [List.getD_eq_get?, hget]
      rfl
    rw [hcontent]
    rw [u6 (.guildChunk ({ Cache.new with clusterId := s.clusterId } : Cache).clusterId i)
      (fun j hj => by simp)]
    exact hgc i _ hget
  obtain ⟨p1, p2, p3, p4, p5, p6, p7, p8⟩ := restoreGuildPhaseOk (s.prepareColdResume []).1.1 0
    (runPhase (fun c st i => c.defrostUsers noFaults st i) 0
      (s.prepareColdResume []).1.2
      { Cache.new with clusterId := s.clusterId }
      (s.prepareColdResume []).2.2).state (runPhase (fun c st i => c.defrostUsers noFaults st i) 0
      (s.prepareColdResume []).1.2
      { Cache.new with clusterId := s.clusterId }
      (s.prepareColdResume []).2.2).store (gContent s) hgstore
  have hrt : roundTrip s =
      { out := .ok,
        state := { (runPhase (fun c st i => c.defrostGuilds noFaults st i) 0
      (s.prepareColdResume []).1.1
      (runPhase (fun c st i => c.defrostUsers noFaults st i) 0
      (s.prepareColdResume []).1.2
      { Cache.new with clusterId := s.clusterId }
      (s.prepareColdResume []).2.2).state
      (runPhase (fun c st i => c.defrostUsers noFaults st i) 0
      (s.prepareColdResume []).1.2
      { Cache.new with clusterId := s.clusterId }
      (s.prepareColdResume []).2.2).store).state with filling := false },
        store := (runPhase (fun c st i => c.defrostGuilds noFaults st i) 0
      (s.prepareColdResume []).1.1
      (runPhase (fun c st i => c.defrostUsers noFaults st i) 0
      (s.prepareColdResume []).1.2
      { Cache.new with clusterId := s.clusterId }
      (s.prepareColdResume []).2.2).state
      (runPhase (fun c st i => c.defrostUsers noFaults st i) 0
      (s.prepareColdResume []).1.2
      { Cache.new with clusterId := s.clusterId }
      (s.prepareColdResume []).2.2).store).store,
        trace := (runPhase (fun c st i => c.defrostUsers noFaults st i) 0
      (s.prepareColdResume []).1.2
      { Cache.new with clusterId := s.clusterId }
      (s.prepareColdResume []).2.2).trace ++ (runPhase (fun c st i => c.defrostGuilds noFaults st i) 0
      (s.prepareColdResume []).1.1
      (runPhase (fun c st i => c.defrostUsers noFaults st i) 0
      (s.prepareColdResume []).1.2
      { Cache.new with clusterId := s.clusterId }
      (s.prepareColdResume []).2.2).state
      (runPhase (fun c st i => c.defrostUsers noFaults st i) 0
      (s.prepareColdResume []).1.2
      { Cache.new with clusterId := s.clusterId }
      (s.prepareColdResume []).2.2).store).trace ++ [.flipFill] } := by
    unfold roundTrip Cache.freshFor Cache.restoreColdResume
    dsimp only
    rw [if_neg (by simp [u1]), u2, if_neg (by simp [p1]), p2]
  refine ⟨?_, ?_, ?_, ?_⟩
  · rw [hrt]
  · intro g
    rw [hrt]
    dsimp only
    refine Iff.trans (p5 g) ?_
    constructor
    · rintro (⟨i, hi, hq⟩ | hq)
      · exact gContent_mem_id s hids (0 + i) g hq
      · rw [u4] at hq
        simp [Cache.new] at hq
    · intro hq
      obtain ⟨i, hi, hq2⟩ := gContent_exists s hids g hq
      refine Or.inl ⟨i, by rw [hc1]; exact hi, ?_⟩
      rw [Nat.zero_add]
      exact hq2
  · intro g G hlook
    rw [hrt]
    dsimp only
    refine ⟨(ColdStorageGuild.fromGuild G).thaw, ?_, ?_⟩
    · refine p7 g ((ColdStorageGuild.fromGuild G).thaw)
        (fun i hi cg hcg hid => gContent_allsame s hids g G hlook (0 + i) cg hcg hid) ?_
      have hq : (lookupAL s.guilds g).isSome := by rw [hlook]; rfl
      obtain ⟨i, hi, hq2⟩ := gContent_exists s hids g hq
      obtain ⟨cg, hcg, hid⟩ := List.mem_map.mp hq2
      refine ⟨i, by rw [hc1]; exact hi, cg, ?_, hid⟩
      rw [Nat.zero_add]
      exact hcg
    · intro m
      exact Iff.rfl
  · intro u0
    rw [hrt]
    dsimp only
    rw [p4 u0]
    refine Iff.trans (u5 u0) ?_
    constructor
    · rintro (⟨i, hi, hq⟩ | hq)
      · exact uContent_mem_id s (0 + i) u0 hq
      · simp [Cache.new] at hq
    · intro hq
      obtain ⟨i, hi, hq2⟩ := uContent_exists s u0 hq
      refine Or.inl ⟨i, by rw [hc2]; exact hi, ?_⟩
      rw [Nat.zero_add]
      exact hq2

def c2wGuild : CachedGuild :=
  { id := 5, name := "g", members := [(9, { userId := 9, nickname := none, roleIds := [] })],
    channels := [], roles := [], emoji := [], complete := true, memberCount := 1 }

def c2wCache : Cache :=
  { Cache.new with
      clusterId := 7,
      guilds := [(5, c2wGuild)],
      users := [(9, { username := "u", botUser := false, mutualServers := 1 })] }

/-- C2 witness: the round trip on a concrete one-guild one-user cache
succeeds and finds the guild and the user again. -/
theorem cold_resume_round_trip_witness :
    ((keysAL c2wCache.guilds).Nodup ∧ (keysAL c2wCache.users).Nodup ∧
      ∀ p ∈ c2wCache.guilds, (p.2 : CachedGuild).id = p.1) ∧
    (roundTrip c2wCache).out = .ok ∧
    ((lookupAL (roundTrip c2wCache).state.guilds 5).isSome ↔
      (lookupAL c2wCache.guilds 5).isSome) ∧
    ((lookupAL (roundTrip c2wCache).state.users 9).isSome ↔
      (lookupAL c2wCache.users 9).isSome) :=
  ⟨⟨by decide, by decide, by decide⟩,
   (cold_resume_round_trip c2wCache (by decide) (by decide) (by decide)).1,
   (cold_resume_round_trip c2wCache (by decide) (by decide) (by decide)).2.1 5,
   (cold_resume_round_trip c2wCache (by decide) (by decide) (by decide)).2.2.2 9⟩
